import Mathlib

/-!
# Pet persistence (`src/server/game/Entities/Pet/Pet.cpp`)

A shallow embedding of the record selection, the ability / cooldown / aura
flushes, the loading of a record with its effects and abilities, the ability
book with ranks and talents, and the update tick with the deferred cast of
`Pet.cpp`, with the properties of the specification stated over it.

Conventions of the embedding:
* `uint32` values that are only compared or copied are `Nat`;
  where the source does 32-bit arithmetic the reduction `% 2 ^ 32` is explicit;
* a pointer into the pet stable is the place it points to (`PetInfoPtr`);
* `std::map` / `std::unordered_map` members are association lists, iterated in
  list order;
* a database transaction is the list of statements appended to it;
* `int32` values are `Int`, with `wrapInt32` where the source converts or
  computes in 32 bits, and `Int.tdiv` for the truncating division;
* a `Unit*` is `Option Nat`, a unit handle or the null pointer;
* calls into code outside the file are fields of a world structure when their
  result is read, and entries of a call trace when only the call matters.
-/

set_option autoImplicit false

/-! ## Data model -/

/-- Pet categories, the values of `PetType` used by `Pet.cpp`. -/
inductive PetType where
  | SUMMON_PET
  | HUNTER_PET
  | MAX_PET_TYPE
  deriving DecidableEq, Repr

/-- The persisted pet record `PetStable::PetInfo`, with the fields written by
`Pet::FillPetInfo`. -/
structure PetInfo where
  PetNumber : Nat := 0
  CreatureId : Nat := 0
  DisplayId : Nat := 0
  Level : Nat := 0
  Experience : Nat := 0
  ReactState : Nat := 0
  Name : String := ""
  WasRenamed : Bool := false
  Health : Nat := 0
  Mana : Nat := 0
  Happiness : Nat := 0
  ActionBar : String := ""
  LastSaveTime : Int := 0
  CreatedBySpellId : Nat := 0
  Type_ : PetType := PetType.MAX_PET_TYPE
  deriving DecidableEq, Repr

/-- The owner's pet set `PetStable`: the current slot, the stable slots
(an array of optional records) and the unslotted list. -/
structure PetStable where
  CurrentPet : Option PetInfo := none
  StabledPets : List (Option PetInfo) := []
  UnslottedPets : List PetInfo := []
  deriving DecidableEq, Repr

/-- A `PetStable::PetInfo const*` into a stable: the place it points to. -/
inductive PetInfoPtr where
  | current
  | stabled (slot : Nat)
  | unslotted (index : Nat)
  deriving DecidableEq, Repr

/-- The save-slot mode `PetSaveMode`, an integer-valued enumeration. -/
abbrev PetSaveMode := Int

/-- Modelled from the spec: the enumerators of `PetSaveMode` are declared in a
header that is not part of the sources; the order is
DELETED < AS_CURRENT < STABLE_SLOT_1..N < NOT_IN_SLOT. -/
def PET_SAVE_AS_DELETED : PetSaveMode := -1

/-- Modelled from the spec: slot mode "current" (`0=current` in the comment of
`LoadPetFromDB`). -/
def PET_SAVE_AS_CURRENT : PetSaveMode := 0

/-- Modelled from the spec: the first stable slot (`1..MAX_PET_STABLES`). -/
def PET_SAVE_FIRST_STABLE_SLOT : PetSaveMode := 1

/-- Modelled from the spec: "not in slot" (`PET_SAVE_NOT_IN_SLOT(100)` in the
comment of `LoadPetFromDB`). -/
def PET_SAVE_NOT_IN_SLOT : PetSaveMode := 100

namespace PetStable

/-- Dereference of a pointer into the stable. -/
def deref (stable : PetStable) : PetInfoPtr → Option PetInfo
  | PetInfoPtr.current => stable.CurrentPet
  | PetInfoPtr.stabled slot => (stable.StabledPets[slot]?).join
  | PetInfoPtr.unslotted index => stable.UnslottedPets[index]?

/-- The stable holds at least one pet record: in the current slot, in a stable
slot or in the unslotted list. -/
def holdsRecord (stable : PetStable) : Prop :=
  stable.CurrentPet ≠ none ∨ (∃ pet, some pet ∈ stable.StabledPets) ∨ stable.UnslottedPets ≠ []

/-- All records of the stable in the search order of a lookup by pet number:
the current slot, then the stable slots by index, then the unslotted list. -/
def recordsInSearchOrder (stable : PetStable) : List PetInfo :=
  stable.CurrentPet.toList ++ stable.StabledPets.filterMap id ++ stable.UnslottedPets

end PetStable

/-- Index of the first element of a list that satisfies `p`: the result of a
`for` loop that returns at the first hit. -/
def firstIndex {α : Type} (p : α → Bool) : List α → Option Nat
  | [] => none
  | a :: rest => if p a then some 0 else (firstIndex p rest).map (· + 1)

namespace Pet

/-- The test `stable.StabledPets[slot] && stable.StabledPets[slot]->PetNumber == petnumber`. -/
def stabledHasNumber (petnumber : Nat) : Option PetInfo → Bool
  | some pet => pet.PetNumber == petnumber
  | none => false

/-- `Pet::GetLoadPetInfo`: the record to load and the slot mode it is stored under. -/
def GetLoadPetInfo (stable : PetStable) (petEntry petnumber : Nat) (current : Bool) :
    Option PetInfoPtr × PetSaveMode :=
  if petnumber ≠ 0 then
    -- Known petnumber entry
    if stabledHasNumber petnumber stable.CurrentPet then
      (some PetInfoPtr.current, PET_SAVE_AS_CURRENT)
    else
      match firstIndex (stabledHasNumber petnumber) stable.StabledPets with
      | some stableSlot =>
          (some (PetInfoPtr.stabled stableSlot), PET_SAVE_FIRST_STABLE_SLOT + (stableSlot : Int))
      | none =>
          match firstIndex (fun pet => pet.PetNumber == petnumber) stable.UnslottedPets with
          | some index => (some (PetInfoPtr.unslotted index), PET_SAVE_NOT_IN_SLOT)
          | none => (none, PET_SAVE_AS_DELETED)
  else if current then
    -- Current pet (slot 0)
    match stable.CurrentPet with
    | some _ => (some PetInfoPtr.current, PET_SAVE_AS_CURRENT)
    | none => (none, PET_SAVE_AS_DELETED)
  else if petEntry ≠ 0 then
    -- known petEntry entry (only from current or not stabled pets)
    if (match stable.CurrentPet with
        | some pet => pet.CreatureId == petEntry
        | none => false) then
      (some PetInfoPtr.current, PET_SAVE_AS_CURRENT)
    else
      match firstIndex (fun pet => pet.CreatureId == petEntry) stable.UnslottedPets with
      | some index => (some (PetInfoPtr.unslotted index), PET_SAVE_NOT_IN_SLOT)
      | none => (none, PET_SAVE_AS_DELETED)
  else
    -- Any current or other non-stabled pet (for hunter "call pet")
    match stable.CurrentPet with
    | some _ => (some PetInfoPtr.current, PET_SAVE_AS_CURRENT)
    | none =>
        if stable.UnslottedPets ≠ [] then
          (some (PetInfoPtr.unslotted 0), PET_SAVE_NOT_IN_SLOT)
        else (none, PET_SAVE_AS_DELETED)

/-- The record `GetLoadPetInfo` returns, read through the returned pointer. -/
def loadedRecord (stable : PetStable) (petEntry petnumber : Nat) (current : Bool) :
    Option PetInfo :=
  (GetLoadPetInfo stable petEntry petnumber current).1.bind stable.deref

end Pet

/-! ## Ability book, cooldown table, auras and the statements of a flush -/

/-- Dirty state of an ability entry (`PetSpellState`). -/
inductive PetSpellState where
  | PETSPELL_UNCHANGED
  | PETSPELL_CHANGED
  | PETSPELL_NEW
  | PETSPELL_REMOVED
  deriving DecidableEq, Repr

/-- Kind of an ability entry (`PetSpellType`). -/
inductive PetSpellType where
  | PETSPELL_NORMAL
  | PETSPELL_FAMILY
  | PETSPELL_TALENT
  deriving DecidableEq, Repr

/-- Activation mode of an ability entry (`ActiveStates`). -/
inductive ActiveStates where
  | ACT_PASSIVE
  | ACT_DISABLED
  | ACT_ENABLED
  | ACT_DECIDE
  deriving DecidableEq, Repr

/-- An entry of the ability book (`PetSpell`). -/
structure PetSpell where
  active : ActiveStates := ActiveStates.ACT_DECIDE
  state : PetSpellState := PetSpellState.PETSPELL_NEW
  type : PetSpellType := PetSpellType.PETSPELL_NORMAL
  deriving DecidableEq, Repr

/-- The ability book `m_spells` (`PetSpellMap`), in iteration order. -/
abbrev PetSpellMap := List (Nat × PetSpell)

/-- An entry of the cooldown table (`CreatureSpellCooldown`); `end_` is the
member `end`, a 32-bit millisecond timestamp. -/
structure CreatureSpellCooldown where
  category : Nat := 0
  end_ : Nat := 0
  deriving DecidableEq, Repr

/-- The cooldown table `m_CreatureSpellCooldowns`, in iteration order. -/
abbrev CreatureSpellCooldowns := List (Nat × CreatureSpellCooldown)

/-- What `Pet::_SaveAuras` reads from an aura effect (`AuraEffect`). -/
structure AuraEffect where
  BaseAmount : Int := 0
  Amount : Int := 0
  CanBeRecalculated : Bool := false
  deriving DecidableEq, Repr

/-- What `Pet.cpp` reads from a `SpellInfo`. -/
structure SpellInfo where
  Id : Nat := 0
  IsPositive : Bool := true
  IsAutocastable : Bool := false
  IsPassive : Bool := false
  IsRanked : Bool := false
  SpellLevel : Nat := 0
  Duration : Int := 0
  HasAttribute_SPELL_ATTR0_NO_AURA_CANCEL : Bool := false
  HasAttribute_SPELL_ATTR1_NO_AURA_ICON : Bool := false
  HasAura_SPELL_AURA_TRANSFORM : Bool := false
  AuraInterruptFlags : Nat := 0
  HasAttribute_SPELL_ATTR4_AURA_EXPIRES_OFFLINE : Bool := false
  ProcCharges : Nat := 0
  IsCooldownStartedOnEvent : Bool := false
  RangeIsMelee : Bool := false
  deriving DecidableEq, Repr

/-- What `Pet::_SaveAuras` reads from an owned aura (`Aura`). `GetEffect i` is
`Effects.get? i` joined, for the three effect slots. -/
structure Aura where
  CanBeSaved : Bool := true
  Duration : Int := 0
  MaxDuration : Int := 0
  IsPermanent : Bool := false
  CasterGUID : Nat := 0
  StackAmount : Nat := 0
  Charges : Nat := 0
  Effects : List (Option AuraEffect) := []
  spellInfo : SpellInfo := {}
  deriving DecidableEq, Repr

/-- The row bound to a `CHAR_INS_PET_AURA` statement, in binding order. -/
structure PetAuraRow where
  petNumber : Nat
  casterGUID : Nat
  spell : Nat
  effMask : Nat
  recalculateMask : Nat
  stackAmount : Nat
  damage0 : Int
  damage1 : Int
  damage2 : Int
  baseDamage0 : Int
  baseDamage1 : Int
  baseDamage2 : Int
  maxDuration : Int
  duration : Int
  charges : Nat
  deriving DecidableEq, Repr

/-- The prepared statements the flushes append to a transaction, with the
data bound to them. -/
inductive Stmt where
  | CHAR_DEL_PET_SPELL_BY_SPELL (petNumber spell : Nat)
  | CHAR_INS_PET_SPELL (petNumber spell : Nat) (active : ActiveStates)
  | CHAR_DEL_PET_SPELL_COOLDOWNS (petNumber : Nat)
  | CHAR_INS_PET_SPELL_COOLDOWN (petNumber spell category cooldown : Nat)
  | CHAR_DEL_PET_AURAS (petNumber : Nat)
  | CHAR_INS_PET_AURA (row : PetAuraRow)
  | CHAR_DEL_INVALID_PET_SPELL (spell : Nat)
  | CHAR_DEL_CHAR_PET_BY_ID (petNumber : Nat)
  | CHAR_DEL_CHAR_PET_BY_SLOT (owner : Nat) (slotFrom slotTo : Int)
  | CHAR_REP_CHAR_PET (owner : Nat) (slot : Int) (row : PetInfo)
  | CHAR_DEL_CHAR_PET_DECLINEDNAME (petNumber : Nat)
  | CHAR_DEL_PET_SPELLS (petNumber : Nat)
  deriving DecidableEq, Repr

/-- A transaction: the statements appended so far (`trans->Append`). -/
abbrev Transaction := List Stmt

/-- Modelled from the spec: `IN_MILLISECONDS` is declared in a header that is
not part of the sources; the grace of a cooldown is 1 second = `1000` and the
duration floor of an effect is 60 seconds = `60 * IN_MILLISECONDS`. -/
def IN_MILLISECONDS : Nat := 1000

/-- The range of `uint32`, `2 ^ 32`. -/
def UINT32 : Nat := 4294967296

namespace Pet

/-- `Pet::_SaveSpells`: the diff of the ability book, entry by entry in
iteration order; returns the book after the flush and the transaction. -/
def _SaveSpells (petNumber : Nat) : PetSpellMap → Transaction → PetSpellMap × Transaction
  | [], tx => ([], tx)
  | (spell, entry) :: next, tx =>
    -- prevent saving family passives to DB
    if entry.type = PetSpellType.PETSPELL_FAMILY then
      let r := _SaveSpells petNumber next tx
      ((spell, entry) :: r.1, r.2)
    else
      match entry.state with
      | PetSpellState.PETSPELL_REMOVED =>
          _SaveSpells petNumber next (tx ++ [Stmt.CHAR_DEL_PET_SPELL_BY_SPELL petNumber spell])
      | PetSpellState.PETSPELL_CHANGED =>
          let r := _SaveSpells petNumber next
            (tx ++ [Stmt.CHAR_DEL_PET_SPELL_BY_SPELL petNumber spell,
                       Stmt.CHAR_INS_PET_SPELL petNumber spell entry.active])
          ((spell, { entry with state := PetSpellState.PETSPELL_UNCHANGED }) :: r.1, r.2)
      | PetSpellState.PETSPELL_NEW =>
          let r := _SaveSpells petNumber next
            (tx ++ [Stmt.CHAR_INS_PET_SPELL petNumber spell entry.active])
          ((spell, { entry with state := PetSpellState.PETSPELL_UNCHANGED }) :: r.1, r.2)
      | PetSpellState.PETSPELL_UNCHANGED =>
          let r := _SaveSpells petNumber next tx
          ((spell, entry) :: r.1, r.2)

/-- The value `uint32 cooldown = ((itr2->second.end - curMSTime) / IN_MILLISECONDS) + curTime`
of `Pet::_SaveSpellCooldowns`: a 32-bit difference, divided, added to the 64-bit
`curTime` and converted to `uint32`. -/
def savedCooldown (curTime : Int) (curMSTime end_ : Nat) : Nat :=
  (((((end_ + UINT32 - curMSTime) % UINT32 / IN_MILLISECONDS : Nat) : Int) + curTime)
    % (UINT32 : Int)).toNat

/-- The loop of `Pet::_SaveSpellCooldowns` ("remove oudated and save active"). -/
def saveCooldownLoop (petNumber infinityCooldownDelayCheck : Nat) (curTime : Int)
    (curMSTime : Nat) : CreatureSpellCooldowns → Transaction → CreatureSpellCooldowns × Transaction
  | [], tx => ([], tx)
  | (spell, cd) :: rest, tx =>
    let infTime := (curMSTime + infinityCooldownDelayCheck) % UINT32
    if cd.end_ ≤ (curMSTime + 1000) % UINT32 then
      saveCooldownLoop petNumber infinityCooldownDelayCheck curTime curMSTime rest tx
    else if cd.end_ ≤ infTime then
      let cooldown : Nat := savedCooldown curTime curMSTime cd.end_
      let r := saveCooldownLoop petNumber infinityCooldownDelayCheck curTime curMSTime rest
        (tx ++ [Stmt.CHAR_INS_PET_SPELL_COOLDOWN petNumber spell cd.category cooldown])
      ((spell, cd) :: r.1, r.2)
    else
      let r := saveCooldownLoop petNumber infinityCooldownDelayCheck curTime curMSTime rest tx
      ((spell, cd) :: r.1, r.2)

/-- `Pet::_SaveSpellCooldowns`: `curTime` is `GameTime::GetGameTime()` in seconds
(`time_t`), `curMSTime` is `GameTime::GetGameTimeMS()` (`uint32`);
`infinityCooldownDelayCheck` is a constant declared outside the sources. -/
def _SaveSpellCooldowns (petNumber infinityCooldownDelayCheck : Nat) (curTime : Int)
    (curMSTime : Nat) (cooldowns : CreatureSpellCooldowns) (tx : Transaction) :
    CreatureSpellCooldowns × Transaction :=
  saveCooldownLoop petNumber infinityCooldownDelayCheck curTime curMSTime cooldowns
    (tx ++ [Stmt.CHAR_DEL_PET_SPELL_COOLDOWNS petNumber])

/-- A row of `pet_spell_cooldown` as `Pet::_LoadSpellCooldowns` fetches it:
spell id, category and the stored second (`uint32`). -/
structure CooldownRow where
  spell_id : Nat
  category : Nat
  time : Nat
  deriving DecidableEq, Repr

/-- The value `uint32 cooldown = (db_time - curTime) * IN_MILLISECONDS` of
`Pet::_LoadSpellCooldowns`: 64-bit arithmetic converted to `uint32`. -/
def loadedCooldown (curTime db_time : Int) : Nat :=
  (((db_time - curTime) * (IN_MILLISECONDS : Int)) % (UINT32 : Int)).toNat

/-- The row loop of `Pet::_LoadSpellCooldowns`: the calls
`_AddCreatureSpellCooldown(spell_id, category, cooldown)` it makes, in order.
`spellKnown` is `sSpellMgr->GetSpellInfo(spell_id) != nullptr`. -/
def loadCooldownRows (spellKnown : Nat → Bool) (curTime : Int) :
    List CooldownRow → List (Nat × Nat × Nat)
  | [] => []
  | row :: rest =>
    let db_time : Int := (row.time : Int)
    if !spellKnown row.spell_id then
      loadCooldownRows spellKnown curTime rest
    -- skip outdated cooldown
    else if db_time ≤ curTime then
      loadCooldownRows spellKnown curTime rest
    else
      let cooldown : Nat := loadedCooldown curTime db_time
      (row.spell_id, row.category, cooldown) :: loadCooldownRows spellKnown curTime rest

/-- `Pet::_LoadSpellCooldowns`: the table is cleared, then every row of a
non-null result is processed. -/
def _LoadSpellCooldowns (spellKnown : Nat → Bool) (curTime : Int) :
    Option (List CooldownRow) → List (Nat × Nat × Nat)
  | none => []
  | some rows => loadCooldownRows spellKnown curTime rows

/-- `aura->GetEffect(i)`. -/
def GetEffect (aura : Aura) (i : Nat) : Option AuraEffect :=
  (aura.Effects.get? i).join

/-- The bit `1 << i` an effect slot contributes to a mask when `b` holds. -/
def maskBit (b : Bool) (i : Nat) : Nat :=
  if b then 1 <<< i else 0

/-- The row `Pet::_SaveAuras` binds for an aura that passed the filter. -/
def auraRow (petNumber petGUID : Nat) (aura : Aura) : PetAuraRow :=
  let eff := fun i => GetEffect aura i
  let damage := fun i => match eff i with
    | some e => e.Amount
    | none => 0
  let baseDamage := fun i => match eff i with
    | some e => e.BaseAmount
    | none => 0
  let effMask := maskBit (eff 0).isSome 0 ||| maskBit (eff 1).isSome 1 ||| maskBit (eff 2).isSome 2
  let recalc := fun i => match eff i with
    | some e => e.CanBeRecalculated
    | none => false
  let recalculateMask := maskBit (recalc 0) 0 ||| maskBit (recalc 1) 1 ||| maskBit (recalc 2) 2
  let casterGUID := if aura.CasterGUID = petGUID then 0 else aura.CasterGUID
  { petNumber := petNumber
    casterGUID := casterGUID
    spell := aura.spellInfo.Id
    effMask := effMask
    recalculateMask := recalculateMask
    stackAmount := aura.StackAmount
    damage0 := damage 0
    damage1 := damage 1
    damage2 := damage 2
    baseDamage0 := baseDamage 0
    baseDamage1 := baseDamage 1
    baseDamage2 := baseDamage 2
    maxDuration := aura.MaxDuration
    duration := aura.Duration
    charges := aura.Charges }

/-- The loop of `Pet::_SaveAuras` over `m_ownedAuras`. `IsPetAura` is the
inherited predicate of that name and `AURA_INTERRUPT_FLAG_CHANGE_MAP` a flag
constant, both declared outside the sources. -/
def saveAuraLoop (petNumber petGUID : Nat) (IsPetAura : Aura → Bool)
    (AURA_INTERRUPT_FLAG_CHANGE_MAP : Nat) : List Aura → Transaction → Transaction
  | [], tx => tx
  | aura :: rest, tx =>
    let continue_ := saveAuraLoop petNumber petGUID IsPetAura AURA_INTERRUPT_FLAG_CHANGE_MAP rest tx
    -- check if the aura has to be saved
    if !aura.CanBeSaved || IsPetAura aura then continue_
    else if aura.Duration < 60 * (IN_MILLISECONDS : Int) then continue_
    -- dont save infinite negative auras
    else if aura.IsPermanent && !aura.spellInfo.IsPositive then continue_
    -- don't save auras that cannot be cancelled
    else if aura.spellInfo.HasAttribute_SPELL_ATTR0_NO_AURA_CANCEL then continue_
    -- don't save hidden auras
    else if aura.spellInfo.HasAttribute_SPELL_ATTR1_NO_AURA_ICON then continue_
    -- dont save auras with model change
    else if aura.spellInfo.HasAura_SPELL_AURA_TRANSFORM then continue_
    -- don't save auras with interrupt flags on map change
    else if aura.spellInfo.AuraInterruptFlags &&& AURA_INTERRUPT_FLAG_CHANGE_MAP ≠ 0 then continue_
    else
      saveAuraLoop petNumber petGUID IsPetAura AURA_INTERRUPT_FLAG_CHANGE_MAP rest
        (tx ++ [Stmt.CHAR_INS_PET_AURA (auraRow petNumber petGUID aura)])

/-- `Pet::_SaveAuras`. -/
def _SaveAuras (petNumber petGUID : Nat) (IsPetAura : Aura → Bool)
    (AURA_INTERRUPT_FLAG_CHANGE_MAP : Nat) (ownedAuras : List Aura) (tx : Transaction) :
    Transaction :=
  saveAuraLoop petNumber petGUID IsPetAura AURA_INTERRUPT_FLAG_CHANGE_MAP ownedAuras
    (tx ++ [Stmt.CHAR_DEL_PET_AURAS petNumber])

end Pet

/-! ## Definitions that follow the words of the specification -/

namespace Pet

/-- A record that the selection criteria make eligible exists (the rules (a) to
(d) of the load contract): by number anywhere in the stable; else, when
"current" is requested, the current slot; else by species in the current slot
or the unslotted list; else any current or unslotted record. -/
def eligibleRecordExists (stable : PetStable) (petEntry petnumber : Nat) (current : Bool) :
    Prop :=
  if petnumber ≠ 0 then ∃ pet ∈ stable.recordsInSearchOrder, pet.PetNumber = petnumber
  else if current then stable.CurrentPet ≠ none
  else if petEntry ≠ 0 then
    (∃ pet, stable.CurrentPet = some pet ∧ pet.CreatureId = petEntry) ∨
      ∃ pet ∈ stable.UnslottedPets, pet.CreatureId = petEntry
  else stable.CurrentPet ≠ none ∨ stable.UnslottedPets ≠ []

/-- A stable whose only record is the current pet, number 1 of species 7. -/
def stableWithCurrentOnly : PetStable :=
  { CurrentPet := some { PetNumber := 1, CreatureId := 7 } }

/-- A stable with a current pet, two stable slots (the second one taken) and
two unslotted pets. -/
def stableSample : PetStable :=
  { CurrentPet := some { PetNumber := 1, CreatureId := 7 }
    StabledPets := [none, some { PetNumber := 2, CreatureId := 8 }]
    UnslottedPets := [{ PetNumber := 3, CreatureId := 9 }, { PetNumber := 4, CreatureId := 9 }] }

end Pet

namespace Pet

/-- The statements the ability diff policy prescribes for one entry: nothing
for a family passive or an unchanged entry, an insert for a new one, a delete
followed by an insert for a changed one, a delete for a removed one. -/
def flushStatements (petNumber : Nat) (e : Nat × PetSpell) : List Stmt :=
  if e.2.type = PetSpellType.PETSPELL_FAMILY then []
  else match e.2.state with
    | PetSpellState.PETSPELL_UNCHANGED => []
    | PetSpellState.PETSPELL_NEW => [Stmt.CHAR_INS_PET_SPELL petNumber e.1 e.2.active]
    | PetSpellState.PETSPELL_CHANGED =>
        [Stmt.CHAR_DEL_PET_SPELL_BY_SPELL petNumber e.1,
         Stmt.CHAR_INS_PET_SPELL petNumber e.1 e.2.active]
    | PetSpellState.PETSPELL_REMOVED => [Stmt.CHAR_DEL_PET_SPELL_BY_SPELL petNumber e.1]

/-- What the ability diff policy leaves of one entry in memory: a family
passive untouched, a removed entry dropped, any other entry in state
unchanged. -/
def flushedEntry (e : Nat × PetSpell) : Option (Nat × PetSpell) :=
  if e.2.type = PetSpellType.PETSPELL_FAMILY then some e
  else match e.2.state with
    | PetSpellState.PETSPELL_REMOVED => none
    | _ => some (e.1, { e.2 with state := PetSpellState.PETSPELL_UNCHANGED })

/-- A book with one entry of every dirty state and a family passive marked new. -/
def bookSample : PetSpellMap :=
  [(10, { active := ActiveStates.ACT_ENABLED, state := PetSpellState.PETSPELL_UNCHANGED }),
   (11, { active := ActiveStates.ACT_DISABLED, state := PetSpellState.PETSPELL_NEW }),
   (12, { active := ActiveStates.ACT_ENABLED, state := PetSpellState.PETSPELL_CHANGED }),
   (13, { active := ActiveStates.ACT_PASSIVE, state := PetSpellState.PETSPELL_REMOVED }),
   (14, { active := ActiveStates.ACT_PASSIVE, state := PetSpellState.PETSPELL_NEW,
          type := PetSpellType.PETSPELL_FAMILY })]

end Pet

namespace Pet

/-- Modelled from the spec: the store keeps what an insert binds, so the row
`_LoadSpellCooldowns` fetches for a `CHAR_INS_PET_SPELL_COOLDOWN` statement
holds the spell id, the category and the second bound to it. -/
def cooldownRowOf : Stmt → Option CooldownRow
  | Stmt.CHAR_INS_PET_SPELL_COOLDOWN _ spell category cooldown =>
      some { spell_id := spell, category := category, time := cooldown }
  | _ => none

/-- A cutoff of half a month of milliseconds, for the concrete instances. -/
def cutoffSample : Nat := 1296000000

end Pet

namespace Pet

/-- The exclusions from persistence the specification lists for an effect:
not flagged persistable, remaining duration under the 60-second floor,
permanent and not positive, flagged non-cancellable, flagged hidden, with a
transform effect, or interrupted by map change. -/
def listedExclusion (AURA_INTERRUPT_FLAG_CHANGE_MAP : Nat) (aura : Aura) : Prop :=
  aura.CanBeSaved = false ∨ aura.Duration < 60000 ∨
    (aura.IsPermanent = true ∧ aura.spellInfo.IsPositive = false) ∨
    aura.spellInfo.HasAttribute_SPELL_ATTR0_NO_AURA_CANCEL = true ∨
    aura.spellInfo.HasAttribute_SPELL_ATTR1_NO_AURA_ICON = true ∨
    aura.spellInfo.HasAura_SPELL_AURA_TRANSFORM = true ∨
    aura.spellInfo.AuraInterruptFlags &&& AURA_INTERRUPT_FLAG_CHANGE_MAP ≠ 0

instance (flag : Nat) (aura : Aura) : Decidable (listedExclusion flag aura) := by
  unfold listedExclusion
  infer_instance

/-- A flag bit for the concrete instances. -/
def changeMapFlagSample : Nat := 524288

/-- A persistable positive aura with exactly 60,000 ms left and one effect. -/
def auraAtFloor : Aura :=
  { Duration := 60000, MaxDuration := 120000, CasterGUID := 50, StackAmount := 1,
    Effects := [some { BaseAmount := 4, Amount := 9, CanBeRecalculated := true }, none, none],
    spellInfo := { Id := 77 } }

end Pet

/-! ## The ability book: learning, unlearning, talents -/

/-- A row of the talent store (`TalentEntry`): its tab and its rank spells. -/
structure TalentEntry where
  TalentTab : Nat := 0
  RankID : List Nat := []
  deriving DecidableEq, Repr

/-- A row of the creature family store (`CreatureFamilyEntry`). -/
structure CreatureFamilyEntry where
  ID : Nat := 0
  petTalentType : Int := 0
  deriving DecidableEq, Repr

/-- What `Pet.cpp` reads from the creature template of the pet. -/
structure CreatureTemplate where
  family : Nat := 0
  PetSpellDataId : Nat := 0
  deriving DecidableEq, Repr

/-- What the ability functions consult outside the pet object: the spell
manager, the talent and family stores, the creature template of the pet, the
owner and the script hooks. Every field is a collaborator of the core. -/
structure SpellWorld where
  GetSpellInfo : Nat → Option SpellInfo := fun _ => none
  IsDifferentRankOf : SpellInfo → SpellInfo → Bool := fun _ _ => false
  IsHighRankOf : SpellInfo → SpellInfo → Bool := fun _ _ => false
  GetTalentSpellPos : Nat → Option Nat := fun _ => none
  sTalentStore : Nat → Option TalentEntry := fun _ => none
  sTalentStoreNumRows : Nat := 0
  sTalentTabStore : Nat → Option Nat := fun _ => none
  GetTalentSpellCost : Nat → Nat := fun _ => 0
  GetPrevSpellInChain : Nat → Nat := fun _ => 0
  GetFirstSpellInChain : Nat → Nat := fun _ => 0
  GetCreatureTemplate : Option CreatureTemplate := some {}
  sCreatureFamilyStore : Nat → Option CreatureFamilyEntry := fun _ => none
  sPetFamilySpellsStore : Nat → Option (List Nat) := fun _ => none
  GetPetLevelupSpellList : Nat → Option (List (Nat × Nat)) := fun _ => none
  GetPetDefaultSpellsEntry : Int → Option (List Nat) := fun _ => none
  hasOwner : Bool := true
  ownerIsPlayer : Bool := true
  ownerTalentPointsModifier : Int := 0
  OnCalculateMaxTalentPointsForLevel : Nat → Nat → Nat := fun _ points => points
  CanResetTalents : Bool := true
  CanUnlearnSpellSet : Nat → Nat → Bool := fun _ _ => true
  CanUnlearnSpellDefault : SpellInfo → Bool := fun _ => true

/-- The members of the pet that the ability functions write: the book
`m_spells`, the autocast list `m_autospells`, the talent counters, and the
statements they execute on the store directly. -/
structure AbilityBook where
  m_spells : PetSpellMap := []
  m_autospells : List Nat := []
  m_usedTalentCount : Nat := 0
  FreeTalentPoints : Nat := 0
  executed : List Stmt := []
  deriving DecidableEq, Repr

/-- `m_spells.find(spell)`. -/
def findSpell (spells : PetSpellMap) (spell : Nat) : Option PetSpell :=
  (spells.find? (fun e => e.1 == spell)).map (fun e => e.2)

/-- `m_spells.erase(itr)` for the entry of `spell`. -/
def eraseSpell (spells : PetSpellMap) (spell : Nat) : PetSpellMap :=
  spells.filter (fun e => !(e.1 == spell))

/-- A write through the iterator of `spell`: `itr->second = f (itr->second)`. -/
def modifySpell (spells : PetSpellMap) (spell : Nat) (f : PetSpell → PetSpell) : PetSpellMap :=
  spells.map (fun e => if e.1 == spell then (e.1, f e.2) else e)

/-- `m_spells[spell] = entry`: overwrite, or insert when the key is new. -/
def assignSpell (spells : PetSpellMap) (spell : Nat) (entry : PetSpell) : PetSpellMap :=
  if (findSpell spells spell).isSome then modifySpell spells spell (fun _ => entry)
  else spells ++ [(spell, entry)]

/-- The conversion of a 32-bit unsigned value to `int32`. -/
def toInt32 (x : Nat) : Int :=
  if x % UINT32 < 2147483648 then ((x % UINT32 : Nat) : Int) else ((x % UINT32 : Nat) : Int) - UINT32

/-- The argument `free_points > 0 ? free_points : 0` of `SetFreeTalentPoints`
in `addSpell` and `removeSpell`: `int32 free_points` is the maximum minus the
32-bit used count, and the value is stored in a byte. -/
def freeTalentPointsFor (maxPoints usedTalentCount : Nat) : Nat :=
  let free_points : Int := toInt32 (maxPoints + UINT32 - usedTalentCount % UINT32)
  if free_points > 0 then free_points.toNat % 256 else 0

namespace Pet

/-- `Pet::HasSpell`. -/
def HasSpell (spells : PetSpellMap) (spell : Nat) : Bool :=
  match findSpell spells spell with
  | some entry => entry.state != PetSpellState.PETSPELL_REMOVED
  | none => false

/-- `Pet::GetMaxTalentPointsForLevel`, a `uint8`. -/
def GetMaxTalentPointsForLevel (w : SpellWorld) (level : Nat) : Nat :=
  let points : Nat := if level ≥ 20 then (level - 16) / 4 else 0
  -- Mod points from owner SPELL_AURA_MOD_PET_TALENT_POINTS
  let points : Nat :=
    if w.hasOwner then (((points : Int) + w.ownerTalentPointsModifier) % 256).toNat else points
  w.OnCalculateMaxTalentPointsForLevel level points % 256

/-- The write `itr->second.active = active` of `ToggleAutocast`, marking the
entry changed unless it is new. -/
def setActive (active : ActiveStates) (entry : PetSpell) : PetSpell :=
  { entry with
    active := active
    state := if entry.state ≠ PetSpellState.PETSPELL_NEW then PetSpellState.PETSPELL_CHANGED
             else entry.state }

/-- `Pet::ToggleAutocast`. -/
def ToggleAutocast (b : AbilityBook) (spellInfo : SpellInfo) (apply : Bool) : AbilityBook :=
  if !spellInfo.IsAutocastable then b
  else
    match findSpell b.m_spells spellInfo.Id with
    | none => b
    | some entry =>
      if apply then
        if spellInfo.Id ∈ b.m_autospells then b
        else
          let b1 := { b with m_autospells := b.m_autospells ++ [spellInfo.Id] }
          if entry.active ≠ ActiveStates.ACT_ENABLED then
            { b1 with m_spells :=
                modifySpell b1.m_spells spellInfo.Id (setActive ActiveStates.ACT_ENABLED) }
          else b1
      else
        if spellInfo.Id ∈ b.m_autospells then
          let b1 := { b with m_autospells := b.m_autospells.erase spellInfo.Id }
          if entry.active ≠ ActiveStates.ACT_DISABLED then
            { b1 with m_spells :=
                modifySpell b1.m_spells spellInfo.Id (setActive ActiveStates.ACT_DISABLED) }
          else b1
        else b

/-- `Pet::removeSpell` up to the talent accounting, which is all of it when
`learn_prev` is false: `none` is the result `false`. -/
def removeSpellCore (w : SpellWorld) (level : Nat) (b : AbilityBook) (spell_id : Nat) :
    Option AbilityBook :=
  match findSpell b.m_spells spell_id with
  | none => none
  | some entry =>
    if entry.state = PetSpellState.PETSPELL_REMOVED then none
    else
      let spells :=
        if entry.state = PetSpellState.PETSPELL_NEW then eraseSpell b.m_spells spell_id
        else modifySpell b.m_spells spell_id
          (fun e => { e with state := PetSpellState.PETSPELL_REMOVED })
      let b1 := { b with m_spells := spells }
      let talentCost := w.GetTalentSpellCost spell_id
      if talentCost > 0 then
        let used := if b1.m_usedTalentCount > talentCost then b1.m_usedTalentCount - talentCost else 0
        -- update free talent points
        some { b1 with
          m_usedTalentCount := used
          FreeTalentPoints := freeTalentPointsFor (GetMaxTalentPointsForLevel w level) used }
      else some b1

/-- What the scan of the book for another rank of a ranked spell finds. -/
inductive RankScan where
  | noOtherRank
  | replaceLower (spellID : Nat) (petSpell : PetSpell) (oldRankSpellInfo : SpellInfo)
  | ignoreLesser
  deriving Repr

/-- The loop `for (auto const& [spellID, petSpell] : m_spells)` of `addSpell`
up to its `break` or `return false`. -/
def scanRanks (w : SpellWorld) (spellInfo : SpellInfo) : PetSpellMap → RankScan
  | [] => RankScan.noOtherRank
  | (spellID, petSpell) :: rest =>
    if petSpell.state = PetSpellState.PETSPELL_REMOVED then scanRanks w spellInfo rest
    else
      match w.GetSpellInfo spellID with
      | none => scanRanks w spellInfo rest
      | some oldRankSpellInfo =>
        if w.IsDifferentRankOf spellInfo oldRankSpellInfo then
          -- replace by new high rank
          if w.IsHighRankOf spellInfo oldRankSpellInfo then
            RankScan.replaceLower spellID petSpell oldRankSpellInfo
          -- ignore new lesser rank
          else RankScan.ignoreLesser
        else scanRanks w spellInfo rest

/-- The talent loop of `addSpell`: unlearn all other known ranks of the node. -/
def unlearnOtherTalentRanks (w : SpellWorld) (level spellId : Nat) :
    List Nat → AbilityBook → AbilityBook
  | [], b => b
  | rankSpellId :: rest, b =>
    -- skip learning spell and no rank spell case
    if rankSpellId = 0 ∨ rankSpellId = spellId then unlearnOtherTalentRanks w level spellId rest b
    -- skip unknown ranks
    else if !HasSpell b.m_spells rankSpellId then unlearnOtherTalentRanks w level spellId rest b
    else
      match removeSpellCore w level b rankSpellId with
      | some b1 => unlearnOtherTalentRanks w level spellId rest b1
      | none => unlearnOtherTalentRanks w level spellId rest b

/-- The end of `addSpell`, from `m_spells[spellId] = newspell` on. -/
def addSpellFinish (w : SpellWorld) (level : Nat) (b : AbilityBook) (spellInfo : SpellInfo)
    (spellId : Nat) (newspell : PetSpell) : AbilityBook × Bool :=
  let b1 := { b with m_spells := assignSpell b.m_spells spellId newspell }
  let b2 := ToggleAutocast b1 spellInfo (newspell.active == ActiveStates.ACT_ENABLED)
  let talentCost := w.GetTalentSpellCost spellId
  if talentCost ≠ 0 then
    let used := (b2.m_usedTalentCount + talentCost) % UINT32
    -- update free talent points
    ({ b2 with
        m_usedTalentCount := used
        FreeTalentPoints := freeTalentPointsFor (GetMaxTalentPointsForLevel w level) used }, true)
  else (b2, true)

/-- The part of `addSpell` after the lookup of the spell in the book, for a
spell that is not in the book (any more): the new entry, the unlearning of
other ranks and the insertion. -/
def addSpellNew (w : SpellWorld) (level : Nat) (b : AbilityBook) (spellInfo : SpellInfo)
    (spellId : Nat) (active : ActiveStates) (state : PetSpellState) (type : PetSpellType) :
    AbilityBook × Bool :=
  -- active was not used before, so we save it's autocast/passive state here
  let active0 :=
    if active = ActiveStates.ACT_DECIDE then
      (if spellInfo.IsAutocastable then ActiveStates.ACT_DISABLED else ActiveStates.ACT_PASSIVE)
    else active
  let newspell : PetSpell := { state := state, type := type, active := active0 }
  match w.GetTalentSpellPos spellId with
  | some talent_id =>
    -- talent: unlearn all other talent ranks (high and low)
    match w.sTalentStore talent_id with
    | some talentInfo =>
      addSpellFinish w level (unlearnOtherTalentRanks w level spellId talentInfo.RankID b)
        spellInfo spellId newspell
    | none => addSpellFinish w level b spellInfo spellId newspell
  | none =>
    if spellInfo.IsRanked then
      match scanRanks w spellInfo b.m_spells with
      | RankScan.noOtherRank => addSpellFinish w level b spellInfo spellId newspell
      | RankScan.ignoreLesser => (b, false)
      | RankScan.replaceLower spellID petSpell oldRankSpellInfo =>
        let newspell1 := { newspell with active := petSpell.active }
        let b1 :=
          if newspell1.active = ActiveStates.ACT_ENABLED then
            ToggleAutocast b oldRankSpellInfo false
          else b
        let b2 := match removeSpellCore w level b1 spellID with
          | some b3 => b3
          | none => b1
        addSpellFinish w level b2 spellInfo spellId newspell1
    else addSpellFinish w level b spellInfo spellId newspell

/-- `Pet::addSpell`: the book after the call and the returned flag. -/
def addSpell (w : SpellWorld) (level : Nat) (b : AbilityBook) (spellId : Nat)
    (active : ActiveStates := ActiveStates.ACT_DECIDE)
    (state : PetSpellState := PetSpellState.PETSPELL_NEW)
    (type : PetSpellType := PetSpellType.PETSPELL_NORMAL) : AbilityBook × Bool :=
  match w.GetSpellInfo spellId with
  | none =>
    -- do pet spell book cleanup
    if state = PetSpellState.PETSPELL_UNCHANGED then
      ({ b with executed := b.executed ++ [Stmt.CHAR_DEL_INVALID_PET_SPELL spellId] }, false)
    else (b, false)
  | some spellInfo =>
    match findSpell b.m_spells spellId with
    | some entry =>
      if entry.state = PetSpellState.PETSPELL_REMOVED then
        addSpellNew w level { b with m_spells := eraseSpell b.m_spells spellId } spellInfo
          spellId active PetSpellState.PETSPELL_CHANGED type
      else if state = PetSpellState.PETSPELL_UNCHANGED ∧
          entry.state ≠ PetSpellState.PETSPELL_UNCHANGED then
        -- can be in case spell loading but learned at some previous spell loading
        let b1 : AbilityBook :=
          { b with
            m_spells := modifySpell b.m_spells spellId
              (fun e => { e with state := PetSpellState.PETSPELL_UNCHANGED }) }
        (ToggleAutocast b1 spellInfo (active == ActiveStates.ACT_ENABLED), false)
      else (b, false)
    | none => addSpellNew w level b spellInfo spellId active state type

/-- `Pet::learnSpell`: `addSpell` with the default arguments (the packets to
the owner are not part of the state). -/
def learnSpell (w : SpellWorld) (level : Nat) (b : AbilityBook) (spell_id : Nat) :
    AbilityBook × Bool :=
  addSpell w level b spell_id

set_option linter.unusedVariables false in
/-- `Pet::removeSpell` (the action bar, which `clear_ab` governs, is not part
of the state). -/
def removeSpell (w : SpellWorld) (level : Nat) (b : AbilityBook) (spell_id : Nat)
    (learn_prev : Bool) (clear_ab : Bool := true) : AbilityBook × Bool :=
  match removeSpellCore w level b spell_id with
  | none => (b, false)
  | some b1 =>
    if learn_prev then
      let prev_id := w.GetPrevSpellInChain spell_id
      if prev_id ≠ 0 then ((learnSpell w level b1 prev_id).1, true)
      else (b1, true)
    else (b1, true)

/-- `Pet::unlearnSpell`: `removeSpell` (the packet to the owner is not part of
the state). -/
def unlearnSpell (w : SpellWorld) (level : Nat) (b : AbilityBook) (spell_id : Nat)
    (learn_prev : Bool) (clear_ab : Bool := true) : AbilityBook × Bool :=
  removeSpell w level b spell_id learn_prev clear_ab

/-- `Pet::_LoadSpells`: every row of a non-null result goes to `addSpell` with
state unchanged. -/
def _LoadSpells (w : SpellWorld) (level : Nat) (b : AbilityBook) :
    Option (List (Nat × ActiveStates)) → AbilityBook
  | none => b
  | some rows =>
    rows.foldl (fun acc row =>
      (addSpell w level acc row.1 row.2 PetSpellState.PETSPELL_UNCHANGED).1) b

end Pet

namespace Pet

/-- The first loop of `InitLevelupSpellsForLevel`, over the level-up list of
the family in reversed order. -/
def levelupSpellLoop (w : SpellWorld) (level : Nat) : List (Nat × Nat) → AbilityBook → AbilityBook
  | [], b => b
  | (spellLevel, spell) :: rest, b =>
    -- will called first if level down
    if spellLevel > level ∧ w.CanUnlearnSpellSet spellLevel spell = true then
      levelupSpellLoop w level rest (unlearnSpell w level b spell true).1
    -- will called if level up
    else levelupSpellLoop w level rest (learnSpell w level b spell).1

/-- The second loop of `InitLevelupSpellsForLevel`, over the default spells. -/
def defaultSpellLoop (w : SpellWorld) (level : Nat) : List Nat → AbilityBook → AbilityBook
  | [], b => b
  | spellId :: rest, b =>
    match w.GetSpellInfo spellId with
    | none => defaultSpellLoop w level rest b
    | some spellEntry =>
      -- will called first if level down
      if spellEntry.SpellLevel > level ∧ w.CanUnlearnSpellDefault spellEntry = true then
        defaultSpellLoop w level rest (unlearnSpell w level b spellEntry.Id true).1
      -- will called if level up
      else defaultSpellLoop w level rest (learnSpell w level b spellEntry.Id).1

/-- `Pet::InitLevelupSpellsForLevel`; `level` is `GetLevel()` and `entry` is
`GetEntry()`. The source dereferences the creature template unchecked; a pet has
one once `Create` succeeded, and without one the embedding leaves the book. -/
def InitLevelupSpellsForLevel (w : SpellWorld) (level entry : Nat) (b : AbilityBook) :
    AbilityBook :=
  match w.GetCreatureTemplate with
  | none => b
  | some ct =>
    let levelupSpells := if ct.family ≠ 0 then w.GetPetLevelupSpellList ct.family else none
    let b1 := match levelupSpells with
      -- PetLevelupSpellSet ordered by levels, process in reversed order
      | some list => levelupSpellLoop w level list.reverse b
      | none => b
    let petSpellsId : Int := if ct.PetSpellDataId ≠ 0 then -(ct.PetSpellDataId : Int) else entry
    -- default spells
    match w.GetPetDefaultSpellsEntry petSpellsId with
    | some defSpells => defaultSpellLoop w level defSpells b1
    | none => b1

/-- The loop of `LearnPetPassives` over the passives of the family. -/
def passiveLoop (w : SpellWorld) (level : Nat) : List Nat → AbilityBook → AbilityBook
  | [], b => b
  | spellId :: rest, b =>
    passiveLoop w level rest
      (addSpell w level b spellId ActiveStates.ACT_DECIDE PetSpellState.PETSPELL_NEW
        PetSpellType.PETSPELL_FAMILY).1

/-- `Pet::LearnPetPassives`. -/
def LearnPetPassives (w : SpellWorld) (level : Nat) (b : AbilityBook) : AbilityBook :=
  match w.GetCreatureTemplate with
  | none => b
  | some cInfo =>
    match w.sCreatureFamilyStore cInfo.family with
    | none => b
    | some cFamily =>
      match w.sPetFamilySpellsStore cFamily.ID with
      | some spells => passiveLoop w level spells b
      | none => b

/-- The innermost loop of `resetTalents` for one rank spell of a talent: the
first entry of the book that is not removed and whose first rank is the talent
spell is unlearned and the scan starts again from the beginning. Each round
removes a known entry, so `fuel` = the size of the book is enough rounds. -/
def resetTalentSpell (w : SpellWorld) (level talentSpellId : Nat) : Nat → AbilityBook → AbilityBook
  | 0, b => b
  | fuel + 1, b =>
    match b.m_spells.find? (fun e =>
        e.2.state != PetSpellState.PETSPELL_REMOVED &&
          w.GetFirstSpellInChain e.1 == talentSpellId) with
    | none => b
    -- unlearn if first rank is talent or learned by talent
    | some e => resetTalentSpell w level talentSpellId fuel (unlearnSpell w level b e.1 false).1

/-- The loop `for (uint32 talentSpellId : talentInfo->RankID)` of `resetTalents`. -/
def resetTalentRanks (w : SpellWorld) (level : Nat) : List Nat → AbilityBook → AbilityBook
  | [], b => b
  | talentSpellId :: rest, b =>
    resetTalentRanks w level rest (resetTalentSpell w level talentSpellId b.m_spells.length b)

/-- The loop of `resetTalents` over the rows `i, i + 1, ...` of the talent
store (`n` rows are left). -/
def resetTalentRows (w : SpellWorld) (level : Nat) (petTalentType : Int) :
    Nat → Nat → AbilityBook → AbilityBook
  | 0, _, b => b
  | n + 1, i, b =>
    match w.sTalentStore i with
    | none => resetTalentRows w level petTalentType n (i + 1) b
    | some talentInfo =>
      match w.sTalentTabStore talentInfo.TalentTab with
      | none => resetTalentRows w level petTalentType n (i + 1) b
      | some petTalentMask =>
        -- unlearn only talents for pets family talent type
        if (1 <<< petTalentType.toNat) &&& petTalentMask = 0 then
          resetTalentRows w level petTalentType n (i + 1) b
        else
          resetTalentRows w level petTalentType n (i + 1)
            (resetTalentRanks w level talentInfo.RankID b)

/-- `Pet::resetTalents`. -/
def resetTalents (w : SpellWorld) (level : Nat) (b : AbilityBook) : AbilityBook × Bool :=
  if !(w.hasOwner && w.ownerIsPlayer) then (b, false)
  else if !w.CanResetTalents then (b, false)
  else
    match w.GetCreatureTemplate with
    | none => (b, false)
    | some ci =>
      -- Check pet talent type
      match w.sCreatureFamilyStore ci.family with
      | none => (b, false)
      | some pet_family =>
        if pet_family.petTalentType < 0 then (b, false)
        else
          let talentPointsForLevel := GetMaxTalentPointsForLevel w level
          if b.m_usedTalentCount = 0 then
            ({ b with FreeTalentPoints := talentPointsForLevel }, false)
          else
            let b1 := resetTalentRows w level pet_family.petTalentType w.sTalentStoreNumRows 0 b
            ({ b1 with FreeTalentPoints := talentPointsForLevel }, true)

/-- `Pet::InitTalentForLevel`. -/
def InitTalentForLevel (w : SpellWorld) (level : Nat) (b : AbilityBook) : AbilityBook :=
  let talentPointsForLevel := GetMaxTalentPointsForLevel w level
  if !(w.hasOwner && w.ownerIsPlayer) then b
  else
    -- Reset talents in case low level (on level down) or wrong points for level
    let b1 :=
      if talentPointsForLevel = 0 ∨ b.m_usedTalentCount > talentPointsForLevel then
        (resetTalents w level b).1 -- Remove all talent points
      else b
    { b1 with
      FreeTalentPoints :=
        (talentPointsForLevel + UINT32 - b1.m_usedTalentCount % UINT32) % UINT32 % 256 }

end Pet

/-! ## The pet object, its owner, and the record round trip -/

/-- The death states (`DeathState`). -/
inductive DeathState where
  | ALIVE
  | JUST_DIED
  | CORPSE
  | DEAD
  | JUST_RESPAWNED
  deriving DecidableEq, Repr

/-- The command states of a charmed unit (`CommandStates`). -/
inductive CommandStates where
  | COMMAND_STAY
  | COMMAND_FOLLOW
  | COMMAND_ATTACK
  | COMMAND_ABANDON
  deriving DecidableEq, Repr

/-- What `Pet::Update` writes through `GetCharmInfo()`: the command state and
the command flags. -/
structure CharmInfo where
  CommandState : CommandStates := CommandStates.COMMAND_FOLLOW
  IsCommandAttack : Bool := false
  IsAtStay : Bool := false
  IsCommandFollow : Bool := false
  IsFollowing : Bool := false
  IsReturning : Bool := false
  deriving DecidableEq, Repr

/-- The members and update fields of a `Pet` object that the persistence code
reads and writes. Getters of the inherited classes read a field and their
setters write it: `Level` is `GetLevel()`, `Health` is `GetHealth()`,
`Happiness` is `GetPower(POWER_HAPPINESS)`, `Mana` is `GetPower(POWER_MANA)`,
`UNIT_CAN_BE_RENAMED` is `HasByteFlag(UNIT_FIELD_BYTES_2, 2, UNIT_CAN_BE_RENAMED)`,
`PetNumber` is `m_charmInfo->GetPetNumber()`, `ActionBar` the action bar entries
as (type, action) pairs and `book` the members of the ability book. The
deferred cast request is `m_tempspell` with its targets, which are unit handles
(`none` is `nullptr`), and `charmInfo` is `GetCharmInfo()`. The timers are in
milliseconds. Position, map registration and packets are not part of the state. -/
structure Pet where
  m_loading : Bool := false
  m_removed : Bool := false
  m_petType : PetType := PetType.MAX_PET_TYPE
  m_duration : Nat := 0
  m_deathState : DeathState := DeathState.ALIVE
  ownerGuidIsPlayer : Bool := true
  ownerLowGUID : Nat := 0
  isControlled : Bool := true
  GUID : Nat := 0
  PetNumber : Nat := 0
  Entry : Nat := 0
  NativeDisplayId : Nat := 0
  Level : Nat := 0
  UNIT_FIELD_PETEXPERIENCE : Nat := 0
  UNIT_FIELD_PETNEXTLEVELEXP : Nat := 0
  UNIT_CREATED_BY_SPELL : Nat := 0
  ReactState : Nat := 0
  Name : String := "Pet"
  UNIT_CAN_BE_RENAMED : Bool := false
  Health : Nat := 0
  MaxHealth : Nat := 0
  Mana : Nat := 0
  MaxMana : Nat := 0
  Happiness : Nat := 0
  MaxHappiness : Nat := 0
  ActionBar : List (Nat × Nat) := []
  book : AbilityBook := {}
  m_CreatureSpellCooldowns : CreatureSpellCooldowns := []
  m_ownedAuras : List Aura := []
  m_tempspell : Nat := 0
  m_tempspellTarget : Option Nat := none
  m_tempoldTarget : Option Nat := none
  m_tempspellIsPositive : Bool := false
  m_petRegenTimer : Int := 4000
  m_happinessTimer : Int := 7500
  m_corpseRemoveTime : Int := 0
  charmInfo : Option CharmInfo := some {}
  deriving DecidableEq, Repr

/-- What `Pet.cpp` reads and writes of the owning `Player`. `hasPet` is
`GetPet() != nullptr`, `hasMap` is `FindMap() != nullptr`. -/
structure Player where
  Level : Nat := 1
  PetStable : Option PetStable := some {}
  hasPet : Bool := false
  IsSpectator : Bool := false
  IsInWorld : Bool := true
  hasMap : Bool := true
  isDeathKnight : Bool := false
  CanSeeDKPet : Bool := false
  IsPetNeedBeTemporaryUnsummoned : Bool := false
  TemporaryUnsummonedPetNumber : Nat := 0
  deriving DecidableEq, Repr

/-- The collaborators of loading and saving: the clock, the script hook, the
template and stat lookups, and the inherited functions whose code is outside
the sources (each one a function of what it is given). -/
structure World where
  spells : SpellWorld := {}
  GameTime : Int := 0
  forceLoadFromDB : Bool := false
  IsTameable : Nat → Option Bool := fun _ => some true
  InitEntry : Nat → Bool := fun _ => true
  IsCritter : Bool := false
  IsPositionValid : Bool := true
  GetCreatePowers_HAPPINESS : Nat := 1050000
  PetNextLevelExp : Nat → Nat := fun _ => 0
  unitOwnerFound : Bool := true
  guardianPetType : PetType := PetType.MAX_PET_TYPE
  statsMaxHealth : Pet → Nat := fun pet => pet.MaxHealth
  statsMaxMana : Pet → Nat := fun pet => pet.MaxMana
  RemoveAllAuras : Pet → Pet := fun pet => { pet with m_ownedAuras := [] }
  RemovePetNull : PetStable → PetStable := fun stable => stable
  Creature_setDeathState : Pet → DeathState → Pet :=
    fun pet s => { pet with m_deathState := s }
  mapIsArenaOrBattleground : Bool := false
  HAPPINESS_LEVEL_SIZE : Nat := 333000
  CountPctFromMaxHealth : Pet → Nat → Nat := fun pet pct => pet.MaxHealth * pct / 100
  GenerateLowGuid : Nat := 1
  LoadPetActionBar : String → List (Nat × Nat) := fun _ => []
  MAX_PET_STABLES : Nat := 4
  NPC_BLOODWORM : Nat := 28017
  REACT_DEFENSIVE : Nat := 1
  CONFIG_MAX_PLAYER_LEVEL : Nat := 80
  scaledPetXP : Nat → Nat := fun xp => xp

namespace Pet

/-- `Pet::GenerateActionBarData`: type and action of every slot, each followed
by a blank. -/
def GenerateActionBarData (pet : Pet) : String :=
  String.join (pet.ActionBar.map (fun e => toString e.1 ++ " " ++ toString e.2 ++ " "))

/-- `Pet::FillPetInfo`: the record of the pet at clock second `gameTime`. -/
def FillPetInfo (pet : Pet) (gameTime : Int) : PetInfo :=
  { PetNumber := pet.PetNumber
    CreatureId := pet.Entry
    DisplayId := pet.NativeDisplayId
    Level := pet.Level
    Experience := pet.UNIT_FIELD_PETEXPERIENCE
    ReactState := pet.ReactState
    Name := pet.Name
    WasRenamed := !pet.UNIT_CAN_BE_RENAMED
    Health := pet.Health
    Mana := pet.Mana
    Happiness := pet.Happiness
    ActionBar := GenerateActionBarData pet
    LastSaveTime := gameTime
    CreatedBySpellId := pet.UNIT_CREATED_BY_SPELL
    Type_ := pet.m_petType }

/-- `Pet::DeleteFromDB`: the transaction it commits. -/
def DeleteFromDB (guidlow : Nat) : Transaction :=
  [Stmt.CHAR_DEL_CHAR_PET_BY_ID guidlow, Stmt.CHAR_DEL_CHAR_PET_DECLINEDNAME guidlow,
   Stmt.CHAR_DEL_PET_AURAS guidlow, Stmt.CHAR_DEL_PET_SPELLS guidlow,
   Stmt.CHAR_DEL_PET_SPELL_COOLDOWNS guidlow]

/-- What `Pet::SavePetToDB` leaves: the pet, the owner and the transactions
committed, in order. -/
structure SaveResult where
  pet : Pet
  owner : Player
  committed : List Transaction

/-- `Pet::SavePetToDB`. `ownerIsPlayerObject` is `GetOwner()->ToPlayer() != nullptr`,
`MAX_PET_STABLES` the number of stable slots (`PET_SAVE_LAST_STABLE_SLOT`), and
`IsPetAura`, `AURA_INTERRUPT_FLAG_CHANGE_MAP`, `infinityCooldownDelayCheck` what
the flushes take from outside the sources. -/
def SavePetToDB (w : World) (IsPetAura : Aura → Bool)
    (AURA_INTERRUPT_FLAG_CHANGE_MAP infinityCooldownDelayCheck MAX_PET_STABLES : Nat)
    (curMSTime : Nat) (ownerIsPlayerObject : Bool) (owner : Player) (pet : Pet)
    (mode : PetSaveMode) : SaveResult :=
  -- not save not player pets
  if !pet.ownerGuidIsPlayer then { pet := pet, owner := owner, committed := [] }
  -- dont allow to save pet when it is loaded, save only fully controlled creature
  else if !ownerIsPlayerObject || pet.m_loading || pet.Entry == 0 || !pet.isControlled then
    { pet := pet, owner := owner, committed := [] }
  else
    -- not save pet as current if another pet temporary unsummoned
    let conflict : Bool := mode == PET_SAVE_AS_CURRENT && owner.TemporaryUnsummonedPetNumber != 0 &&
      owner.TemporaryUnsummonedPetNumber != pet.PetNumber
    -- pet will lost anyway at restore temporary unsummoned
    if conflict && pet.m_petType == PetType.HUNTER_PET then
      { pet := pet, owner := owner, committed := [] }
    else
      -- for warlock case
      let mode1 : PetSaveMode := if conflict then PET_SAVE_NOT_IN_SLOT else mode
      let curhealth := pet.Health
      let curmana := pet.Mana
      -- save auras before possibly removing them
      let tx1 := _SaveAuras pet.PetNumber pet.GUID IsPetAura AURA_INTERRUPT_FLAG_CHANGE_MAP
        pet.m_ownedAuras []
      -- stable and not in slot saves
      let pet1 := if mode1 > PET_SAVE_AS_CURRENT then w.RemoveAllAuras pet else pet
      let s := _SaveSpells pet1.PetNumber pet1.book.m_spells tx1
      let pet2 := { pet1 with book := { pet1.book with m_spells := s.1 } }
      let c := _SaveSpellCooldowns pet2.PetNumber infinityCooldownDelayCheck w.GameTime curMSTime
        pet2.m_CreatureSpellCooldowns s.2
      let pet3 := { pet2 with m_CreatureSpellCooldowns := c.1 }
      -- current/stable/not_in_slot
      if mode1 ≥ PET_SAVE_AS_CURRENT then
        -- remove current data
        let tx2 : Transaction := [Stmt.CHAR_DEL_CHAR_PET_BY_ID pet3.PetNumber]
        -- prevent existence another hunter pet in PET_SAVE_AS_CURRENT and PET_SAVE_NOT_IN_SLOT
        let tx3 : Transaction :=
          if pet3.m_petType == PetType.HUNTER_PET &&
              (mode1 == PET_SAVE_AS_CURRENT || decide (mode1 > (MAX_PET_STABLES : Int))) then
            tx2 ++ [Stmt.CHAR_DEL_CHAR_PET_BY_SLOT pet3.ownerLowGUID PET_SAVE_AS_CURRENT
              (MAX_PET_STABLES : Int)]
          else tx2
        -- save pet
        let owner1 : Player :=
          match owner.PetStable with
          | some stable =>
            match stable.CurrentPet with
            | some cur =>
              if cur.PetNumber = pet3.PetNumber then
                { owner with
                  PetStable :=
                    some { stable with CurrentPet := some (FillPetInfo pet3 w.GameTime) } }
              else owner
            | none => owner
          | none => owner
        let row : PetInfo :=
          { FillPetInfo pet3 w.GameTime with Health := curhealth, Mana := curmana }
        { pet := pet3, owner := owner1,
          committed := [c.2, tx3 ++ [Stmt.CHAR_REP_CHAR_PET pet3.ownerLowGUID mode1 row]] }
      -- delete
      else
        { pet := w.RemoveAllAuras pet3, owner := owner,
          committed := [c.2, DeleteFromDB pet3.PetNumber] }

end Pet

namespace Pet

/-- `Pet::setDeathState`. `Creature::setDeathState` is outside the sources and
is a function of the world; `ModifyPower` with a negative amount lowers the
power, not below 0. -/
def setDeathState (w : World) (pet : Pet) (s : DeathState) : Pet :=
  let pet1 := w.Creature_setDeathState pet s
  if pet1.m_deathState = DeathState.CORPSE then
    if pet1.m_petType = PetType.HUNTER_PET then
      -- lose happiness when died and not in BG/Arena
      if !w.mapIsArenaOrBattleground then
        { pet1 with Happiness := pet1.Happiness - w.HAPPINESS_LEVEL_SIZE }
      else pet1
    else pet1
  else pet1

/-- `Guardian::InitStatsForLevel`, as far as the state goes: the level, the
next-level experience of a hunter pet, the react state of a bloodworm, and the
maxima recomputed by `UpdateAllStats` (a lookup of the world) with full health
and mana. `w.guardianPetType` is the local `petType` the function derives from
the hook and the owner's class. -/
def InitStatsForLevel (w : World) (pet : Pet) (petlevel : Nat) : Pet × Bool :=
  let pet1 := { pet with Level := petlevel }
  -- just to be sure, asynchronous now
  if !w.unitOwnerFound then (pet1, false)
  else
    let pet2 :=
      if w.guardianPetType = PetType.HUNTER_PET then
        { pet1 with UNIT_FIELD_PETNEXTLEVELEXP := w.PetNextLevelExp petlevel }
      else if w.guardianPetType = PetType.SUMMON_PET then pet1
      else if pet1.Entry = w.NPC_BLOODWORM then { pet1 with ReactState := w.REACT_DEFENSIVE }
      else pet1
    let pet3 := { pet2 with MaxHealth := w.statsMaxHealth pet2, MaxMana := w.statsMaxMana pet2 }
    ({ pet3 with Health := pet3.MaxHealth, Mana := pet3.MaxMana }, true)

/-- `Pet::GivePetLevel`. -/
def GivePetLevel (w : World) (pet : Pet) (level : Nat) : Pet :=
  if level = 0 ∨ level = pet.Level then pet
  else
    let pet1 :=
      if pet.m_petType = PetType.HUNTER_PET then
        { pet with
          UNIT_FIELD_PETEXPERIENCE := 0
          UNIT_FIELD_PETNEXTLEVELEXP := w.PetNextLevelExp level }
      else pet
    let pet2 := (InitStatsForLevel w pet1 level).1
    let book1 := InitLevelupSpellsForLevel w.spells pet2.Level pet2.Entry pet2.book
    { pet2 with book := InitTalentForLevel w.spells pet2.Level book1 }

/-- `Pet::SynchronizeLevelWithOwner`; `ownerLevel` is `owner->GetLevel()`. -/
def SynchronizeLevelWithOwner (w : World) (ownerLevel : Nat) (pet : Pet) : Pet :=
  if !(w.spells.hasOwner && w.spells.ownerIsPlayer) then pet
  else
    match pet.m_petType with
    -- always same level
    | PetType.SUMMON_PET => GivePetLevel w pet ownerLevel
    -- can't be greater owner level
    | PetType.HUNTER_PET =>
      if pet.Level > ownerLevel then GivePetLevel w pet ownerLevel
      else if pet.Level + 5 < ownerLevel then GivePetLevel w pet (ownerLevel - 5)
      else pet
    | _ => pet

/-- `Pet::Create`, as far as the state goes: the new guid and, when `InitEntry`
succeeds, the entry. -/
def Create (w : World) (pet : Pet) (guidlow Entry : Nat) : Pet × Bool :=
  let pet1 := { pet with GUID := guidlow }
  if !w.InitEntry Entry then (pet1, false)
  else ({ pet1 with Entry := Entry }, true)

/-- What the completion callback of `LoadPetFromDB` captures. -/
structure LoadCallback where
  isTemporarySummon : Bool
  current : Bool
  lastSaveTime : Int
  savedhealth : Nat
  savedmana : Nat
  healthPct : Nat
  deriving DecidableEq, Repr

/-- How a call of `LoadPetFromDB` ends: with `false`, with a failed assertion,
or with `true` and, except for a critter, a completion callback registered. -/
inductive LoadResult where
  | returnedFalse (pet : Pet) (owner : Player)
  | assertFailed
  | returnedTrue (pet : Pet) (owner : Player) (callback : Option LoadCallback)
  deriving DecidableEq, Repr

/-- The handling of the slot the record came from in `LoadPetFromDB`
("set current pet as current"): `none` is a failed assertion. -/
def makeCurrent (w : World) (petStable : PetStable) (petInfo : PetInfo) (slot : PetSaveMode)
    (petnumber : Nat) : Option PetStable :=
  if slot = PET_SAVE_NOT_IN_SLOT then
    let petInfoNumber := petInfo.PetNumber
    let stable1 := if petStable.CurrentPet.isSome then w.RemovePetNull petStable else petStable
    match stable1.UnslottedPets.find? (fun unslottedPet => unslottedPet.PetNumber == petInfoNumber)
    with
    | some unslottedPet =>
      if stable1.CurrentPet.isSome then none
      else
        some { stable1 with
          CurrentPet := some unslottedPet
          UnslottedPets :=
            stable1.UnslottedPets.eraseIdx
              (stable1.UnslottedPets.findIdx
                (fun unslottedPet => unslottedPet.PetNumber == petInfoNumber)) }
    | none => none
  else if PET_SAVE_FIRST_STABLE_SLOT ≤ slot ∧ slot ≤ (w.MAX_PET_STABLES : Int) then
    match firstIndex (stabledHasNumber petnumber) petStable.StabledPets with
    | some i =>
      some { petStable with
        CurrentPet := (petStable.StabledPets[i]?).join
        StabledPets := petStable.StabledPets.set i petStable.CurrentPet }
    | none => none
  else some petStable

/-- The block of `LoadPetFromDB` that restores the record into the created pet
object: pet number, display, name, the level by pet type, the hunter fields,
`InitStatsForLevel`, the experience and `SynchronizeLevelWithOwner`. -/
def restoreRecord (w : World) (owner : Player) (pet1 : Pet) (petInfo : PetInfo) : Pet :=
  let pet2 := { pet1 with
    PetNumber := petInfo.PetNumber
    NativeDisplayId := petInfo.DisplayId
    Name := petInfo.Name }
  let petlevel : Nat :=
    if pet2.m_petType = PetType.SUMMON_PET then owner.Level else petInfo.Level
  let pet3 :=
    if pet2.m_petType = PetType.HUNTER_PET then
      { pet2 with
        UNIT_CAN_BE_RENAMED := pet2.UNIT_CAN_BE_RENAMED || !petInfo.WasRenamed
        MaxHappiness := w.GetCreatePowers_HAPPINESS
        Happiness := petInfo.Happiness }
    else pet2
  let pet4 := (InitStatsForLevel w pet3 petlevel).1
  let pet5 := { pet4 with UNIT_FIELD_PETEXPERIENCE := petInfo.Experience }
  SynchronizeLevelWithOwner w owner.Level pet5

/-- The end of the synchronous part of `LoadPetFromDB`, from the react state
on: the record becomes the current one, the owner gets the pet as its minion,
the action bar is loaded and the completion callback is registered. -/
def activateLoaded (w : World) (owner : Player) (pet6 : Pet) (petStable : PetStable)
    (petInfo : PetInfo) (slot : PetSaveMode) (petnumber : Nat) (isTemporarySummon current : Bool)
    (healthPct : Nat) : LoadResult :=
  let pet7 := { pet6 with ReactState := petInfo.ReactState }
  -- set current pet as current
  match makeCurrent w petStable petInfo slot petnumber with
  | none => LoadResult.assertFailed
  | some stable1 =>
    match stable1.CurrentPet with
    | none => LoadResult.assertFailed
    | some petInfo1 =>
      let owner1 := { owner with PetStable := some stable1, hasPet := true }
      let pet8 :=
        if !isTemporarySummon then
          { pet7 with ActionBar := w.LoadPetActionBar petInfo1.ActionBar }
        else pet7
      LoadResult.returnedTrue pet8 owner1
        (some
          { isTemporarySummon := isTemporarySummon
            current := current
            lastSaveTime := petInfo1.LastSaveTime
            savedhealth := petInfo1.Health
            savedmana := petInfo1.Mana
            healthPct := healthPct })

/-- The part of `LoadPetFromDB` after the preconditions on the owner and the
record: the creation of the pet object and what follows. -/
def createAndRestore (w : World) (owner : Player) (pet0 : Pet) (petStable : PetStable)
    (petInfo : PetInfo) (slot : PetSaveMode) (petnumber : Nat) (isTemporarySummon current : Bool)
    (healthPct : Nat) : LoadResult :=
  let created := Create w pet0 w.GenerateLowGuid petInfo.CreatureId
  if !created.2 then LoadResult.returnedFalse created.1 owner
  else
    let pet1 := { created.1 with
      m_petType := petInfo.Type_
      UNIT_CREATED_BY_SPELL := petInfo.CreatedBySpellId }
    if w.IsCritter then
      if !w.IsPositionValid then LoadResult.returnedFalse pet1 owner
      else LoadResult.returnedTrue pet1 owner none
    else
      let pet6 := restoreRecord w owner pet1 petInfo
      -- Set pet's position after setting level, its size depends on it
      if !w.IsPositionValid then LoadResult.returnedFalse pet6 owner
      else
        activateLoaded w owner pet6 petStable petInfo slot petnumber isTemporarySummon current
          healthPct

/-- `Pet::LoadPetFromDB` up to the registration of the completion callback. -/
def LoadPetFromDB (w : World) (owner : Player) (pet : Pet) (petEntry petnumber : Nat)
    (current : Bool) (healthPct : Nat := 0) : LoadResult :=
  let pet0 := { pet with m_loading := true }
  match owner.PetStable with
  | none => LoadResult.assertFailed
  | some petStable =>
    let info := GetLoadPetInfo petStable petEntry petnumber current
    let slot := info.2
    match info.1.bind petStable.deref with
    | none => LoadResult.returnedFalse { pet0 with m_loading := false } owner
    | some petInfo =>
      -- Don't try to reload the current pet
      if (match petStable.CurrentPet with
          | some cur => owner.hasPet && cur.PetNumber == petInfo.PetNumber
          | none => false) then
        LoadResult.returnedFalse pet0 owner
      -- we are loading pet at that moment
      else if owner.IsSpectator || owner.hasPet || !owner.IsInWorld || !owner.hasMap then
        LoadResult.returnedFalse pet0 owner
      -- DK Pet exception
      else if !w.forceLoadFromDB && (owner.isDeathKnight && !owner.CanSeeDKPet) then
        LoadResult.returnedFalse pet0 owner
      else
        let isTemporarySummon : Bool :=
          match w.spells.GetSpellInfo petInfo.CreatedBySpellId with
          | some spellInfo => decide (spellInfo.Duration > 0)
          | none => false
        if current && isTemporarySummon then LoadResult.returnedFalse pet0 owner
        else if petInfo.Type_ = PetType.HUNTER_PET ∧ w.IsTameable petInfo.CreatureId ≠ some true
        then LoadResult.returnedFalse pet0 owner
        else if current && owner.IsPetNeedBeTemporaryUnsummoned then
          LoadResult.returnedFalse pet0
            { owner with TemporaryUnsummonedPetNumber := petInfo.PetNumber }
        else
          createAndRestore w owner pet0 petStable petInfo slot petnumber isTemporarySummon
            current healthPct

/-- The end of the completion callback of `LoadPetFromDB`: health and mana, or
the just-died state, and the end of the load. -/
def restoreHealthAndMana (w : World) (pet : Pet) (cb : LoadCallback) : Pet :=
  let curHealth := if cb.healthPct ≠ 0 then w.CountPctFromMaxHealth pet cb.healthPct
    else cb.savedhealth
  let pet1 :=
    -- all (?) summon pets come with full health when called, but not when they are current
    if pet.m_petType = PetType.SUMMON_PET ∧ cb.current = false then
      { pet with Mana := pet.MaxMana, Health := pet.MaxHealth }
    else if curHealth = 0 ∧ pet.m_petType = PetType.HUNTER_PET then
      setDeathState w pet DeathState.JUST_DIED
    else
      { pet with
        Health := if curHealth > pet.MaxHealth then pet.MaxHealth else curHealth
        Mana := if cb.savedmana > pet.MaxMana then pet.MaxMana else cb.savedmana }
  { pet1 with m_loading := false }

end Pet

namespace Pet

/-- The ability steps of the completion callback of `LoadPetFromDB`, up to
`InitLevelupSpellsForLevel`: the talent points before spell loading and, unless
the pet is a time-limited summon, the stored rows, the talent check, the
passives of the family and the level-up abilities. `spellRows` is the result of
the ability query. -/
def loadAbilities (w : World) (pet : Pet) (isTemporarySummon : Bool)
    (spellRows : Option (List (Nat × ActiveStates))) : Pet :=
  -- set original talents points before spell loading
  let b0 := InitTalentForLevel w.spells pet.Level pet.book
  if !isTemporarySummon then
    let b1 := _LoadSpells w.spells pet.Level b0 spellRows
    -- re-init to check talent count
    let b2 := InitTalentForLevel w.spells pet.Level b1
    let b3 := LearnPetPassives w.spells pet.Level b2
    { pet with book := InitLevelupSpellsForLevel w.spells pet.Level pet.Entry b3 }
  else { pet with book := b0 }

/-- The pet object a call of `LoadPetFromDB` leaves, when it returned. -/
def LoadResult.pet? : LoadResult → Option Pet
  | LoadResult.returnedFalse pet _ => some pet
  | LoadResult.assertFailed => none
  | LoadResult.returnedTrue pet _ _ => some pet

/-- The level rule of the specification: a summon-type pet always takes the
owner's level; a hunter-type pet is capped at the owner's level and raised to
the owner's level minus 5 if it is more than 5 below; other types keep theirs. -/
def syncedLevel (petType : PetType) (ownerLevel savedLevel : Nat) : Nat :=
  match petType with
  | PetType.SUMMON_PET => ownerLevel
  | PetType.HUNTER_PET =>
    if savedLevel > ownerLevel then ownerLevel
    else if savedLevel + 5 < ownerLevel then ownerLevel - 5
    else savedLevel
  | PetType.MAX_PET_TYPE => savedLevel

/-- Modelled from the spec: the store is a collaborator of the core; after a
flush of a book that was in sync with it, the ability rows of the pet are the
known (not removed) entries of the book that are not family passives, each
with its activation mode. -/
def storedSpellRows (book : PetSpellMap) : List (Nat × ActiveStates) :=
  (book.filter (fun e => e.2.type != PetSpellType.PETSPELL_FAMILY &&
      e.2.state != PetSpellState.PETSPELL_REMOVED)).map (fun e => (e.1, e.2.active))

/-- The entry `_LoadSpells` makes of a stored row. -/
def loadedEntry (row : Nat × ActiveStates) : Nat × PetSpell :=
  (row.1, { active := row.2, state := PetSpellState.PETSPELL_UNCHANGED,
            type := PetSpellType.PETSPELL_NORMAL })

/-- A spell store with one chain of two ranks, 100 and 101, which the family 1
learns at levels 1 and 32. -/
def spellWorldSample : SpellWorld :=
  { GetSpellInfo := fun id =>
      if id = 100 ∨ id = 101 then some { Id := id, IsRanked := true } else none
    IsDifferentRankOf := fun a b => a.Id != b.Id
    IsHighRankOf := fun a b => decide (a.Id > b.Id)
    GetCreatureTemplate := some { family := 1 }
    GetPetLevelupSpellList := fun family =>
      if family = 1 then some [(1, 100), (32, 101)] else none }

/-- A world for the concrete instances, with a hunter as owner. -/
def worldSample : World :=
  { spells := spellWorldSample
    GameTime := 1000
    guardianPetType := PetType.HUNTER_PET
    PetNextLevelExp := fun level => 100 * level
    statsMaxHealth := fun pet => 50 * pet.Level
    statsMaxMana := fun _ => 0 }

/-- A hunter pet of level 30 that knows rank 1 of the chain. -/
def savedPetSample : Pet :=
  { m_petType := PetType.HUNTER_PET, PetNumber := 1, Entry := 7, NativeDisplayId := 3,
    Level := 30, UNIT_FIELD_PETEXPERIENCE := 500, UNIT_FIELD_PETNEXTLEVELEXP := 3000,
    Health := 900, MaxHealth := 1500, Happiness := 166500, MaxHappiness := 1050000,
    book := { m_spells := [(100, { active := ActiveStates.ACT_PASSIVE,
                                   state := PetSpellState.PETSPELL_UNCHANGED })] } }

/-- An owner of the given level whose current-slot record is the sample pet
as `FillPetInfo` records it. -/
def ownerSample (level : Nat) : Player :=
  { Level := level
    PetStable := some { CurrentPet := some (FillPetInfo savedPetSample 1000) } }

end Pet

namespace Pet

/-- The completion callback that `LoadPetFromDB` registers, run on what the
call returned: the ability steps with the result `spellRows` of the ability
query, then health and mana. `none` when the call registered no callback. -/
def completeLoad (w : World) (spellRows : Option (List (Nat × ActiveStates))) :
    LoadResult → Option Pet
  | LoadResult.returnedTrue pet _ (some cb) =>
    some (restoreHealthAndMana w (loadAbilities w pet cb.isTemporarySummon spellRows) cb)
  | _ => none

/-- Rows that are independent of each other for `addSpell`: distinct
abilities, each known to the spell store under its own id and stored with a
decided activation mode, no two of them ranks of one chain, and none of them a
rank of the talent node of another. -/
def rowsIndependent (w : SpellWorld) (rows : List (Nat × ActiveStates)) : Bool :=
  decide (rows.map Prod.fst).Nodup &&
    rows.all (fun r =>
      r.2 != ActiveStates.ACT_DECIDE &&
      (match w.GetSpellInfo r.1 with
        | none => false
        | some info =>
          info.Id == r.1 &&
          (rows.map Prod.fst).all (fun id =>
            id == r.1 ||
            (match w.GetSpellInfo id with
              | none => true
              | some old => !w.IsDifferentRankOf info old))) &&
      (match w.GetTalentSpellPos r.1 with
        | none => true
        | some t =>
          match w.sTalentStore t with
          | none => true
          | some ti =>
            ti.RankID.all (fun k => k == 0 || k == r.1 || !(rows.map Prod.fst).contains k)))

end Pet

/-! ## Loading the effects -/

/-- The conversion of an integer to `int32` (two's complement). -/
def wrapInt32 (z : Int) : Int :=
  (z + 2147483648) % 4294967296 - 2147483648

namespace Pet

/-- What `Pet::_LoadAuras` takes from outside the sources: the spell store,
`SpellInfo::GetAuraRankForLevel` and `Aura::TryCreate` (spell, effect mask,
base amounts, caster). -/
structure AuraStore where
  GetSpellInfo : Nat → Option SpellInfo := fun _ => none
  GetAuraRankForLevel : SpellInfo → Nat → Option SpellInfo := fun spellInfo _ => some spellInfo
  TryCreate : SpellInfo → Nat → Int × Int × Int → Nat → Option Aura := fun _ _ _ _ => none

/-- An effect that `_LoadAuras` applies: the created aura and the arguments of
`SetLoadedState`. -/
structure LoadedAura where
  aura : Aura
  maxduration : Int
  remaintime : Int
  remaincharges : Nat
  stackcount : Nat
  recalculatemask : Nat
  damage : Int × Int × Int
  deriving DecidableEq, Repr

/-- The elapsed time `uint32 timediff = uint32(GameTime - lastSaveTime)` of the
completion callback of `LoadPetFromDB`. -/
def loadTimediff (gameTime lastSaveTime : Int) : Nat :=
  ((gameTime - lastSaveTime) % (UINT32 : Int)).toNat

/-- The block "negative effects should continue counting down after logout"
of `_LoadAuras`: `none` is its `continue`, otherwise the value of `remaintime`
after it. The division is the truncating one of `int32`, `int32(timediff)` the
reinterpreted elapsed time, and the subtraction is done in 32 bits. -/
def countDownOffline (spellInfo : SpellInfo) (remaintime : Int) (timediff : Nat) : Option Int :=
  if remaintime ≠ -1 ∧
      (!spellInfo.IsPositive || spellInfo.HasAttribute_SPELL_ATTR4_AURA_EXPIRES_OFFLINE) = true then
    if Int.tdiv remaintime (IN_MILLISECONDS : Int) ≤ wrapInt32 (timediff : Int) then none
    else some (wrapInt32 (remaintime - ((timediff * IN_MILLISECONDS % UINT32 : Nat) : Int)))
  else some remaintime

/-- The end of one round of `_LoadAuras`, from "prevent wrong values of
remaincharges" on: `none` when no aura is created or the created one cannot be
saved. `remaincharges` is a byte. -/
def applyLoadedAura (s : AuraStore) (spellInfo : SpellInfo) (caster_guid : Nat)
    (row : PetAuraRow) (remaintime : Int) : Option LoadedAura :=
  -- prevent wrong values of remaincharges
  let remaincharges : Nat :=
    if spellInfo.ProcCharges ≠ 0 then
      if row.charges ≤ 0 ∨ row.charges > spellInfo.ProcCharges then spellInfo.ProcCharges % 256
      else row.charges
    else 0
  match s.TryCreate spellInfo row.effMask (row.baseDamage0, row.baseDamage1, row.baseDamage2)
      caster_guid with
  | none => none
  | some aura =>
    if !aura.CanBeSaved then none
    else
      some { aura := aura, maxduration := row.maxDuration, remaintime := remaintime,
             remaincharges := remaincharges, stackcount := row.stackAmount,
             recalculatemask := row.recalculateMask,
             damage := (row.damage0, row.damage1, row.damage2) }

/-- One round of the loop of `_LoadAuras` on a row of the effect query (the
columns are those of `PetAuraRow` after the pet number); `level` is
`GetLevel()` and `petGUID` is `GetGUID()`. -/
def loadAuraRow (s : AuraStore) (level petGUID timediff : Nat) (row : PetAuraRow) :
    Option LoadedAura :=
  -- nullptr guid stored - pet is the caster of the spell - see Pet::_SaveAuras
  let caster_guid := if row.casterGUID = 0 then petGUID else row.casterGUID
  match s.GetSpellInfo row.spell with
  | none => none
  | some spellInfo0 =>
    -- avoid higher level auras if any, and adjust
    match s.GetAuraRankForLevel spellInfo0 level with
    -- again after level check
    | none => none
    | some spellInfo =>
      -- negative effects should continue counting down after logout
      match countDownOffline spellInfo row.duration timediff with
      | none => none
      | some remaintime => applyLoadedAura s spellInfo caster_guid row remaintime

/-- `Pet::_LoadAuras`: the effects applied, in row order. -/
def _LoadAuras (s : AuraStore) (level petGUID : Nat) (result : Option (List PetAuraRow))
    (timediff : Nat) : List LoadedAura :=
  match result with
  | none => []
  | some rows => rows.filterMap (loadAuraRow s level petGUID timediff)

/-- A store that knows the harmful spell 77 and the helpful spell 78 and
creates a saveable aura for both. -/
def auraStoreSample : AuraStore :=
  { GetSpellInfo := fun id =>
      if id = 77 then some { Id := 77, IsPositive := false }
      else if id = 78 then some { Id := 78, IsPositive := true }
      else none
    TryCreate := fun spellInfo _ _ caster => some { spellInfo := spellInfo, CasterGUID := caster } }

/-- A saved row of the spell `spell` with two minutes left of five. -/
def auraRowSample (spell : Nat) : PetAuraRow :=
  { petNumber := 1, casterGUID := 0, spell := spell, effMask := 1, recalculateMask := 0,
    stackAmount := 1, damage0 := 9, damage1 := 0, damage2 := 0, baseDamage0 := 4,
    baseDamage1 := 0, baseDamage2 := 0, maxDuration := 300000, duration := 120000, charges := 0 }

end Pet

namespace Pet

/-- A spell store with one chain of four ranks, 200 to 203, not talents; all
but rank 4 can be set to autocast. -/
def rankWorldSample : SpellWorld :=
  { GetSpellInfo := fun id =>
      if 200 ≤ id ∧ id ≤ 203 then
        some { Id := id, IsRanked := true, IsAutocastable := decide (id < 203) }
      else none
    IsDifferentRankOf := fun a b => a.Id != b.Id
    IsHighRankOf := fun a b => decide (a.Id > b.Id) }

/-- A book in which rank 2 of the sample chain is known with autocast on. -/
def rankBookSample : AbilityBook :=
  { m_spells := [(201, { active := ActiveStates.ACT_ENABLED,
                         state := PetSpellState.PETSPELL_UNCHANGED })]
    m_autospells := [201] }

/-- A spell store with one talent node, number 1, of the ranks 300, 301 and
302 (the other two rank slots are empty), costing 1, 2 and 3 points. -/
def talentWorldSample : SpellWorld :=
  { GetSpellInfo := fun id => if 300 ≤ id ∧ id ≤ 302 then some { Id := id } else none
    GetTalentSpellPos := fun id => if 300 ≤ id ∧ id ≤ 302 then some 1 else none
    sTalentStore := fun t =>
      if t = 1 then some { TalentTab := 1, RankID := [300, 301, 302, 0, 0] } else none
    GetTalentSpellCost := fun id => if 300 ≤ id ∧ id ≤ 302 then id - 299 else 0 }

end Pet

/-! ## The update tick and the deferred cast -/

namespace Pet

/-- `Pet::CastWhenWillAvailable`; `none` is a null unit pointer. -/
def CastWhenWillAvailable (pet : Pet) (spellid : Nat) (spellTarget oldTarget : Option Nat)
    (spellIsPositive : Bool) : Pet :=
  if spellid = 0 then pet
  else
    match spellTarget with
    | none => pet
    | some target =>
      let pet1 := { pet with
        m_tempspellTarget := some target
        m_tempspell := spellid
        m_tempspellIsPositive := spellIsPositive }
      match oldTarget with
      | some old => { pet1 with m_tempoldTarget := some old }
      | none => pet1

/-- `Pet::ClearCastWhenWillAvailable`. -/
def ClearCastWhenWillAvailable (pet : Pet) : Pet :=
  { pet with
    m_tempspellIsPositive := false
    m_tempspell := 0
    m_tempspellTarget := none
    m_tempoldTarget := none }

/-- The stored deferred-cast request: spell, target, fallback target,
positivity. -/
def deferredRequest (pet : Pet) : Nat × Option Nat × Option Nat × Bool :=
  (pet.m_tempspell, pet.m_tempspellTarget, pet.m_tempoldTarget, pet.m_tempspellIsPositive)

/-- The calls `Pet::Update` makes to code outside the sources, with their
arguments; `Remove` is `Pet::Remove`, which hands over to `Player::RemovePet`. -/
inductive UpdateCall where
  | Remove (mode : PetSaveMode) (returnreagent : Bool)
  | Regenerate_POWER_FOCUS
  | StopMoving
  | MotionMaster_Clear
  | MoveIdle
  | SaveStayPosition
  | AddSpellCooldown (spell : Nat) (item : Nat) (cooldown : Nat)
  | CastSpell (target spell : Nat)
  | AttackStart (target : Nat)
  | PetStopAttack
  | MoveFollow (charmer : Nat)
  | Creature_Update (diff : Nat)
  deriving DecidableEq, Repr

/-- What one tick of `Pet::Update` reads from outside the pet object: the
clock, the owner, the controller and its victim, the units alive, the spell
store, ranges, distances and line of sight (floating point values, taken as
rationals: only their comparison is used), and the cooldowns. The two intervals
are constants of a header that is not part of the sources. -/
structure TickWorld where
  GameTime : Int := 0
  ownerPresent : Bool := true
  IsWithinDistInMap_owner : Bool := true
  isPossessed : Bool := false
  ownerPetGUID : Nat := 0
  powerTypeIsFocus : Bool := false
  charmerOrOwner : Option Nat := none
  charmerVictim : Option Nat := none
  IsAlive : Nat → Bool := fun _ => true
  GetSpellInfo : Nat → Option SpellInfo := fun _ => none
  GetSpellMaxRangeForTarget : Nat → SpellInfo → ℚ := fun _ _ => 0
  MIN_MELEE_REACH : ℚ := 2
  IsWithinLOSInMap : Nat → Bool := fun _ => true
  GetDistance : Nat → ℚ := fun _ => 0
  HasGlobalCooldown : SpellInfo → Bool := fun _ => false
  HasSpellCooldown : Nat → Bool := fun _ => false
  IsAIEnabled : Bool := false
  IsInCombat : Bool := false
  infinityCooldownDelay : Nat := 0
  PET_FOCUS_REGEN_INTERVAL : Int := 4000
  PET_LOSE_HAPPINES_INTERVAL : Int := 7500

/-- The state of a tick: the pet, the calls made so far, and whether `Update`
has executed a `return`. -/
structure Tick where
  pet : Pet
  calls : List UpdateCall := []
  returned : Bool := false
  deriving DecidableEq, Repr

/-- The flags after `SetCommandState(COMMAND_FOLLOW)` and the five setters of
the follow command in `Pet::Update`. -/
def followCommand (charm : CharmInfo) : CharmInfo :=
  { charm with
    CommandState := CommandStates.COMMAND_FOLLOW
    IsCommandAttack := false
    IsAtStay := false
    IsReturning := true
    IsCommandFollow := true
    IsFollowing := false }

/-- The flags after the five setters of the attack command in `Pet::Update`. -/
def attackCommand (charm : CharmInfo) : CharmInfo :=
  { charm with
    IsCommandAttack := true
    IsAtStay := false
    IsFollowing := false
    IsCommandFollow := false
    IsReturning := false }

/-- The cast of the deferred spell in `Pet::Update`, once target, range, line
of sight and cooldowns allow it. -/
def castDeferred (t : TickWorld) (pet : Pet) (charm : CharmInfo) (charmer target : Nat)
    (spellInfo : SpellInfo) : Tick :=
  let tempoldTarget := pet.m_tempoldTarget
  let tempspellIsPositive := pet.m_tempspellIsPositive
  let tempspell := pet.m_tempspell
  let oldCmdAttack := charm.IsCommandAttack
  let charm1 := { charm with
    IsCommandAttack := oldCmdAttack
    IsAtStay := true
    IsCommandFollow := false
    IsFollowing := false
    IsReturning := false }
  let calls1 := [UpdateCall.StopMoving, UpdateCall.MotionMaster_Clear, UpdateCall.MoveIdle,
    UpdateCall.SaveStayPosition,
    UpdateCall.AddSpellCooldown tempspell 0
      (if spellInfo.IsCooldownStartedOnEvent then t.infinityCooldownDelay else 0),
    UpdateCall.CastSpell target tempspell]
  let pet1 := { pet with m_tempspell := 0, m_tempspellTarget := none }
  if tempspellIsPositive then
    let oldAlive := match tempoldTarget with
      | some old => t.IsAlive old
      | none => false
    let pet2 := { pet1 with m_tempoldTarget := none, m_tempspellIsPositive := false }
    if oldAlive then
      { pet := { pet2 with charmInfo := some (attackCommand charm1) }
        calls := calls1 ++
          (match tempoldTarget with
            | some old => if t.IsAIEnabled then [UpdateCall.AttackStart old] else []
            | none => []) }
    else if t.IsAIEnabled then
      { pet := { pet2 with charmInfo := some charm1 }, calls := calls1 ++ [UpdateCall.PetStopAttack] }
    else
      { pet := { pet2 with charmInfo := some (followCommand charm1) }
        calls := calls1 ++ [UpdateCall.MoveFollow charmer] }
  else { pet := { pet1 with charmInfo := some charm1 }, calls := calls1 }

/-- The value of `max_range` in `Pet::Update`: the maximum range of the spell
for the target, less twice the minimal melee reach for a melee range. -/
def maxUsableRange (t : TickWorld) (target : Nat) (spellInfo : SpellInfo) : ℚ :=
  let max_range := t.GetSpellMaxRangeForTarget target spellInfo
  if spellInfo.RangeIsMelee then max_range - 2 * t.MIN_MELEE_REACH else max_range

/-- The block `if (m_tempspell)` of `Pet::Update`. -/
def updateDeferredCast (t : TickWorld) (pet : Pet) : Tick :=
  if pet.m_tempspell ≠ 0 then
    match t.charmerOrOwner with
    | none => { pet := pet, returned := true }
    | some charmer =>
      match pet.charmInfo with
      | none => { pet := pet, returned := true }
      | some charm =>
        match pet.m_tempspellTarget.filter t.IsAlive with
        | some target =>
          match t.GetSpellInfo pet.m_tempspell with
          | none => { pet := pet, returned := true }
          | some spellInfo =>
            let max_range := maxUsableRange t target spellInfo
            if t.IsWithinLOSInMap target && decide (t.GetDistance target < max_range) then
              if !t.HasGlobalCooldown spellInfo && !t.HasSpellCooldown pet.m_tempspell then
                castDeferred t pet charm charmer target spellInfo
              else { pet := pet }
            else { pet := pet }
        | none =>
          let pet1 := { pet with
            m_tempspell := 0
            m_tempspellTarget := none
            m_tempoldTarget := none
            m_tempspellIsPositive := false }
          let calls1 := [UpdateCall.StopMoving, UpdateCall.MotionMaster_Clear, UpdateCall.MoveIdle]
          match t.charmerVictim.filter t.IsAlive with
          | some victim =>
            { pet := { pet1 with charmInfo := some (attackCommand charm) }
              calls := calls1 ++ (if t.IsAIEnabled then [UpdateCall.AttackStart victim] else []) }
          | none =>
            { pet := { pet1 with charmInfo := some (followCommand charm) }
              calls := calls1 ++ [UpdateCall.MoveFollow charmer] }
  else { pet := pet }

/-- `Pet::LoseHappiness`; `ModifyPower` with a negative amount lowers the
power, not below 0. -/
def LoseHappiness (t : TickWorld) (pet : Pet) : Pet :=
  if pet.Happiness ≤ 0 then pet
  else
    -- we know in combat happiness fades faster, multiplier guess
    let addvalue : Nat := if t.IsInCombat then 1005 else 670
    { pet with Happiness := pet.Happiness - addvalue }

/-- The happiness timer of a hunter pet at the end of the `ALIVE` case. -/
def updateHappiness (t : TickWorld) (pet : Pet) (diff : Nat) : Pet :=
  if pet.m_petType = PetType.HUNTER_PET then
    let timer := wrapInt32 (pet.m_happinessTimer - (diff : Int))
    if timer ≤ 0 then
      { LoseHappiness t { pet with m_happinessTimer := timer } with
        m_happinessTimer := wrapInt32 (timer + t.PET_LOSE_HAPPINES_INTERVAL) }
    else { pet with m_happinessTimer := timer }
  else pet

/-- The `ALIVE` case of `Pet::Update` after the checks of the owner and of the
duration: focus, deferred cast and happiness. -/
def updateAliveBody (t : TickWorld) (pet : Pet) (diff : Nat) : Tick :=
  -- just check if we can update focus in current period
  let focus : Tick :=
    if t.powerTypeIsFocus then
      let timer := pet.m_petRegenTimer - (diff : Int)
      if timer ≤ 0 then
        { pet := { pet with m_petRegenTimer := timer + t.PET_FOCUS_REGEN_INTERVAL }
          calls := [UpdateCall.Regenerate_POWER_FOCUS] }
      else { pet := { pet with m_petRegenTimer := timer } }
    else { pet := pet }
  let cast := updateDeferredCast t focus.pet
  if cast.returned then { cast with calls := focus.calls ++ cast.calls }
  else { pet := updateHappiness t cast.pet diff, calls := focus.calls ++ cast.calls }

/-- How one call of `Pet::Update` ends: with the pet and the calls made, or in
the failed assertion on an unlinked hunter pet. -/
inductive UpdateResult where
  | done (pet : Pet) (calls : List UpdateCall)
  | assertFailed
  deriving DecidableEq, Repr

/-- `Pet::Update`. -/
def Update (t : TickWorld) (pet : Pet) (diff : Nat) : UpdateResult :=
  -- pet already removed, just wait in remove queue, no updates
  if pet.m_removed then UpdateResult.done pet []
  else if pet.m_loading then UpdateResult.done pet []
  else
    match pet.m_deathState with
    | DeathState.CORPSE =>
      if pet.m_petType ≠ PetType.HUNTER_PET ∨ pet.m_corpseRemoveTime ≤ t.GameTime then
        UpdateResult.done pet [UpdateCall.Remove PET_SAVE_NOT_IN_SLOT false]
      else UpdateResult.done pet [UpdateCall.Creature_Update diff]
    | DeathState.ALIVE =>
      -- unsummon pet that lost owner
      if !t.ownerPresent || (!t.IsWithinDistInMap_owner && !t.isPossessed) ||
          (pet.isControlled && t.ownerPetGUID == 0) then
        UpdateResult.done pet [UpdateCall.Remove PET_SAVE_NOT_IN_SLOT true]
      else if pet.isControlled && t.ownerPetGUID != pet.GUID then
        if pet.m_petType = PetType.HUNTER_PET then UpdateResult.assertFailed
        else UpdateResult.done pet [UpdateCall.Remove PET_SAVE_NOT_IN_SLOT false]
      else if pet.m_duration > 0 ∧ ¬ pet.m_duration > diff then
        UpdateResult.done pet
          [UpdateCall.Remove
            (if pet.m_petType ≠ PetType.SUMMON_PET then PET_SAVE_AS_DELETED
              else PET_SAVE_NOT_IN_SLOT) false]
      else
        let pet1 := if pet.m_duration > 0 then { pet with m_duration := pet.m_duration - diff }
          else pet
        let body := updateAliveBody t pet1 diff
        if body.returned then UpdateResult.done body.pet body.calls
        else UpdateResult.done body.pet (body.calls ++ [UpdateCall.Creature_Update diff])
    | _ => UpdateResult.done pet [UpdateCall.Creature_Update diff]

/-- The pet after a tick; the pet as it was when the assertion failed. -/
def UpdateResult.petAfter (pet : Pet) : UpdateResult → Pet
  | UpdateResult.done after _ => after
  | UpdateResult.assertFailed => pet

/-- `n` consecutive ticks of `diff` milliseconds, the `i`-th in the world
`worlds i`. -/
def updateTicks (worlds : Nat → TickWorld) (diff : Nat) : Nat → Pet → Pet
  | 0, pet => pet
  | n + 1, pet =>
    UpdateResult.petAfter (updateTicks worlds diff n pet)
      (Update (worlds n) (updateTicks worlds diff n pet) diff)

/-- A tick world with the controller 9 and the spell 55 of range 30; unit 5 is
dead, every other unit is alive. -/
def tickWorldSample : TickWorld :=
  { ownerPetGUID := 1
    charmerOrOwner := some 9
    IsAlive := fun u => u != 5
    GetSpellInfo := fun id => if id = 55 then some { Id := 55 } else none
    GetSpellMaxRangeForTarget := fun _ _ => 30 }

/-- A live, controlled pet with the pending request (55, unit 5, unit 6,
positive). -/
def pendingPetSample : Pet :=
  { GUID := 1, m_tempspell := 55, m_tempspellTarget := some 5, m_tempoldTarget := some 6,
    m_tempspellIsPositive := true }

end Pet

namespace Pet

/-- The checks a tick passes before the body of the `ALIVE` case of
`Pet::Update`: the pet is not removed and not being loaded, it is alive, its
owner is there, in visibility range (or the pet is possessed) and, for a
controlled pet, has this pet as its pet, and a limited duration does not run
out in this tick. -/
def tickGetsToBody (t : TickWorld) (pet : Pet) (diff : Nat) : Bool :=
  !pet.m_removed && !pet.m_loading && pet.m_deathState == DeathState.ALIVE &&
    !(!t.ownerPresent || (!t.IsWithinDistInMap_owner && !t.isPossessed) ||
      (pet.isControlled && t.ownerPetGUID == 0)) &&
    !(pet.isControlled && t.ownerPetGUID != pet.GUID) &&
    !decide (pet.m_duration > 0 ∧ ¬ pet.m_duration > diff)

end Pet

namespace Pet

/-- The checks of the owner at the start of the `ALIVE` case of `Pet::Update`:
the owner is there, in visibility range (or the pet is possessed) and, for a
controlled pet, has this pet as its pet. -/
def passesOwnerChecks (t : TickWorld) (pet : Pet) : Bool :=
  !(!t.ownerPresent || (!t.IsWithinDistInMap_owner && !t.isPossessed) ||
      (pet.isControlled && t.ownerPetGUID == 0)) &&
    !(pet.isControlled && t.ownerPetGUID != pet.GUID)

/-- The calls of a tick, none for a failed assertion. -/
def UpdateResult.calls : UpdateResult → List UpdateCall
  | UpdateResult.done _ calls => calls
  | UpdateResult.assertFailed => []

/-- A call of `Pet::Remove`. -/
def UpdateCall.isRemove : UpdateCall → Bool
  | UpdateCall.Remove _ _ => true
  | _ => false

end Pet

/-! ## Experience -/

namespace Pet

/-- The state of the level-up loop of `Pet::GivePetXP` when it is left: the
pet, the locals `newXP` and `petlevel`, and the number of iterations made. -/
structure XpLoopEnd where
  pet : Pet
  newXP : Nat
  petlevel : Nat
  iterations : Nat
  deriving DecidableEq, Repr

/-- The loop `while (newXP >= nextLvlXP && petlevel < maxlevel)` of
`Pet::GivePetXP`, with `nextLvlXP` read from the pet at the head of every
round; `none` when `fuel` rounds were not enough to leave the loop. `petlevel`
is a byte below `maxlevel`, so `++petlevel` does not wrap. -/
def xpLoop (w : World) (maxlevel : Nat) : Nat → Pet → Nat → Nat → Nat → Option XpLoopEnd
  | fuel, pet, newXP, petlevel, iterations =>
    if newXP ≥ pet.UNIT_FIELD_PETNEXTLEVELEXP ∧ petlevel < maxlevel then
      match fuel with
      | 0 => none
      | fuel1 + 1 =>
        -- Subtract newXP from amount needed for nextlevel, and give pet the level
        xpLoop w maxlevel fuel1 (GivePetLevel w pet (petlevel + 1))
          (newXP - pet.UNIT_FIELD_PETNEXTLEVELEXP) (petlevel + 1) (iterations + 1)
    else some { pet := pet, newXP := newXP, petlevel := petlevel, iterations := iterations }

/-- The local `maxlevel` of `Pet::GivePetXP`: the lesser of the configured
maximum player level, converted to a byte, and the owner's level. -/
def xpMaxLevel (w : World) (ownerLevel : Nat) : Nat :=
  min (w.CONFIG_MAX_PLAYER_LEVEL % 256) ownerLevel

/-- `Pet::GivePetXP`; `ownerLevel` is `GetOwner()->GetLevel()` and
`w.scaledPetXP xp` the amount after `xp *= getRate(RATE_XP_PET)`. The loop gets
`maxlevel - petlevel` rounds of fuel; `none` would be a loop that needs more. -/
def GivePetXP (w : World) (ownerLevel : Nat) (pet : Pet) (xp : Nat) : Option Pet :=
  if pet.m_petType ≠ PetType.HUNTER_PET then some pet
  else
    let xp1 := w.scaledPetXP xp
    if xp1 < 1 then some pet
    else if pet.m_deathState ≠ DeathState.ALIVE then some pet
    else
      let maxlevel := xpMaxLevel w ownerLevel
      let petlevel := pet.Level
      -- If pet is detected to be at, or above(?) the players level, don't hand out XP
      if petlevel ≥ maxlevel then some pet
      else
        let curXP := pet.UNIT_FIELD_PETEXPERIENCE
        let newXP := (curXP + xp1) % UINT32
        -- Check how much XP the pet should receive, and hand off have any left
        match xpLoop w maxlevel (maxlevel - petlevel) pet newXP petlevel 0 with
        | none => none
        | some loopEnd =>
          -- Not affected by special conditions - give it new XP
          some { loopEnd.pet with
            UNIT_FIELD_PETEXPERIENCE :=
              if loopEnd.petlevel < maxlevel then loopEnd.newXP else 0 }

/-- The next-level threshold the loop of `GivePetXP` meets in its round `i`:
the stored one of the pet in round 0 and the one `GivePetLevel` stored for the
level reached in every later round. -/
def xpThreshold (w : World) (pet : Pet) (i : Nat) : Nat :=
  if i = 0 then pet.UNIT_FIELD_PETNEXTLEVELEXP else w.PetNextLevelExp (pet.Level + i)

/-- The sum of the thresholds of the rounds before round `k`. -/
def xpThresholdSum (w : World) (pet : Pet) : Nat → Nat
  | 0 => 0
  | k + 1 => xpThresholdSum w pet k + xpThreshold w pet k

end Pet

/-! ## The ability book and its rows in the store -/

namespace Pet

/-- A spell store as `talentWorldSample` in which the three ranks of the
talent node form one chain: rank 300 precedes 301, which precedes 302. -/
def talentChainWorldSample : SpellWorld :=
  { talentWorldSample with
    GetPrevSpellInChain := fun id => if id = 301 then 300 else if id = 302 then 301 else 0 }

/-- A call on the ability book: `addSpell` with its default arguments,
`removeSpell`, or `ToggleAutocast`. -/
inductive BookCall where
  | addSpell (spellId : Nat)
  | removeSpell (spell_id : Nat) (learn_prev : Bool)
  | ToggleAutocast (spellInfo : SpellInfo) (apply : Bool)
  deriving DecidableEq, Repr

/-- The book after one call. -/
def runBookCall (w : SpellWorld) (level : Nat) (b : AbilityBook) : BookCall → AbilityBook
  | BookCall.addSpell spellId => (addSpell w level b spellId).1
  | BookCall.removeSpell spell_id learn_prev => (removeSpell w level b spell_id learn_prev).1
  | BookCall.ToggleAutocast spellInfo apply => ToggleAutocast b spellInfo apply

/-- The book after a finite sequence of calls, first call first. -/
def runBookCalls (w : SpellWorld) (level : Nat) (b : AbilityBook) (calls : List BookCall) :
    AbilityBook :=
  calls.foldl (runBookCall w level) b

/-- Modelled from the spec: the store is a collaborator of the core; the
effect of one statement on the ability rows of the pet `petNumber`, held as
pairs of spell and activation mode: a delete by spell drops the rows of that
spell, an insert adds a row, a delete of all spells drops every row, and a
statement for another pet or another table leaves the rows. -/
def applySpellStmt (petNumber : Nat) (rows : List (Nat × ActiveStates)) :
    Stmt → List (Nat × ActiveStates)
  | Stmt.CHAR_DEL_PET_SPELL_BY_SPELL p spell =>
    if p = petNumber then rows.filter (fun r => !(r.1 == spell)) else rows
  | Stmt.CHAR_INS_PET_SPELL p spell active =>
    if p = petNumber then rows ++ [(spell, active)] else rows
  | Stmt.CHAR_DEL_PET_SPELLS p => if p = petNumber then [] else rows
  | _ => rows

/-- Modelled from the spec: a committed transaction applies its statements
in the order they were appended. -/
def applySpellStmts (petNumber : Nat) (rows : List (Nat × ActiveStates)) (tx : Transaction) :
    List (Nat × ActiveStates) :=
  tx.foldl (applySpellStmt petNumber) rows

/-- The spec's "book in sync with the store": every entry is in state
unchanged and the rows of the pet are the non-family entries of the book with
their activation modes. -/
def bookInSync (book : PetSpellMap) (rows : List (Nat × ActiveStates)) : Prop :=
  (∀ e ∈ book, e.2.state = PetSpellState.PETSPELL_UNCHANGED) ∧
    List.Perm rows (storedSpellRows book)

/-- The rows of the store after the calls and one flush: the statements
`_SaveSpells` emits for the book the calls leave, applied to the rows. -/
def rowsAfterFlush (w : SpellWorld) (level petNumber : Nat) (b : AbilityBook)
    (rows : List (Nat × ActiveStates)) (calls : List BookCall) : List (Nat × ActiveStates) :=
  applySpellStmts petNumber rows
    (_SaveSpells petNumber (runBookCalls w level b calls).m_spells []).2

/-- A book in which rank 1 of the sample chain is known, as loaded from the
store, with autocast off. -/
def loadedRankBookSample : AbilityBook :=
  { m_spells := [(200, { active := ActiveStates.ACT_DISABLED,
                         state := PetSpellState.PETSPELL_UNCHANGED })] }

end Pet

/-! ## The full talent reset -/

namespace Pet

/-- The rank spells the loops of `resetTalents` go through, in order: the
`RankID` of every row `i, i + 1, ...` of the talent store (`n` rows are left)
whose tab exists and belongs to the talent type of the family. -/
def resetRankSpells (w : SpellWorld) (petTalentType : Int) : Nat → Nat → List Nat
  | 0, _ => []
  | n + 1, i =>
    match w.sTalentStore i with
    | none => resetRankSpells w petTalentType n (i + 1)
    | some talentInfo =>
      match w.sTalentTabStore talentInfo.TalentTab with
      | none => resetRankSpells w petTalentType n (i + 1)
      | some petTalentMask =>
        if (1 <<< petTalentType.toNat) &&& petTalentMask = 0 then
          resetRankSpells w petTalentType n (i + 1)
        else talentInfo.RankID ++ resetRankSpells w petTalentType n (i + 1)

/-- The sum of `f` over the spells of the entries of a book that are not
marked removed and satisfy `q`. -/
def knownSum (q : Nat → Bool) (f : Nat → Nat) (spells : PetSpellMap) : Nat :=
  (spells.map (fun e =>
    if (e.2.state != PetSpellState.PETSPELL_REMOVED && q e.1) = true then f e.1 else 0)).sum

/-- The talent points a full reset gives back: the talent costs of the known
entries that `resetTalents` unlearns for the family of the pet, which are those
whose first rank is one of the rank spells it goes through; 0 without a
creature template or a family. -/
def resetTalentCost (w : SpellWorld) (spells : PetSpellMap) : Nat :=
  match w.GetCreatureTemplate with
  | none => 0
  | some ci =>
    match w.sCreatureFamilyStore ci.family with
    | none => 0
    | some pet_family =>
      knownSum
        (fun spell =>
          (resetRankSpells w pet_family.petTalentType w.sTalentStoreNumRows 0).contains
            (w.GetFirstSpellInChain spell))
        w.GetTalentSpellCost spells

/-- None of the guards of `resetTalents` behind the owner check stops it: the
script hook allows the reset, the pet has a creature template, and its family
exists and has a talent tree. -/
def resetTalentsAllowed (w : SpellWorld) : Bool :=
  w.CanResetTalents &&
    match w.GetCreatureTemplate with
    | none => false
    | some ci =>
      match w.sCreatureFamilyStore ci.family with
      | none => false
      | some pet_family => decide (0 ≤ pet_family.petTalentType)

/-- The sample talent node in a store of two talent rows, with its tab open
to the pet talent type 0, which every family has; the three ranks have 300 as
their first rank. -/
def talentTreeWorldSample : SpellWorld :=
  { talentWorldSample with
    sTalentStoreNumRows := 2
    sTalentTabStore := fun tab => if tab = 1 then some 1 else none
    sCreatureFamilyStore := fun _ => some { petTalentType := 0 }
    GetFirstSpellInChain := fun id => if 300 ≤ id ∧ id ≤ 302 then 300 else id }

/-- A book that knows rank 301 of the sample talent node, which costs 2
points, with those 2 points counted as used. -/
def talentBookSample : AbilityBook :=
  { m_spells := [(301, { active := ActiveStates.ACT_PASSIVE,
                         state := PetSpellState.PETSPELL_UNCHANGED })]
    m_usedTalentCount := 2 }

end Pet

/-! ## Theorems -/

/-! ### First-hit loops -/

theorem firstIndex_eq_none_iff {α : Type} (p : α → Bool) (l : List α) :
    firstIndex p l = none ↔ ∀ a ∈ l, p a = false := by
  induction l with
  | nil => simp [firstIndex]
  | cons a rest ih =>
    by_cases h : p a = true
    · simp [firstIndex, h]
    · simp [firstIndex, h, ih]

theorem firstIndex_bind_get {α : Type} (p : α → Bool) (l : List α) :
    (firstIndex p l).bind (fun i => l[i]?) = l.find? p := by
  induction l with
  | nil => simp [firstIndex]
  | cons a rest ih =>
    by_cases h : p a = true
    · simp [firstIndex, h]
    · have h' : p a = false := by simpa using h
      rw [firstIndex, List.find?_cons]
      simp only [h', Bool.false_eq_true, if_false]
      rw [← ih]
      cases firstIndex p rest <;> simp

namespace Pet

theorem stabled_bind_get (petnumber : Nat) (l : List (Option PetInfo)) :
    (firstIndex (stabledHasNumber petnumber) l).bind (fun i => (l[i]?).join)
      = (l.filterMap id).find? (fun pet => pet.PetNumber == petnumber) := by
  induction l with
  | nil => simp [firstIndex]
  | cons a rest ih =>
    cases a with
    | none =>
      rw [firstIndex]
      simp only [stabledHasNumber, Bool.false_eq_true, if_false, List.filterMap_cons, id]
      rw [← ih]
      cases firstIndex (stabledHasNumber petnumber) rest <;> simp
    | some pet =>
      by_cases h : (pet.PetNumber == petnumber) = true
      · simp [firstIndex, stabledHasNumber, h]
      · have h' : (pet.PetNumber == petnumber) = false := by simpa using h
        rw [firstIndex]
        simp only [stabledHasNumber, h', Bool.false_eq_true, if_false, List.filterMap_cons, id,
          List.find?_cons]
        rw [← ih]
        cases firstIndex (stabledHasNumber petnumber) rest <;> simp

end Pet

theorem firstIndex_some_get {α : Type} (p : α → Bool) (l : List α) (i : Nat)
    (h : firstIndex p l = some i) : ∃ a, l[i]? = some a ∧ p a = true := by
  induction l generalizing i with
  | nil => simp [firstIndex] at h
  | cons a rest ih =>
    by_cases hp : p a = true
    · simp only [firstIndex, hp, if_true, Option.some.injEq] at h
      subst h
      exact ⟨a, by simp, hp⟩
    · have hp' : p a = false := by simpa using hp
      simp only [firstIndex, hp', Bool.false_eq_true, if_false, Option.map_eq_some'] at h
      obtain ⟨j, hj, rfl⟩ := h
      obtain ⟨b, hb, hpb⟩ := ih j hj
      exact ⟨b, by simpa using hb, hpb⟩

namespace Pet

/-- The record a lookup by number returns, case by case. -/
theorem loadedRecord_by_number (stable : PetStable) (petEntry petnumber : Nat) (current : Bool)
    (h : petnumber ≠ 0) :
    loadedRecord stable petEntry petnumber current
      = stable.recordsInSearchOrder.find? (fun pet => pet.PetNumber == petnumber) := by
  have hs := stabled_bind_get petnumber stable.StabledPets
  have hu := firstIndex_bind_get (fun pet : PetInfo => pet.PetNumber == petnumber)
    stable.UnslottedPets
  unfold loadedRecord GetLoadPetInfo PetStable.recordsInSearchOrder
  rw [if_pos h, List.append_assoc, List.find?_append, List.find?_append, ← hs, ← hu]
  have key : (match firstIndex (stabledHasNumber petnumber) stable.StabledPets with
      | some stableSlot =>
          ((some (PetInfoPtr.stabled stableSlot), PET_SAVE_FIRST_STABLE_SLOT + (stableSlot : Int))
            : Option PetInfoPtr × PetSaveMode)
      | none =>
          match firstIndex (fun pet : PetInfo => pet.PetNumber == petnumber)
            stable.UnslottedPets with
          | some index => (some (PetInfoPtr.unslotted index), PET_SAVE_NOT_IN_SLOT)
          | none => (none, PET_SAVE_AS_DELETED)).1.bind stable.deref
      = ((firstIndex (stabledHasNumber petnumber) stable.StabledPets).bind
            (fun i => (stable.StabledPets[i]?).join)).or
          ((firstIndex (fun pet : PetInfo => pet.PetNumber == petnumber)
            stable.UnslottedPets).bind (fun i => stable.UnslottedPets[i]?)) := by
    cases h1 : firstIndex (stabledHasNumber petnumber) stable.StabledPets with
    | some slot =>
      obtain ⟨a, ha, hpa⟩ := firstIndex_some_get _ _ _ h1
      cases a with
      | none => simp [stabledHasNumber] at hpa
      | some pet =>
        simp [PetStable.deref, ha]
    | none =>
      cases h4 : firstIndex (fun pet : PetInfo => pet.PetNumber == petnumber)
          stable.UnslottedPets with
      | some index => simp [PetStable.deref]
      | none => simp
  cases hc : stable.CurrentPet with
  | some pet =>
    by_cases hn : (pet.PetNumber == petnumber) = true
    · simp [stabledHasNumber, hn, PetStable.deref, hc]
    · have hn' : (pet.PetNumber == petnumber) = false := by simpa using hn
      simp only [stabledHasNumber, hn', Bool.false_eq_true, if_false, Option.toList,
        List.find?_cons, List.find?_nil, Option.none_or]
      exact key
  | none =>
    simp only [stabledHasNumber, Bool.false_eq_true, if_false, Option.toList,
        List.find?_nil, Option.none_or]
    exact key

end Pet

namespace Pet

theorem mem_recordsInSearchOrder (stable : PetStable) (pet : PetInfo) :
    pet ∈ stable.recordsInSearchOrder ↔
      stable.CurrentPet = some pet ∨ some pet ∈ stable.StabledPets ∨ pet ∈ stable.UnslottedPets := by
  unfold PetStable.recordsInSearchOrder
  cases stable.CurrentPet <;> simp [Option.toList, or_assoc, eq_comm]

/-- A lookup by number that finds no record anywhere fails. -/
theorem GetLoadPetInfo_by_number_notFound (stable : PetStable) (petEntry petnumber : Nat)
    (current : Bool) (h : petnumber ≠ 0)
    (hno : ∀ pet ∈ stable.recordsInSearchOrder, pet.PetNumber ≠ petnumber) :
    GetLoadPetInfo stable petEntry petnumber current = (none, PET_SAVE_AS_DELETED) := by
  have hcur : stabledHasNumber petnumber stable.CurrentPet = false := by
    cases hc : stable.CurrentPet with
    | none => rfl
    | some pet =>
      have := hno pet ((mem_recordsInSearchOrder stable pet).2 (Or.inl hc))
      simpa [stabledHasNumber] using this
  have hst : firstIndex (stabledHasNumber petnumber) stable.StabledPets = none := by
    rw [firstIndex_eq_none_iff]
    intro a ha
    cases a with
    | none => rfl
    | some pet =>
      have := hno pet ((mem_recordsInSearchOrder stable pet).2 (Or.inr (Or.inl ha)))
      simpa [stabledHasNumber] using this
  have hun : firstIndex (fun pet : PetInfo => pet.PetNumber == petnumber) stable.UnslottedPets
      = none := by
    rw [firstIndex_eq_none_iff]
    intro pet ha
    have := hno pet ((mem_recordsInSearchOrder stable pet).2 (Or.inr (Or.inr ha)))
    simpa using this
  unfold GetLoadPetInfo
  rw [if_pos h, hcur, hst, hun]
  rfl

/-- C2: for a non-zero `petnumber`, `GetLoadPetInfo` returns the first record
with that number in the order current slot, stable slots by index, unslotted
list; `petEntry` and `current` do not influence the result; and when no record
has the number the result is "no record" (null, `PET_SAVE_AS_DELETED`). -/
theorem C2_lookup_by_number (stable : PetStable) (petEntry petnumber : Nat) (current : Bool)
    (h : petnumber ≠ 0) :
    loadedRecord stable petEntry petnumber current
        = stable.recordsInSearchOrder.find? (fun pet => pet.PetNumber == petnumber) ∧
      (∀ (petEntry2 : Nat) (current2 : Bool),
        GetLoadPetInfo stable petEntry2 petnumber current2
          = GetLoadPetInfo stable petEntry petnumber current) ∧
      ((∀ pet ∈ stable.recordsInSearchOrder, pet.PetNumber ≠ petnumber) →
        GetLoadPetInfo stable petEntry petnumber current = (none, PET_SAVE_AS_DELETED)) := by
  refine ⟨loadedRecord_by_number stable petEntry petnumber current h, ?_,
    GetLoadPetInfo_by_number_notFound stable petEntry petnumber current h⟩
  intro petEntry2 current2
  unfold GetLoadPetInfo
  rw [if_pos h, if_pos h]

/-- Witness of C2: number 2 is found in the second stable slot of the sample
stable although the current pet and the species argument would select others. -/
theorem C2_lookup_by_number_witness :
    (2 : Nat) ≠ 0 ∧
      loadedRecord stableSample 9 2 true = some { PetNumber := 2, CreatureId := 8 } := by
  refine ⟨by decide, ?_⟩
  rw [(C2_lookup_by_number stableSample 9 2 true (by decide)).1]
  decide

end Pet

namespace Pet

/-- The pointer `GetLoadPetInfo` returns always points at a record. -/
theorem GetLoadPetInfo_deref_ne_none (stable : PetStable) (petEntry petnumber : Nat)
    (current : Bool) (ptr : PetInfoPtr)
    (h : (GetLoadPetInfo stable petEntry petnumber current).1 = some ptr) :
    stable.deref ptr ≠ none := by
  have hcur : ∀ pet, stable.CurrentPet = some pet → stable.deref PetInfoPtr.current ≠ none := by
    intro pet hc
    simp [PetStable.deref, hc]
  have hun : ∀ (p : PetInfo → Bool) (index : Nat),
      firstIndex p stable.UnslottedPets = some index →
      stable.deref (PetInfoPtr.unslotted index) ≠ none := by
    intro p index hu
    obtain ⟨a, ha, _⟩ := firstIndex_some_get _ _ _ hu
    simp [PetStable.deref, ha]
  unfold GetLoadPetInfo at h
  by_cases h1 : petnumber ≠ 0
  · rw [if_pos h1] at h
    by_cases h2 : stabledHasNumber petnumber stable.CurrentPet = true
    · rw [if_pos h2] at h
      cases hc : stable.CurrentPet with
      | none => simp [hc, stabledHasNumber] at h2
      | some pet =>
        simp only [Option.some.injEq] at h
        subst h
        exact hcur pet hc
    · rw [if_neg h2] at h
      cases hs : firstIndex (stabledHasNumber petnumber) stable.StabledPets with
      | some slot =>
        obtain ⟨a, ha, hpa⟩ := firstIndex_some_get _ _ _ hs
        rw [hs] at h
        simp only [Option.some.injEq] at h
        subst h
        cases a with
        | none => simp [stabledHasNumber] at hpa
        | some pet => simp [PetStable.deref, ha]
      | none =>
        rw [hs] at h
        cases hu : firstIndex (fun pet : PetInfo => pet.PetNumber == petnumber)
            stable.UnslottedPets with
        | some index =>
          rw [hu] at h
          simp only [Option.some.injEq] at h
          subst h
          exact hun _ _ hu
        | none => rw [hu] at h; simp at h
  · rw [if_neg h1] at h
    by_cases h3 : current = true
    · rw [if_pos h3] at h
      cases hc : stable.CurrentPet with
      | none => rw [hc] at h; simp at h
      | some pet =>
        rw [hc] at h
        simp only [Option.some.injEq] at h
        subst h
        exact hcur pet hc
    · rw [if_neg h3] at h
      by_cases h4 : petEntry ≠ 0
      · rw [if_pos h4] at h
        cases hc : stable.CurrentPet with
        | none =>
          rw [hc] at h
          simp only [Bool.false_eq_true, if_false] at h
          cases hu : firstIndex (fun pet : PetInfo => pet.CreatureId == petEntry)
              stable.UnslottedPets with
          | some index =>
            rw [hu] at h
            simp only [Option.some.injEq] at h
            subst h
            exact hun _ _ hu
          | none => rw [hu] at h; simp at h
        | some pet =>
          rw [hc] at h
          by_cases h5 : (pet.CreatureId == petEntry) = true
          · simp only [h5, if_true, Option.some.injEq] at h
            subst h
            exact hcur pet hc
          · simp only [h5, Bool.false_eq_true, if_false] at h
            cases hu : firstIndex (fun pet : PetInfo => pet.CreatureId == petEntry)
                stable.UnslottedPets with
            | some index =>
              rw [hu] at h
              simp only [Option.some.injEq] at h
              subst h
              exact hun _ _ hu
            | none => rw [hu] at h; simp at h
      · rw [if_neg h4] at h
        cases hc : stable.CurrentPet with
        | some pet =>
          rw [hc] at h
          simp only [Option.some.injEq] at h
          subst h
          exact hcur pet hc
        | none =>
          rw [hc] at h
          by_cases hne : stable.UnslottedPets ≠ []
          · rw [if_pos hne] at h
            simp only [Option.some.injEq] at h
            subst h
            cases hl : stable.UnslottedPets with
            | nil => exact absurd hl hne
            | cons a rest => simp [PetStable.deref, hl]
          · rw [if_neg hne] at h
            simp at h

end Pet

namespace Pet

theorem loadedRecord_ne_none_iff (stable : PetStable) (petEntry petnumber : Nat)
    (current : Bool) :
    loadedRecord stable petEntry petnumber current ≠ none ↔
      (GetLoadPetInfo stable petEntry petnumber current).1 ≠ none := by
  unfold loadedRecord
  cases h : (GetLoadPetInfo stable petEntry petnumber current).1 with
  | none => simp
  | some ptr =>
    have := GetLoadPetInfo_deref_ne_none stable petEntry petnumber current ptr h
    simpa using this

theorem GetLoadPetInfo_ne_none_iff (stable : PetStable) (petEntry petnumber : Nat)
    (current : Bool) :
    (GetLoadPetInfo stable petEntry petnumber current).1 ≠ none ↔
      eligibleRecordExists stable petEntry petnumber current := by
  by_cases h1 : petnumber ≠ 0
  · rw [← loadedRecord_ne_none_iff, loadedRecord_by_number stable petEntry petnumber current h1]
    unfold eligibleRecordExists
    rw [if_pos h1, Ne, List.find?_eq_none]
    simp
  · unfold eligibleRecordExists GetLoadPetInfo
    rw [if_neg h1, if_neg h1]
    by_cases h3 : current = true
    · rw [if_pos h3, if_pos h3]
      cases stable.CurrentPet <;> simp
    · rw [if_neg h3, if_neg h3]
      by_cases h4 : petEntry ≠ 0
      · rw [if_pos h4, if_pos h4]
        cases hu : firstIndex (fun pet : PetInfo => pet.CreatureId == petEntry)
            stable.UnslottedPets with
        | some index =>
          obtain ⟨a, ha, hpa⟩ := firstIndex_some_get _ _ _ hu
          have hmem : a ∈ stable.UnslottedPets := List.getElem?_mem ha
          have hr : ∃ pet ∈ stable.UnslottedPets, pet.CreatureId = petEntry :=
            ⟨a, hmem, by simpa using hpa⟩
          cases stable.CurrentPet with
          | none => simp [hr]
          | some pet => by_cases h5 : (pet.CreatureId == petEntry) = true <;> simp [h5, hr]
        | none =>
          have hn := (firstIndex_eq_none_iff _ _).1 hu
          have hr : ¬ ∃ pet ∈ stable.UnslottedPets, pet.CreatureId = petEntry := by
            rintro ⟨pet, hm, hp⟩
            have := hn pet hm
            simp [hp] at this
          cases stable.CurrentPet with
          | none => simp [hr]
          | some pet =>
            by_cases h5 : (pet.CreatureId == petEntry) = true
            · have h6 : pet.CreatureId = petEntry := by simpa using h5
              simp [h6]
            · have h6 : ¬ pet.CreatureId = petEntry := by simpa using h5
              simp [h6, hr]
      · rw [if_neg h4, if_neg h4]
        cases stable.CurrentPet with
        | some pet => simp
        | none =>
          by_cases hne : stable.UnslottedPets ≠ []
          · simp [hne]
          · simp [hne]

/-- C1 (counterexample): the stable holds a record (current pet number 1), yet
a lookup by pet number 2 returns no record. -/
theorem C1_counterexample :
    stableWithCurrentOnly.holdsRecord ∧
      GetLoadPetInfo stableWithCurrentOnly 0 2 false = (none, PET_SAVE_AS_DELETED) := by
  refine ⟨Or.inl (by simp [stableWithCurrentOnly]), by decide⟩

/-- C1 (amended): `GetLoadPetInfo` is a total function, and it returns a
record (a non-null pointer, which points at a record of the stable) exactly
when a record eligible under the selection criteria exists: by number anywhere
in the stable; else the current slot when "current" is requested; else a
current or unslotted record of the species; else any current or unslotted
record. -/
theorem C1_returns_record_iff_eligible (stable : PetStable) (petEntry petnumber : Nat)
    (current : Bool) :
    ((GetLoadPetInfo stable petEntry petnumber current).1 ≠ none ↔
        eligibleRecordExists stable petEntry petnumber current) ∧
      (loadedRecord stable petEntry petnumber current ≠ none ↔
        eligibleRecordExists stable petEntry petnumber current) :=
  ⟨GetLoadPetInfo_ne_none_iff stable petEntry petnumber current,
    (loadedRecord_ne_none_iff stable petEntry petnumber current).trans
      (GetLoadPetInfo_ne_none_iff stable petEntry petnumber current)⟩

end Pet

namespace Pet

/-- C3: with `petnumber = 0` and `current = false`, `GetLoadPetInfo` never
returns a stabled pet; with a species id it returns the current-slot record if
its `CreatureId` is that species, else the first unslotted record of that
species, else nothing; without one it returns the current-slot record if there
is one, else the first unslotted record, else nothing. -/
theorem C3_species_or_any_never_stabled (stable : PetStable) (petEntry : Nat) :
    (∀ slot : Nat,
        (GetLoadPetInfo stable petEntry 0 false).1 ≠ some (PetInfoPtr.stabled slot)) ∧
      loadedRecord stable petEntry 0 false =
        if petEntry ≠ 0 then
          (stable.CurrentPet.filter (fun pet => pet.CreatureId == petEntry)).or
            (stable.UnslottedPets.find? (fun pet => pet.CreatureId == petEntry))
        else stable.CurrentPet.or stable.UnslottedPets.head? := by
  have hu := firstIndex_bind_get (fun pet : PetInfo => pet.CreatureId == petEntry)
    stable.UnslottedPets
  unfold loadedRecord GetLoadPetInfo
  simp only [ne_eq, not_true_eq_false, if_false, Bool.false_eq_true]
  by_cases h4 : petEntry = 0
  · simp only [h4, not_true_eq_false, if_false]
    cases hc : stable.CurrentPet with
    | some pet => simp [PetStable.deref, hc]
    | none =>
      cases hl : stable.UnslottedPets with
      | nil => simp
      | cons a rest => simp [PetStable.deref, hl]
  · simp only [h4, not_false_eq_true, if_true]
    rw [← hu]
    cases hc : stable.CurrentPet with
    | some pet =>
      by_cases h5 : (pet.CreatureId == petEntry) = true
      · simp [h5, PetStable.deref, hc, Option.filter]
      · simp only [h5, Bool.false_eq_true, if_false, Option.filter, Option.none_or]
        cases firstIndex (fun pet : PetInfo => pet.CreatureId == petEntry)
          stable.UnslottedPets <;> simp [PetStable.deref]
    | none =>
      simp only [Bool.false_eq_true, if_false, Option.filter, Option.none_or]
      cases firstIndex (fun pet : PetInfo => pet.CreatureId == petEntry)
        stable.UnslottedPets <;> simp [PetStable.deref]

end Pet

namespace Pet

/-! ### Ability flush -/

/-- The flush is a fold over the book: the entries kept and the statements
appended are those the per-entry policy gives, in iteration order. -/
theorem _SaveSpells_eq (petNumber : Nat) (book : PetSpellMap) (tx : Transaction) :
    _SaveSpells petNumber book tx
      = (book.filterMap flushedEntry, tx ++ book.flatMap (flushStatements petNumber)) := by
  induction book generalizing tx with
  | nil => simp [_SaveSpells]
  | cons e rest ih =>
    obtain ⟨spell, entry⟩ := e
    obtain ⟨active, state, type⟩ := entry
    by_cases hf : type = PetSpellType.PETSPELL_FAMILY
    · simp [_SaveSpells, hf, ih, flushedEntry, flushStatements]
    · cases state <;>
        simp [_SaveSpells, hf, ih, flushedEntry, flushStatements, List.append_assoc]

/-- After a flush every entry is a family passive or in state unchanged. -/
theorem flushedEntry_clean (e e2 : Nat × PetSpell) (h : flushedEntry e = some e2) :
    flushedEntry e2 = some e2 ∧ ∀ petNumber, flushStatements petNumber e2 = [] := by
  obtain ⟨spell, entry⟩ := e
  obtain ⟨active, state, type⟩ := entry
  by_cases hf : type = PetSpellType.PETSPELL_FAMILY
  · simp only [flushedEntry, hf, if_true, Option.some.injEq] at h
    subst h
    simp [flushedEntry, flushStatements]
  · cases state <;> simp [flushedEntry, hf] at h <;> subst h <;>
      simp [flushedEntry, flushStatements, hf]

end Pet

namespace Pet

theorem flush_of_flushed (petNumber : Nat) (book : PetSpellMap) :
    (book.filterMap flushedEntry).filterMap flushedEntry = book.filterMap flushedEntry ∧
      (book.filterMap flushedEntry).flatMap (flushStatements petNumber) = [] := by
  induction book with
  | nil => simp
  | cons e rest ih =>
    cases he : flushedEntry e with
    | none => simpa [List.filterMap_cons, he] using ih
    | some e2 =>
      obtain ⟨h1, h2⟩ := flushedEntry_clean e e2 he
      simp only [List.filterMap_cons, he, h1, List.flatMap_cons, h2 petNumber, List.nil_append]
      exact ⟨by rw [ih.1], ih.2⟩

/-- C5: running `_SaveSpells` a second time right after a first run appends no
statement to the transaction and leaves the book as the first run left it. -/
theorem C5_SaveSpells_idempotent (petNumber : Nat) (book : PetSpellMap) (tx : Transaction) :
    _SaveSpells petNumber (_SaveSpells petNumber book tx).1 (_SaveSpells petNumber book tx).2
      = _SaveSpells petNumber book tx := by
  rw [_SaveSpells_eq petNumber book tx]
  simp only
  rw [_SaveSpells_eq, (flush_of_flushed petNumber book).1, (flush_of_flushed petNumber book).2]
  simp

/-- C6: `_SaveSpells` handles the entries one by one in iteration order: a
family passive produces no statement and stays untouched whatever its state;
any other entry appends nothing if unchanged, one insert if new, a delete
followed by an insert if changed, one delete if removed; removed entries are
erased from the book and every other flushed entry ends in state unchanged. -/
theorem C6_SaveSpells_diff_policy (petNumber : Nat) (book : PetSpellMap) (tx : Transaction) :
    _SaveSpells petNumber book tx
      = (book.filterMap flushedEntry, tx ++ book.flatMap (flushStatements petNumber)) :=
  _SaveSpells_eq petNumber book tx

end Pet

namespace Pet

/-! ### Cooldown flush -/

/-- The cooldown loop as a fold, with the 32-bit sums as the code computes them:
an entry stays in the table unless `end <= curMSTime + 1000`, and of those that
stay the ones with `end <= infTime` get an insert. -/
theorem saveCooldownLoop_eq (petNumber D : Nat) (curTime : Int) (curMSTime : Nat)
    (table : CreatureSpellCooldowns) (tx : Transaction) :
    saveCooldownLoop petNumber D curTime curMSTime table tx
      = (table.filter (fun e => !decide (e.2.end_ ≤ (curMSTime + 1000) % UINT32)),
         tx ++ (table.filter (fun e => !decide (e.2.end_ ≤ (curMSTime + 1000) % UINT32)
                  && decide (e.2.end_ ≤ (curMSTime + D) % UINT32))).map
            (fun e => Stmt.CHAR_INS_PET_SPELL_COOLDOWN petNumber e.1 e.2.category
              (savedCooldown curTime curMSTime e.2.end_))) := by
  induction table generalizing tx with
  | nil => simp [saveCooldownLoop]
  | cons e rest ih =>
    obtain ⟨spell, cd⟩ := e
    by_cases h1 : cd.end_ ≤ (curMSTime + 1000) % UINT32
    · simp [saveCooldownLoop, h1, ih]
    · by_cases h2 : cd.end_ ≤ (curMSTime + D) % UINT32
      · simp [saveCooldownLoop, h1, h2, ih, List.append_assoc]
      · simp [saveCooldownLoop, h1, h2, ih]

end Pet

namespace Pet

theorem UINT32_eq : UINT32 = 4294967296 := rfl

/-- The saved second without wrap-around: the clock second plus the whole
seconds that remain. -/
theorem savedCooldown_eq (curTime : Int) (curMSTime end_ : Nat)
    (hlo : curMSTime ≤ end_) (hhi : end_ < UINT32) (h0 : 0 ≤ curTime)
    (hfit : curTime + (((end_ - curMSTime) / 1000 : Nat) : Int) < (UINT32 : Int)) :
    ((savedCooldown curTime curMSTime end_ : Nat) : Int)
      = curTime + (((end_ - curMSTime) / 1000 : Nat) : Int) := by
  unfold savedCooldown
  simp only [UINT32_eq, IN_MILLISECONDS] at *
  have h1 : (end_ + 4294967296 - curMSTime) % 4294967296 = end_ - curMSTime := by omega
  rw [h1]
  push_cast
  omega

end Pet

namespace Pet

end Pet

namespace Pet

/-- C8 (counterexample): at wall-clock second `2 ^ 32 - 1` (no millisecond sum
wraps) a cooldown with 2000 ms left is persisted as second 1, which is neither
`curTime + 2` nor greater than `curTime`. -/
theorem C8_counterexample :
    0 + 1000 < UINT32 ∧ 0 + cutoffSample < UINT32 ∧
      _SaveSpellCooldowns 1 cutoffSample 4294967295 0 [(7, { category := 0, end_ := 2000 })] []
        = ([(7, { category := 0, end_ := 2000 })],
           [Stmt.CHAR_DEL_PET_SPELL_COOLDOWNS 1, Stmt.CHAR_INS_PET_SPELL_COOLDOWN 1 7 0 1]) ∧
      ¬ ((4294967295 : Int) < 1) := by
  refine ⟨by decide, by decide, by decide, by decide⟩

/-- C8 (amended): when the 32-bit millisecond sums do not wrap, the clock second
is not negative and every second to store fits 32 bits, `_SaveSpellCooldowns`
partitions the entries by expiry: `end ≤ curMSTime + 1000` is erased and not
persisted; `curMSTime + 1000 < end ≤ curMSTime + infinityCooldownDelayCheck`
stays and is persisted as `curTime + (end − curMSTime) / 1000`, a second
strictly greater than `curTime`; an expiry beyond the cutoff stays and is not
persisted. -/
theorem C8_cooldown_partition (petNumber D : Nat) (curTime : Int) (curMSTime : Nat)
    (table : CreatureSpellCooldowns) (tx : Transaction)
    (hw1 : curMSTime + 1000 < UINT32) (hw2 : curMSTime + D < UINT32) (h0 : 0 ≤ curTime)
    (hfit : ∀ e ∈ table, curMSTime + 1000 < e.2.end_ → e.2.end_ ≤ curMSTime + D →
      curTime + (((e.2.end_ - curMSTime) / 1000 : Nat) : Int) < (UINT32 : Int)) :
    (_SaveSpellCooldowns petNumber D curTime curMSTime table tx).1
        = table.filter (fun e => decide (curMSTime + 1000 < e.2.end_)) ∧
      (_SaveSpellCooldowns petNumber D curTime curMSTime table tx).2
        = tx ++ Stmt.CHAR_DEL_PET_SPELL_COOLDOWNS petNumber ::
            (table.filter (fun e => decide (curMSTime + 1000 < e.2.end_)
                && decide (e.2.end_ ≤ curMSTime + D))).map
              (fun e => Stmt.CHAR_INS_PET_SPELL_COOLDOWN petNumber e.1 e.2.category
                (curTime + (((e.2.end_ - curMSTime) / 1000 : Nat) : Int)).toNat) ∧
      ∀ e ∈ table, curMSTime + 1000 < e.2.end_ → e.2.end_ ≤ curMSTime + D →
        curTime < curTime + (((e.2.end_ - curMSTime) / 1000 : Nat) : Int) := by
  have m1 : (curMSTime + 1000) % UINT32 = curMSTime + 1000 := Nat.mod_eq_of_lt hw1
  have m2 : (curMSTime + D) % UINT32 = curMSTime + D := Nat.mod_eq_of_lt hw2
  have hf1 : (fun e : Nat × CreatureSpellCooldown => !decide (e.2.end_ ≤ curMSTime + 1000))
      = (fun e => decide (curMSTime + 1000 < e.2.end_)) := by
    funext e
    by_cases h : e.2.end_ ≤ curMSTime + 1000
    · have h2 : ¬ curMSTime + 1000 < e.2.end_ := by omega
      simp [h, h2]
    · have h2 : curMSTime + 1000 < e.2.end_ := by omega
      simp [h, h2]
  have hf : (fun e : Nat × CreatureSpellCooldown =>
        !decide (e.2.end_ ≤ curMSTime + 1000) && decide (e.2.end_ ≤ curMSTime + D))
      = (fun e => decide (curMSTime + 1000 < e.2.end_) && decide (e.2.end_ ≤ curMSTime + D)) := by
    funext e
    have := congrFun hf1 e
    simp only at this
    rw [this]
  have hmap : (table.filter (fun e => decide (curMSTime + 1000 < e.2.end_)
        && decide (e.2.end_ ≤ curMSTime + D))).map
        (fun e => Stmt.CHAR_INS_PET_SPELL_COOLDOWN petNumber e.1 e.2.category
          (savedCooldown curTime curMSTime e.2.end_))
      = (table.filter (fun e => decide (curMSTime + 1000 < e.2.end_)
        && decide (e.2.end_ ≤ curMSTime + D))).map
        (fun e => Stmt.CHAR_INS_PET_SPELL_COOLDOWN petNumber e.1 e.2.category
          (curTime + (((e.2.end_ - curMSTime) / 1000 : Nat) : Int)).toNat) := by
    apply List.map_congr_left
    intro e he
    rw [List.mem_filter] at he
    obtain ⟨hm, hc⟩ := he
    simp only [Bool.and_eq_true, decide_eq_true_eq] at hc
    have hlt : e.2.end_ < UINT32 := lt_of_le_of_lt hc.2 hw2
    have := savedCooldown_eq curTime curMSTime e.2.end_ (by omega) hlt h0 (hfit e hm hc.1 hc.2)
    rw [← this]
    simp
  unfold _SaveSpellCooldowns
  rw [saveCooldownLoop_eq, m1, m2, hf1, hf, hmap]
  refine ⟨rfl, ?_, ?_⟩
  · simp only [List.append_assoc, List.singleton_append]
  · intro e _ h1 _
    have : 1 ≤ (e.2.end_ - curMSTime) / 1000 := by omega
    omega

/-- Witness of C8 (amended): at clock second 100, 5000 ms, an expired entry is
erased, an entry with 2500 ms left is persisted as second 102 and an entry
beyond the cutoff is kept without a row. -/
theorem C8_cooldown_partition_witness :
    _SaveSpellCooldowns 1 cutoffSample 100 5000
        [(7, { category := 0, end_ := 5500 }), (8, { category := 3, end_ := 7500 }),
         (9, { category := 0, end_ := 4000000000 })] []
      = ([(8, { category := 3, end_ := 7500 }), (9, { category := 0, end_ := 4000000000 })],
         [Stmt.CHAR_DEL_PET_SPELL_COOLDOWNS 1, Stmt.CHAR_INS_PET_SPELL_COOLDOWN 1 8 3 102]) := by
  have h := C8_cooldown_partition 1 cutoffSample 100 5000
    [(7, { category := 0, end_ := 5500 }), (8, { category := 3, end_ := 7500 }),
     (9, { category := 0, end_ := 4000000000 })] [] (by decide) (by decide) (by decide)
    (by
      intro e he _ h2
      simp only [cutoffSample] at h2
      simp only [UINT32_eq]
      omega)
  refine Prod.ext ?_ ?_
  · rw [h.1]; decide
  · rw [h.2.1]; decide

end Pet

namespace Pet

/-- A persisted entry has more than the grace left, in 32-bit arithmetic, when
the cutoff is at least the grace. -/
theorem persisted_remaining_gt (D curMSTime end_ : Nat)
    (hc : curMSTime < UINT32) (he : end_ < UINT32) (hD : 1000 ≤ D) (hD2 : D < UINT32)
    (h1 : ¬ end_ ≤ (curMSTime + 1000) % UINT32) (h2 : end_ ≤ (curMSTime + D) % UINT32) :
    1000 < (end_ + UINT32 - curMSTime) % UINT32 := by
  simp only [UINT32_eq] at *
  omega

/-- The second stored for `rem` remaining milliseconds, read back at the same
clock second, gives the whole seconds of `rem` in milliseconds. -/
theorem saved_then_loaded (curTime : Int) (curMSTime end_ : Nat)
    (h0 : 0 ≤ curTime)
    (hfit : curTime + ((((end_ + UINT32 - curMSTime) % UINT32 / 1000 : Nat)) : Int)
      < (UINT32 : Int)) :
    ((savedCooldown curTime curMSTime end_ : Nat) : Int)
        = curTime + ((((end_ + UINT32 - curMSTime) % UINT32 / 1000 : Nat)) : Int) ∧
      loadedCooldown curTime ((savedCooldown curTime curMSTime end_ : Nat) : Int)
        = (end_ + UINT32 - curMSTime) % UINT32 / 1000 * 1000 := by
  have hs : ((savedCooldown curTime curMSTime end_ : Nat) : Int)
      = curTime + ((((end_ + UINT32 - curMSTime) % UINT32 / 1000 : Nat)) : Int) := by
    unfold savedCooldown
    simp only [UINT32_eq, IN_MILLISECONDS] at *
    omega
  refine ⟨hs, ?_⟩
  unfold loadedCooldown
  rw [hs]
  simp only [UINT32_eq, IN_MILLISECONDS] at *
  omega

end Pet

namespace Pet

/-- C9 (counterexample): at wall-clock second `2 ^ 32 - 1` a cooldown with
2000 ms left is persisted (as second 1), and loading that row at the same
second restores no cooldown at all. -/
theorem C9_counterexample :
    _SaveSpellCooldowns 1 cutoffSample 4294967295 0 [(7, { category := 0, end_ := 2000 })] []
        = ([(7, { category := 0, end_ := 2000 })],
           [Stmt.CHAR_DEL_PET_SPELL_COOLDOWNS 1, Stmt.CHAR_INS_PET_SPELL_COOLDOWN 1 7 0 1]) ∧
      _LoadSpellCooldowns (fun _ => true) 4294967295
        ((cooldownRowOf (Stmt.CHAR_INS_PET_SPELL_COOLDOWN 1 7 0 1)).map (fun row => [row])) = [] := by
  refine ⟨by decide, by decide⟩

/-- C9 (amended): for a cutoff of at least the grace, a clock second that is
not negative and a second to store that fits 32 bits, a cooldown that
`_SaveSpellCooldowns` persists with `rem = end − curMSTime` (32-bit) left is
written as one row, and `_LoadSpellCooldowns` at the same second, the spell
being known, restores from that row a cooldown `r` that is a positive multiple
of 1000 ms with `rem − 1000 < r ≤ rem`; and a row whose stored second is at most
the clock second of the load is discarded. -/
theorem C9_cooldown_round_trip (petNumber D : Nat) (curTime : Int) (curMSTime : Nat)
    (spell category end_ : Nat) (spellKnown : Nat → Bool)
    (hc : curMSTime < UINT32) (he : end_ < UINT32) (hD : 1000 ≤ D) (hD2 : D < UINT32)
    (h1 : ¬ end_ ≤ (curMSTime + 1000) % UINT32) (h2 : end_ ≤ (curMSTime + D) % UINT32)
    (h0 : 0 ≤ curTime)
    (hfit : curTime + ((((end_ + UINT32 - curMSTime) % UINT32 / 1000 : Nat)) : Int)
      < (UINT32 : Int))
    (hk : spellKnown spell = true) :
    (_SaveSpellCooldowns petNumber D curTime curMSTime
          [(spell, { category := category, end_ := end_ })] []
        = ([(spell, { category := category, end_ := end_ })],
           [Stmt.CHAR_DEL_PET_SPELL_COOLDOWNS petNumber,
            Stmt.CHAR_INS_PET_SPELL_COOLDOWN petNumber spell category
              (savedCooldown curTime curMSTime end_)]) ∧
      _LoadSpellCooldowns spellKnown curTime
          ((cooldownRowOf (Stmt.CHAR_INS_PET_SPELL_COOLDOWN petNumber spell category
              (savedCooldown curTime curMSTime end_))).map (fun row => [row]))
        = [(spell, category,
            loadedCooldown curTime ((savedCooldown curTime curMSTime end_ : Nat) : Int))] ∧
      0 < loadedCooldown curTime ((savedCooldown curTime curMSTime end_ : Nat) : Int) ∧
      1000 ∣ loadedCooldown curTime ((savedCooldown curTime curMSTime end_ : Nat) : Int) ∧
      (end_ + UINT32 - curMSTime) % UINT32
        < loadedCooldown curTime ((savedCooldown curTime curMSTime end_ : Nat) : Int) + 1000 ∧
      loadedCooldown curTime ((savedCooldown curTime curMSTime end_ : Nat) : Int)
        ≤ (end_ + UINT32 - curMSTime) % UINT32) ∧
    (∀ (known : Nat → Bool) (loadTime : Int) (row : CooldownRow) (rest : List CooldownRow),
      (row.time : Int) ≤ loadTime →
        _LoadSpellCooldowns known loadTime (some (row :: rest))
          = _LoadSpellCooldowns known loadTime (some rest)) := by
  have hrem := persisted_remaining_gt D curMSTime end_ hc he hD hD2 h1 h2
  obtain ⟨hs, hl⟩ := saved_then_loaded curTime curMSTime end_ h0 hfit
  refine ⟨⟨?_, ?_, ?_, ?_, ?_, ?_⟩, ?_⟩
  · simp [_SaveSpellCooldowns, saveCooldownLoop, h1, h2]
  · have hgt : ¬ ((savedCooldown curTime curMSTime end_ : Nat) : Int) ≤ curTime := by
      rw [hs]
      omega
    simp [_LoadSpellCooldowns, cooldownRowOf, loadCooldownRows, hk, hgt]
  · rw [hl]; omega
  · rw [hl]; exact Dvd.intro_left _ rfl
  · rw [hl]; omega
  · rw [hl]; omega
  · intro known loadTime row rest hle
    by_cases hkn : known row.spell_id = true
    · simp [_LoadSpellCooldowns, loadCooldownRows, hkn, hle]
    · simp [_LoadSpellCooldowns, loadCooldownRows, hkn]

/-- Witness of C9 (amended): at clock second 100, 5000 ms, a cooldown that
expires at 7500 ms is stored as second 102 and restored as 2000 ms. -/
theorem C9_cooldown_round_trip_witness :
    _LoadSpellCooldowns (fun _ => true) 100
        ((cooldownRowOf (Stmt.CHAR_INS_PET_SPELL_COOLDOWN 1 8 3
            (savedCooldown 100 5000 7500))).map (fun row => [row]))
      = [(8, 3, 2000)] := by
  have h := (C9_cooldown_round_trip 1 cutoffSample 100 5000 8 3 7500 (fun _ => true)
    (by decide) (by decide) (by decide) (by decide) (by decide) (by decide) (by decide)
    (by decide) rfl).1.2.1
  rw [h]
  decide

end Pet

namespace Pet

/-! ### Aura flush -/

/-- One round of the aura loop: the aura gets an insert exactly when it is
neither a pet aura nor hit by a listed exclusion. -/
theorem saveAuraLoop_cons (petNumber petGUID : Nat) (IsPetAura : Aura → Bool) (flag : Nat)
    (aura : Aura) (rest : List Aura) (tx : Transaction) :
    saveAuraLoop petNumber petGUID IsPetAura flag (aura :: rest) tx
      = if IsPetAura aura = false ∧ ¬ listedExclusion flag aura then
          saveAuraLoop petNumber petGUID IsPetAura flag rest
            (tx ++ [Stmt.CHAR_INS_PET_AURA (auraRow petNumber petGUID aura)])
        else saveAuraLoop petNumber petGUID IsPetAura flag rest tx := by
  rw [saveAuraLoop]
  by_cases hk : IsPetAura aura = false ∧ ¬ listedExclusion flag aura
  · rw [if_pos hk]
    obtain ⟨hp, hl⟩ := hk
    unfold listedExclusion at hl
    simp only [not_or] at hl
    obtain ⟨h1, h2, h3, h4, h5, h6, h7⟩ := hl
    simp only [IN_MILLISECONDS]
    split_ifs <;> first | rfl | (exfalso; omega) | (exfalso; simp_all)
  · rw [if_neg hk]
    simp only [IN_MILLISECONDS]
    split_ifs <;> first | rfl | (exfalso; apply hk; simp_all [listedExclusion])

/-- The aura loop as a fold: one insert, in iteration order, for every aura
that is neither a pet aura nor hit by a listed exclusion. -/
theorem saveAuraLoop_eq (petNumber petGUID : Nat) (IsPetAura : Aura → Bool) (flag : Nat)
    (auras : List Aura) (tx : Transaction) :
    saveAuraLoop petNumber petGUID IsPetAura flag auras tx
      = tx ++ (auras.filter
          (fun aura => decide (IsPetAura aura = false ∧ ¬ listedExclusion flag aura))).map
          (fun aura => Stmt.CHAR_INS_PET_AURA (auraRow petNumber petGUID aura)) := by
  induction auras generalizing tx with
  | nil => simp [saveAuraLoop]
  | cons aura rest ih =>
    rw [saveAuraLoop_cons]
    by_cases hk : IsPetAura aura = false ∧ ¬ listedExclusion flag aura
    · rw [if_pos hk, ih, List.filter_cons_of_pos (by simpa using hk)]
      simp
    · rw [if_neg hk, ih, List.filter_cons_of_neg (by simpa using hk)]

end Pet

namespace Pet

theorem saveAuraLoop_append (petNumber petGUID : Nat) (IsPetAura : Aura → Bool) (flag : Nat)
    (l1 l2 : List Aura) (tx : Transaction) :
    saveAuraLoop petNumber petGUID IsPetAura flag (l1 ++ l2) tx
      = saveAuraLoop petNumber petGUID IsPetAura flag l1 tx
          ++ saveAuraLoop petNumber petGUID IsPetAura flag l2 [] := by
  simp only [saveAuraLoop_eq, List.filter_append, List.map_append, List.nil_append,
    List.append_assoc]

/-- C10 (counterexample): a persistable positive aura with exactly 60,000 ms
left to which none of the listed exclusions applies is not written when it is
a pet aura: only the delete of the old rows is appended. -/
theorem C10_counterexample :
    ¬ listedExclusion changeMapFlagSample auraAtFloor ∧
      _SaveAuras 1 50 (fun _ => true) changeMapFlagSample [auraAtFloor] []
        = [Stmt.CHAR_DEL_PET_AURAS 1] := by
  refine ⟨by decide, by decide⟩

/-- C10 (amended): `_SaveAuras` writes no row for an owned aura that is a pet
aura (`IsPetAura`) or to which a listed exclusion applies (not persistable,
under 60,000 ms left, permanent and not positive, non-cancellable, hidden,
transform effect, interrupted by map change): the flush is the same as without
that aura. An aura that is not a pet aura and to which no listed exclusion
applies gets one insert, in iteration order. The floor is inclusive: such an
aura is written with exactly 60,000 ms left, and no aura is written with
59,999 ms left. -/
theorem C10_aura_exclusions (petNumber petGUID : Nat) (IsPetAura : Aura → Bool) (flag : Nat)
    (aura : Aura) (pre post : List Aura) (tx : Transaction) :
    (IsPetAura aura = true ∨ listedExclusion flag aura →
      _SaveAuras petNumber petGUID IsPetAura flag (pre ++ aura :: post) tx
        = _SaveAuras petNumber petGUID IsPetAura flag (pre ++ post) tx) ∧
    (IsPetAura aura = false → ¬ listedExclusion flag aura →
      _SaveAuras petNumber petGUID IsPetAura flag (pre ++ aura :: post) tx
        = _SaveAuras petNumber petGUID IsPetAura flag pre tx
            ++ Stmt.CHAR_INS_PET_AURA (auraRow petNumber petGUID aura)
              :: saveAuraLoop petNumber petGUID IsPetAura flag post []) ∧
    (IsPetAura aura = false → aura.Duration = 60000 → aura.CanBeSaved = true →
      ¬ (aura.IsPermanent = true ∧ aura.spellInfo.IsPositive = false) →
      aura.spellInfo.HasAttribute_SPELL_ATTR0_NO_AURA_CANCEL = false →
      aura.spellInfo.HasAttribute_SPELL_ATTR1_NO_AURA_ICON = false →
      aura.spellInfo.HasAura_SPELL_AURA_TRANSFORM = false →
      aura.spellInfo.AuraInterruptFlags &&& flag = 0 →
      _SaveAuras petNumber petGUID IsPetAura flag [aura] tx
        = tx ++ [Stmt.CHAR_DEL_PET_AURAS petNumber,
            Stmt.CHAR_INS_PET_AURA (auraRow petNumber petGUID aura)]) ∧
    (aura.Duration = 59999 →
      _SaveAuras petNumber petGUID IsPetAura flag [aura] tx
        = tx ++ [Stmt.CHAR_DEL_PET_AURAS petNumber]) := by
  have hskip : ∀ a : Aura, ¬ (IsPetAura a = false ∧ ¬ listedExclusion flag a) →
      ∀ l1 l2 : List Aura, ∀ t : Transaction,
      _SaveAuras petNumber petGUID IsPetAura flag (l1 ++ a :: l2) t
        = _SaveAuras petNumber petGUID IsPetAura flag (l1 ++ l2) t := by
    intro a ha l1 l2 t
    unfold _SaveAuras
    rw [saveAuraLoop_append, saveAuraLoop_append, saveAuraLoop_cons, if_neg ha]
  have hkeep : ∀ a : Aura, (IsPetAura a = false ∧ ¬ listedExclusion flag a) →
      ∀ l1 l2 : List Aura, ∀ t : Transaction,
      _SaveAuras petNumber petGUID IsPetAura flag (l1 ++ a :: l2) t
        = _SaveAuras petNumber petGUID IsPetAura flag l1 t
            ++ Stmt.CHAR_INS_PET_AURA (auraRow petNumber petGUID a)
              :: saveAuraLoop petNumber petGUID IsPetAura flag l2 [] := by
    intro a ha l1 l2 t
    unfold _SaveAuras
    rw [saveAuraLoop_append, saveAuraLoop_cons, if_pos ha, saveAuraLoop_eq _ _ _ _ l2]
    simp [saveAuraLoop_eq]
  refine ⟨?_, ?_, ?_, ?_⟩
  · intro h
    apply hskip
    rintro ⟨hp, hl⟩
    rcases h with h | h
    · rw [hp] at h; exact Bool.noConfusion h
    · exact hl h
  · intro hp hl
    exact hkeep aura ⟨hp, hl⟩ pre post tx
  · intro hp hd h1 h3 h4 h5 h6 h7
    have hl : ¬ listedExclusion flag aura := by
      unfold listedExclusion
      rw [hd]
      simp [h1, h3, h4, h5, h6, h7]
    have := hkeep aura ⟨hp, hl⟩ [] [] tx
    simpa [_SaveAuras, saveAuraLoop] using this
  · intro hd
    have hl : listedExclusion flag aura := by
      unfold listedExclusion
      rw [hd]
      right; left
      decide
    have := hskip aura (fun h => h.2 hl) [] [] tx
    simpa [_SaveAuras, saveAuraLoop] using this

end Pet

namespace Pet

/-- Witness of C10 (amended): the aura at the floor is written, with its row,
when it is not a pet aura; when every aura counts as a pet aura the flush of a
table that holds it is the flush of the table without it. -/
theorem C10_aura_exclusions_witness :
    _SaveAuras 1 50 (fun _ => false) changeMapFlagSample [auraAtFloor] []
        = [Stmt.CHAR_DEL_PET_AURAS 1,
           Stmt.CHAR_INS_PET_AURA
            { petNumber := 1, casterGUID := 0, spell := 77, effMask := 1, recalculateMask := 1,
              stackAmount := 1, damage0 := 9, damage1 := 0, damage2 := 0, baseDamage0 := 4,
              baseDamage1 := 0, baseDamage2 := 0, maxDuration := 120000, duration := 60000,
              charges := 0 }] ∧
      _SaveAuras 1 50 (fun _ => true) changeMapFlagSample ([] ++ auraAtFloor :: []) []
        = _SaveAuras 1 50 (fun _ => true) changeMapFlagSample ([] ++ []) [] := by
  refine ⟨?_, ?_⟩
  · have h := (C10_aura_exclusions 1 50 (fun _ => false) changeMapFlagSample auraAtFloor [] []
      []).2.2.1 rfl rfl rfl (by decide) rfl rfl rfl (by decide)
    rw [h]
    decide
  · exact (C10_aura_exclusions 1 50 (fun _ => true) changeMapFlagSample auraAtFloor [] []
      []).1 (Or.inl rfl)

end Pet

namespace Pet

/-! ### Record round trip -/

theorem InitStatsForLevel_fields (w : World) (pet : Pet) (petlevel : Nat) :
    (InitStatsForLevel w pet petlevel).1.Level = petlevel ∧
      (InitStatsForLevel w pet petlevel).1.UNIT_FIELD_PETEXPERIENCE = pet.UNIT_FIELD_PETEXPERIENCE ∧
      (InitStatsForLevel w pet petlevel).1.Happiness = pet.Happiness ∧
      (InitStatsForLevel w pet petlevel).1.m_petType = pet.m_petType := by
  unfold InitStatsForLevel
  simp only
  split_ifs <;> simp

theorem GivePetLevel_fields (w : World) (pet : Pet) (level : Nat)
    (h0 : level ≠ 0) (h1 : level ≠ pet.Level) :
    (GivePetLevel w pet level).Level = level ∧
      (GivePetLevel w pet level).UNIT_FIELD_PETEXPERIENCE
        = (if pet.m_petType = PetType.HUNTER_PET then 0 else pet.UNIT_FIELD_PETEXPERIENCE) ∧
      (GivePetLevel w pet level).Happiness = pet.Happiness ∧
      (GivePetLevel w pet level).m_petType = pet.m_petType := by
  unfold GivePetLevel
  rw [if_neg (by simp [h0, h1])]
  simp only
  by_cases ht : pet.m_petType = PetType.HUNTER_PET
  · rw [if_pos ht, if_pos ht]
    have h := InitStatsForLevel_fields w
      { pet with UNIT_FIELD_PETEXPERIENCE := 0, UNIT_FIELD_PETNEXTLEVELEXP := w.PetNextLevelExp level }
      level
    simp only at h
    exact h
  · rw [if_neg ht, if_neg ht]
    exact InitStatsForLevel_fields w pet level

theorem SynchronizeLevelWithOwner_fields (w : World) (ownerLevel : Nat) (pet : Pet)
    (hown : w.spells.hasOwner = true ∧ w.spells.ownerIsPlayer = true) (hlvl : 0 < ownerLevel) :
    (SynchronizeLevelWithOwner w ownerLevel pet).Level
        = syncedLevel pet.m_petType ownerLevel pet.Level ∧
      (SynchronizeLevelWithOwner w ownerLevel pet).UNIT_FIELD_PETEXPERIENCE
        = (if pet.m_petType = PetType.HUNTER_PET ∧
              syncedLevel pet.m_petType ownerLevel pet.Level ≠ pet.Level then 0
           else pet.UNIT_FIELD_PETEXPERIENCE) ∧
      (SynchronizeLevelWithOwner w ownerLevel pet).Happiness = pet.Happiness ∧
      (SynchronizeLevelWithOwner w ownerLevel pet).m_petType = pet.m_petType := by
  unfold SynchronizeLevelWithOwner
  simp only [hown.1, hown.2, Bool.and_self, Bool.not_true, Bool.false_eq_true, if_false]
  cases ht : pet.m_petType with
  | SUMMON_PET =>
    simp only [syncedLevel]
    by_cases he : ownerLevel = pet.Level
    · have : GivePetLevel w pet ownerLevel = pet := by
        unfold GivePetLevel
        rw [if_pos (Or.inr he)]
      rw [this]
      simp [he, ht]
    · have h := GivePetLevel_fields w pet ownerLevel (by omega) he
      rw [ht] at h
      simp only [reduceCtorEq, if_false] at h
      simp [h.1, h.2.1, h.2.2.1, h.2.2.2]
  | HUNTER_PET =>
    simp only [syncedLevel]
    by_cases h1 : pet.Level > ownerLevel
    · have h := GivePetLevel_fields w pet ownerLevel (by omega) (by omega)
      rw [ht] at h
      simp only [if_true] at h
      simp only [h1, if_true, h.1, h.2.1, h.2.2.1, h.2.2.2, true_and]
      have : ownerLevel ≠ pet.Level := by omega
      simp [this]
    · by_cases h2 : pet.Level + 5 < ownerLevel
      · have h := GivePetLevel_fields w pet (ownerLevel - 5) (by omega) (by omega)
        rw [ht] at h
        simp only [if_true] at h
        simp only [h1, h2, if_true, if_false, h.1, h.2.1, h.2.2.1, h.2.2.2, true_and]
        have : ownerLevel - 5 ≠ pet.Level := by omega
        simp [this]
      · simp [h1, h2, ht]
  | MAX_PET_TYPE => simp [syncedLevel, ht]

end Pet

namespace Pet

theorem GetLoadPetInfo_current (stable : PetStable) (petEntry : Nat) (record : PetInfo)
    (hcur : stable.CurrentPet = some record) :
    GetLoadPetInfo stable petEntry 0 true = (some PetInfoPtr.current, PET_SAVE_AS_CURRENT) := by
  simp [GetLoadPetInfo, hcur]

theorem makeCurrent_current (w : World) (stable : PetStable) (record : PetInfo) (petnumber : Nat) :
    makeCurrent w stable record PET_SAVE_AS_CURRENT petnumber = some stable := by
  unfold makeCurrent
  rw [if_neg (by decide), if_neg (fun h => absurd h.1 (by decide))]

theorem sync_after_init (w : World) (ownerLevel : Nat) (pet3 : Pet) (petlevel e : Nat)
    (hown : w.spells.hasOwner = true ∧ w.spells.ownerIsPlayer = true) (hlvl : 0 < ownerLevel) :
    (SynchronizeLevelWithOwner w ownerLevel
        { (InitStatsForLevel w pet3 petlevel).1 with UNIT_FIELD_PETEXPERIENCE := e }).Level
        = syncedLevel pet3.m_petType ownerLevel petlevel ∧
      (SynchronizeLevelWithOwner w ownerLevel
        { (InitStatsForLevel w pet3 petlevel).1 with
          UNIT_FIELD_PETEXPERIENCE := e }).UNIT_FIELD_PETEXPERIENCE
        = (if pet3.m_petType = PetType.HUNTER_PET ∧
              syncedLevel pet3.m_petType ownerLevel petlevel ≠ petlevel then 0 else e) ∧
      (SynchronizeLevelWithOwner w ownerLevel
        { (InitStatsForLevel w pet3 petlevel).1 with UNIT_FIELD_PETEXPERIENCE := e }).Happiness
        = pet3.Happiness ∧
      (SynchronizeLevelWithOwner w ownerLevel
        { (InitStatsForLevel w pet3 petlevel).1 with UNIT_FIELD_PETEXPERIENCE := e }).m_petType
        = pet3.m_petType := by
  have hi := InitStatsForLevel_fields w pet3 petlevel
  generalize hp5 : ({ (InitStatsForLevel w pet3 petlevel).1 with
    UNIT_FIELD_PETEXPERIENCE := e } : Pet) = p5
  have h5l : p5.Level = petlevel := by rw [← hp5]; exact hi.1
  have h5t : p5.m_petType = pet3.m_petType := by rw [← hp5]; exact hi.2.2.2
  have h5h : p5.Happiness = pet3.Happiness := by rw [← hp5]; exact hi.2.2.1
  have h5e : p5.UNIT_FIELD_PETEXPERIENCE = e := by rw [← hp5]
  have hs := SynchronizeLevelWithOwner_fields w ownerLevel p5 hown hlvl
  rw [h5l, h5t, h5h, h5e] at hs
  exact hs

theorem syncedLevel_recordLevel (t : PetType) (ownerLevel savedLevel : Nat) :
    syncedLevel t ownerLevel (if t = PetType.SUMMON_PET then ownerLevel else savedLevel)
      = syncedLevel t ownerLevel savedLevel := by
  cases t <;> simp [syncedLevel]

theorem restoreRecord_fields (w : World) (owner : Player) (pet1 : Pet) (record : PetInfo)
    (hown : w.spells.hasOwner = true ∧ w.spells.ownerIsPlayer = true) (hlvl : 0 < owner.Level) :
    (restoreRecord w owner pet1 record).Level
        = syncedLevel pet1.m_petType owner.Level record.Level ∧
      (restoreRecord w owner pet1 record).UNIT_FIELD_PETEXPERIENCE
        = (if pet1.m_petType = PetType.HUNTER_PET ∧
              syncedLevel pet1.m_petType owner.Level record.Level ≠ record.Level then 0
           else record.Experience) ∧
      (pet1.m_petType = PetType.HUNTER_PET →
        (restoreRecord w owner pet1 record).Happiness = record.Happiness) ∧
      (restoreRecord w owner pet1 record).m_petType = pet1.m_petType := by
  have key := sync_after_init w owner.Level
    (if pet1.m_petType = PetType.HUNTER_PET then
      { pet1 with
        PetNumber := record.PetNumber
        NativeDisplayId := record.DisplayId
        Name := record.Name
        UNIT_CAN_BE_RENAMED := pet1.UNIT_CAN_BE_RENAMED || !record.WasRenamed
        MaxHappiness := w.GetCreatePowers_HAPPINESS
        Happiness := record.Happiness }
     else
      { pet1 with
        PetNumber := record.PetNumber
        NativeDisplayId := record.DisplayId
        Name := record.Name })
    (if pet1.m_petType = PetType.SUMMON_PET then owner.Level else record.Level)
    record.Experience hown hlvl
  have ht : (if pet1.m_petType = PetType.HUNTER_PET then
      ({ pet1 with
        PetNumber := record.PetNumber
        NativeDisplayId := record.DisplayId
        Name := record.Name
        UNIT_CAN_BE_RENAMED := pet1.UNIT_CAN_BE_RENAMED || !record.WasRenamed
        MaxHappiness := w.GetCreatePowers_HAPPINESS
        Happiness := record.Happiness } : Pet)
     else
      { pet1 with
        PetNumber := record.PetNumber
        NativeDisplayId := record.DisplayId
        Name := record.Name }).m_petType = pet1.m_petType := by
    split_ifs <;> rfl
  rw [ht, syncedLevel_recordLevel] at key
  refine ⟨key.1, ?_, ?_, key.2.2.2⟩
  · refine key.2.1.trans ?_
    by_cases hh : pet1.m_petType = PetType.HUNTER_PET
    · have hne : ¬ pet1.m_petType = PetType.SUMMON_PET := by rw [hh]; decide
      simp only [hne, if_false]
    · simp only [hh, false_and, if_false]
  · intro hh
    refine key.2.2.1.trans ?_
    rw [if_pos hh]

end Pet

namespace Pet

theorem activateLoaded_current (w : World) (owner : Player) (pet6 : Pet) (stable : PetStable)
    (record : PetInfo) (petnumber : Nat) (isTemporarySummon current : Bool) (healthPct : Nat)
    (hcur : stable.CurrentPet = some record) :
    activateLoaded w owner pet6 stable record PET_SAVE_AS_CURRENT petnumber isTemporarySummon
        current healthPct
      = LoadResult.returnedTrue
          (if !isTemporarySummon then
            { pet6 with ReactState := record.ReactState,
                        ActionBar := w.LoadPetActionBar record.ActionBar }
           else { pet6 with ReactState := record.ReactState })
          { owner with PetStable := some stable, hasPet := true }
          (some { isTemporarySummon := isTemporarySummon, current := current,
                  lastSaveTime := record.LastSaveTime, savedhealth := record.Health,
                  savedmana := record.Mana, healthPct := healthPct }) := by
  unfold activateLoaded
  simp only [makeCurrent_current, hcur]

theorem createAndRestore_current (w : World) (owner : Player) (pet0 : Pet) (stable : PetStable)
    (record : PetInfo) (petnumber : Nat) (isTemporarySummon current : Bool) (healthPct : Nat)
    (hcur : stable.CurrentPet = some record)
    (hown : w.spells.hasOwner = true ∧ w.spells.ownerIsPlayer = true) (hlvl : 0 < owner.Level)
    (pet2 : Pet) (owner2 : Player) (cb : LoadCallback)
    (hload : createAndRestore w owner pet0 stable record PET_SAVE_AS_CURRENT petnumber
        isTemporarySummon current healthPct
      = LoadResult.returnedTrue pet2 owner2 (some cb)) :
    pet2.Level = syncedLevel record.Type_ owner.Level record.Level ∧
      pet2.UNIT_FIELD_PETEXPERIENCE
        = (if record.Type_ = PetType.HUNTER_PET ∧
              syncedLevel record.Type_ owner.Level record.Level ≠ record.Level then 0
           else record.Experience) ∧
      (record.Type_ = PetType.HUNTER_PET → pet2.Happiness = record.Happiness) ∧
      pet2.m_petType = record.Type_ ∧
      cb = { isTemporarySummon := isTemporarySummon, current := current,
             lastSaveTime := record.LastSaveTime, savedhealth := record.Health,
             savedmana := record.Mana, healthPct := healthPct } ∧
      owner2.PetStable = some stable ∧ owner2.hasPet = true := by
  unfold createAndRestore at hload
  simp only at hload
  split_ifs at hload with h1 h2 h3 h4
  · simp at hload
  · have hf := restoreRecord_fields w owner
      { (Create w pet0 w.GenerateLowGuid record.CreatureId).1 with
        m_petType := record.Type_, UNIT_CREATED_BY_SPELL := record.CreatedBySpellId }
      record hown hlvl
    simp only at hf
    generalize restoreRecord w owner
      { (Create w pet0 w.GenerateLowGuid record.CreatureId).1 with
        m_petType := record.Type_, UNIT_CREATED_BY_SPELL := record.CreatedBySpellId }
      record = p6 at hload hf
    rw [activateLoaded_current _ _ _ _ _ _ _ _ _ hcur] at hload
    simp only [LoadResult.returnedTrue.injEq, Option.some.injEq] at hload
    obtain ⟨hp, ho, hc⟩ := hload
    subst hp ho hc
    cases isTemporarySummon
    · exact ⟨hf.1, hf.2.1, hf.2.2.1, hf.2.2.2, rfl, rfl, rfl⟩
    · exact ⟨hf.1, hf.2.1, hf.2.2.1, hf.2.2.2, rfl, rfl, rfl⟩

end Pet

namespace Pet

/-- A load of the current-slot record with `current = true` that goes through:
what it leaves in the pet object and what the completion callback captures. -/
theorem LoadPetFromDB_current_fields (w : World) (owner : Player) (fresh : Pet) (petEntry : Nat)
    (stable : PetStable) (record : PetInfo)
    (hstable : owner.PetStable = some stable) (hcur : stable.CurrentPet = some record)
    (hown : w.spells.hasOwner = true ∧ w.spells.ownerIsPlayer = true) (hlvl : 0 < owner.Level)
    (pet2 : Pet) (owner2 : Player) (cb : LoadCallback)
    (hload : LoadPetFromDB w owner fresh petEntry 0 true
      = LoadResult.returnedTrue pet2 owner2 (some cb)) :
    pet2.Level = syncedLevel record.Type_ owner.Level record.Level ∧
      pet2.UNIT_FIELD_PETEXPERIENCE
        = (if record.Type_ = PetType.HUNTER_PET ∧
              syncedLevel record.Type_ owner.Level record.Level ≠ record.Level then 0
           else record.Experience) ∧
      (record.Type_ = PetType.HUNTER_PET → pet2.Happiness = record.Happiness) ∧
      pet2.m_petType = record.Type_ ∧
      cb = { isTemporarySummon := false, current := true, lastSaveTime := record.LastSaveTime,
             savedhealth := record.Health, savedmana := record.Mana, healthPct := 0 } ∧
      owner2.PetStable = some stable ∧ owner2.hasPet = true := by
  unfold LoadPetFromDB at hload
  simp only [hstable, GetLoadPetInfo_current stable petEntry record hcur, Option.some_bind,
    PetStable.deref, hcur] at hload
  split_ifs at hload with h1 h2 h3 h4 h5 h6
  have h := createAndRestore_current w owner _ stable record 0 _ true 0 hcur hown hlvl
    pet2 owner2 cb hload
  obtain ⟨a1, a2, a3, a4, a5, a6, a7⟩ := h
  refine ⟨a1, a2, a3, a4, ?_, a6, a7⟩
  rw [a5]
  simp only [Bool.true_and] at h4
  simp only [LoadCallback.mk.injEq, and_true, true_and]
  simpa using h4

end Pet

namespace Pet

/-! ### Reading the ability rows back -/

theorem findSpell_eq_none_iff (spells : PetSpellMap) (spell : Nat) :
    findSpell spells spell = none ↔ spell ∉ spells.map Prod.fst := by
  unfold findSpell
  rw [Option.map_eq_none', List.find?_eq_none]
  simp only [beq_iff_eq, List.mem_map, not_exists, not_and, Prod.forall]

theorem findSpell_append_new (spells : PetSpellMap) (spell : Nat) (entry : PetSpell)
    (h : findSpell spells spell = none) :
    findSpell (spells ++ [(spell, entry)]) spell = some entry := by
  unfold findSpell at h ⊢
  rw [Option.map_eq_none'] at h
  rw [List.find?_append, h]
  simp

theorem HasSpell_of_not_mem (spells : PetSpellMap) (spell : Nat)
    (h : spell ∉ spells.map Prod.fst) : HasSpell spells spell = false := by
  unfold HasSpell
  rw [(findSpell_eq_none_iff spells spell).2 h]

theorem scanRanks_noOtherRank (w : SpellWorld) (spellInfo : SpellInfo) (spells : PetSpellMap)
    (h : ∀ e ∈ spells, ∀ old, w.GetSpellInfo e.1 = some old →
      w.IsDifferentRankOf spellInfo old = false) :
    scanRanks w spellInfo spells = RankScan.noOtherRank := by
  induction spells with
  | nil => rfl
  | cons e rest ih =>
    obtain ⟨spellID, petSpell⟩ := e
    have ih2 := ih (fun e he => h e (List.mem_cons_of_mem _ he))
    unfold scanRanks
    by_cases hr : petSpell.state = PetSpellState.PETSPELL_REMOVED
    · rw [if_pos hr]; exact ih2
    · rw [if_neg hr]
      cases hinfo : w.GetSpellInfo spellID with
      | none => exact ih2
      | some old =>
        have := h (spellID, petSpell) (List.mem_cons_self _ _) old hinfo
        simp only [this, Bool.false_eq_true, if_false]
        exact ih2

theorem unlearnOtherTalentRanks_noop (w : SpellWorld) (level spellId : Nat) (ranks : List Nat)
    (b : AbilityBook)
    (h : ∀ r ∈ ranks, r ≠ 0 → r ≠ spellId → HasSpell b.m_spells r = false) :
    unlearnOtherTalentRanks w level spellId ranks b = b := by
  induction ranks with
  | nil => rfl
  | cons r rest ih =>
    have ih2 := ih (fun r hr => h r (List.mem_cons_of_mem _ hr))
    unfold unlearnOtherTalentRanks
    by_cases h1 : r = 0 ∨ r = spellId
    · rw [if_pos h1]; exact ih2
    · rw [if_neg h1]
      have h2 := h r (List.mem_cons_self _ _) (fun h0 => h1 (Or.inl h0)) (fun h0 => h1 (Or.inr h0))
      simp only [h2, Bool.not_false, if_true]
      exact ih2

theorem ToggleAutocast_fresh (b : AbilityBook) (spellInfo : SpellInfo) (entry : PetSpell)
    (hfind : findSpell b.m_spells spellInfo.Id = some entry)
    (hauto : spellInfo.Id ∉ b.m_autospells) :
    (ToggleAutocast b spellInfo (entry.active == ActiveStates.ACT_ENABLED)).m_spells = b.m_spells ∧
      (ToggleAutocast b spellInfo (entry.active == ActiveStates.ACT_ENABLED)).m_usedTalentCount
        = b.m_usedTalentCount ∧
      ∀ x ∈ (ToggleAutocast b spellInfo (entry.active == ActiveStates.ACT_ENABLED)).m_autospells,
        x ∈ b.m_autospells ∨ x = spellInfo.Id := by
  unfold ToggleAutocast
  by_cases ha : spellInfo.IsAutocastable = true
  · simp only [ha, Bool.not_true, Bool.false_eq_true, if_false, hfind]
    by_cases he : entry.active = ActiveStates.ACT_ENABLED
    · simp [he, hauto]
    · simp only [he, beq_iff_eq, Bool.false_eq_true, if_false, hauto, true_and]
      exact fun x hx => Or.inl hx
  · simp only [ha, Bool.not_false, if_true, true_and]
    exact fun x hx => Or.inl hx

end Pet

namespace Pet

theorem addSpellFinish_fresh (w : SpellWorld) (level : Nat) (b : AbilityBook)
    (spellInfo : SpellInfo) (spellId : Nat) (newspell : PetSpell)
    (hid : spellInfo.Id = spellId)
    (hnew : spellId ∉ b.m_spells.map Prod.fst) (hauto : spellId ∉ b.m_autospells) :
    (addSpellFinish w level b spellInfo spellId newspell).1.m_spells
        = b.m_spells ++ [(spellId, newspell)] ∧
      ∀ x ∈ (addSpellFinish w level b spellInfo spellId newspell).1.m_autospells,
        x ∈ b.m_autospells ∨ x = spellId := by
  have hnone := (findSpell_eq_none_iff b.m_spells spellId).2 hnew
  have hassign : assignSpell b.m_spells spellId newspell = b.m_spells ++ [(spellId, newspell)] := by
    unfold assignSpell
    rw [hnone]
    rfl
  have hfind : findSpell ({ b with m_spells := assignSpell b.m_spells spellId newspell } :
      AbilityBook).m_spells spellInfo.Id = some newspell := by
    simp only [hassign, hid]
    exact findSpell_append_new b.m_spells spellId newspell hnone
  have ht := ToggleAutocast_fresh { b with m_spells := assignSpell b.m_spells spellId newspell }
    spellInfo newspell hfind (by rw [hid]; exact hauto)
  simp only [hid] at ht
  unfold addSpellFinish
  simp only
  split_ifs
  · exact ⟨ht.1.trans hassign, ht.2.2⟩
  · exact ⟨ht.1.trans hassign, ht.2.2⟩

theorem addSpell_load_step (w : SpellWorld) (level : Nat) (b : AbilityBook) (spellId : Nat)
    (active : ActiveStates) (spellInfo : SpellInfo)
    (hinfo : w.GetSpellInfo spellId = some spellInfo) (hid : spellInfo.Id = spellId)
    (hnew : spellId ∉ b.m_spells.map Prod.fst) (hauto : spellId ∉ b.m_autospells)
    (hact : active ≠ ActiveStates.ACT_DECIDE)
    (hrank : ∀ e ∈ b.m_spells, ∀ old, w.GetSpellInfo e.1 = some old →
      w.IsDifferentRankOf spellInfo old = false)
    (htal : ∀ t ti, w.GetTalentSpellPos spellId = some t → w.sTalentStore t = some ti →
      ∀ r ∈ ti.RankID, r ≠ 0 → r ≠ spellId → HasSpell b.m_spells r = false) :
    (addSpell w level b spellId active PetSpellState.PETSPELL_UNCHANGED).1.m_spells
        = b.m_spells ++ [loadedEntry (spellId, active)] ∧
      ∀ x ∈ (addSpell w level b spellId active PetSpellState.PETSPELL_UNCHANGED).1.m_autospells,
        x ∈ b.m_autospells ∨ x = spellId := by
  have hnone := (findSpell_eq_none_iff b.m_spells spellId).2 hnew
  have hfin := addSpellFinish_fresh w level b spellInfo spellId
    { state := PetSpellState.PETSPELL_UNCHANGED, type := PetSpellType.PETSPELL_NORMAL,
      active := active } hid hnew hauto
  have hnewspell : addSpellNew w level b spellInfo spellId active
      PetSpellState.PETSPELL_UNCHANGED PetSpellType.PETSPELL_NORMAL
      = addSpellFinish w level b spellInfo spellId
          { state := PetSpellState.PETSPELL_UNCHANGED, type := PetSpellType.PETSPELL_NORMAL,
            active := active } := by
    unfold addSpellNew
    simp only [hact, if_false]
    cases hp : w.GetTalentSpellPos spellId with
    | some t =>
      simp only
      cases hs : w.sTalentStore t with
      | some ti =>
        simp only
        rw [unlearnOtherTalentRanks_noop w level spellId ti.RankID b (htal t ti hp hs)]
      | none => rfl
    | none =>
      simp only
      by_cases hr : spellInfo.IsRanked = true
      · rw [if_pos hr, scanRanks_noOtherRank w spellInfo b.m_spells hrank]
      · rw [if_neg hr]
  have hadd : addSpell w level b spellId active PetSpellState.PETSPELL_UNCHANGED
      = addSpellNew w level b spellInfo spellId active
          PetSpellState.PETSPELL_UNCHANGED PetSpellType.PETSPELL_NORMAL := by
    unfold addSpell
    simp only [hinfo, hnone]
  rw [hadd, hnewspell]
  exact hfin

end Pet

namespace Pet

theorem loadRows_fold (w : SpellWorld) (level : Nat) :
    ∀ (rows : List (Nat × ActiveStates)) (b : AbilityBook),
      (b.m_spells.map Prod.fst ++ rows.map Prod.fst).Nodup →
      (∀ x ∈ b.m_autospells, x ∈ b.m_spells.map Prod.fst) →
      (∀ r ∈ rows, ∃ info, w.GetSpellInfo r.1 = some info ∧ info.Id = r.1) →
      (∀ r ∈ rows, r.2 ≠ ActiveStates.ACT_DECIDE) →
      (∀ r ∈ rows, ∀ info, w.GetSpellInfo r.1 = some info →
        ∀ id ∈ b.m_spells.map Prod.fst ++ rows.map Prod.fst, id ≠ r.1 →
          ∀ old, w.GetSpellInfo id = some old → w.IsDifferentRankOf info old = false) →
      (∀ r ∈ rows, ∀ t ti, w.GetTalentSpellPos r.1 = some t → w.sTalentStore t = some ti →
        ∀ k ∈ ti.RankID, k ≠ 0 → k ≠ r.1 →
          k ∉ b.m_spells.map Prod.fst ++ rows.map Prod.fst) →
      (rows.foldl (fun acc row =>
          (addSpell w level acc row.1 row.2 PetSpellState.PETSPELL_UNCHANGED).1) b).m_spells
        = b.m_spells ++ rows.map loadedEntry := by
  intro rows
  induction rows with
  | nil => intro b _ _ _ _ _ _; simp
  | cons r rest ih =>
    intro b hnodup hauto hinfo hact hrank htal
    obtain ⟨info, hi, hid⟩ := hinfo r (List.mem_cons_self _ _)
    have hnew : r.1 ∉ b.m_spells.map Prod.fst := by
      intro hmem
      rw [List.nodup_append] at hnodup
      exact hnodup.2.2 hmem (by simp)
    have hautonew : r.1 ∉ b.m_autospells := fun hmem => hnew (hauto _ hmem)
    have hstep := addSpell_load_step w level b r.1 r.2 info hi hid hnew hautonew
      (hact r (List.mem_cons_self _ _))
      (by
        intro e he old hold
        have hmem : e.1 ∈ b.m_spells.map Prod.fst := List.mem_map_of_mem Prod.fst he
        exact hrank r (List.mem_cons_self _ _) info hi e.1
          (List.mem_append_left _ hmem) (fun heq => hnew (heq ▸ hmem)) old hold)
      (by
        intro t ti ht hti k hk hk0 hkr
        exact HasSpell_of_not_mem _ _ (fun hmem =>
          htal r (List.mem_cons_self _ _) t ti ht hti k hk hk0 hkr
            (List.mem_append_left _ hmem)))
    have hids : (addSpell w level b r.1 r.2 PetSpellState.PETSPELL_UNCHANGED).1.m_spells.map
        Prod.fst ++ rest.map Prod.fst = b.m_spells.map Prod.fst ++ (r :: rest).map Prod.fst := by
      rw [hstep.1]
      simp [loadedEntry]
    have hrec := ih (addSpell w level b r.1 r.2 PetSpellState.PETSPELL_UNCHANGED).1
      (by rw [hids]; exact hnodup)
      (by
        intro x hx
        rw [hstep.1]
        rcases hstep.2 x hx with h | h
        · simp only [List.map_append, List.mem_append]
          exact Or.inl (hauto x h)
        · simp [loadedEntry, h])
      (fun r2 hr2 => hinfo r2 (List.mem_cons_of_mem _ hr2))
      (fun r2 hr2 => hact r2 (List.mem_cons_of_mem _ hr2))
      (by
        intro r2 hr2 info2 hi2 id hidmem
        rw [hids] at hidmem
        exact hrank r2 (List.mem_cons_of_mem _ hr2) info2 hi2 id hidmem)
      (by
        intro r2 hr2 t ti ht hti k hk hk0 hkr
        rw [hids]
        exact htal r2 (List.mem_cons_of_mem _ hr2) t ti ht hti k hk hk0 hkr)
    rw [List.foldl_cons, hrec, hstep.1]
    simp

end Pet

namespace Pet

/-! ### The record written by a save at slot mode current -/

theorem storedSpellRows_flush (petNumber : Nat) (book : PetSpellMap) (tx : Transaction) :
    storedSpellRows (_SaveSpells petNumber book tx).1 = storedSpellRows book := by
  rw [_SaveSpells_eq]
  simp only
  induction book with
  | nil => rfl
  | cons e rest ih =>
    obtain ⟨spell, entry⟩ := e
    obtain ⟨active, state, type⟩ := entry
    unfold storedSpellRows at ih ⊢
    by_cases hf : type = PetSpellType.PETSPELL_FAMILY
    · simp [flushedEntry, hf, ih]
    · cases state <;> simp [flushedEntry, hf, ih]

theorem SavePetToDB_current (w : World) (IsPetAura : Aura → Bool)
    (changeMapFlag cutoff maxStables curMSTime : Nat) (owner : Player) (saved : Pet)
    (stable : PetStable) (cur : PetInfo)
    (hplayer : saved.ownerGuidIsPlayer = true)
    (hready : saved.m_loading = false ∧ saved.Entry ≠ 0 ∧ saved.isControlled = true)
    (hstable : owner.PetStable = some stable) (hcur : stable.CurrentPet = some cur)
    (hnum : cur.PetNumber = saved.PetNumber)
    (hnoconf : owner.TemporaryUnsummonedPetNumber = 0 ∨
      owner.TemporaryUnsummonedPetNumber = saved.PetNumber) :
    (SavePetToDB w IsPetAura changeMapFlag cutoff maxStables curMSTime true owner saved
        PET_SAVE_AS_CURRENT).owner
      = { owner with
          PetStable := some { stable with CurrentPet := some (FillPetInfo saved w.GameTime) } } ∧
    storedSpellRows (SavePetToDB w IsPetAura changeMapFlag cutoff maxStables curMSTime true owner
        saved PET_SAVE_AS_CURRENT).pet.book.m_spells = storedSpellRows saved.book.m_spells := by
  obtain ⟨hl, he, hc⟩ := hready
  have hconf : (PET_SAVE_AS_CURRENT == PET_SAVE_AS_CURRENT &&
      owner.TemporaryUnsummonedPetNumber != 0 &&
      owner.TemporaryUnsummonedPetNumber != saved.PetNumber) = false := by
    rcases hnoconf with h | h
    · simp [h]
    · simp [h]
  have hentry : (saved.Entry == 0) = false := by simpa using he
  unfold SavePetToDB
  simp only [hplayer, hl, hentry, hc, hconf, Bool.not_true, Bool.false_eq_true, if_false,
    Bool.or_self, Bool.false_and]
  have hmode1 : ¬ (PET_SAVE_AS_CURRENT > PET_SAVE_AS_CURRENT) := by decide
  have hmode2 : PET_SAVE_AS_CURRENT ≥ PET_SAVE_AS_CURRENT := by decide
  simp only [hmode1, hmode2, if_false, if_true, hstable, hcur, hnum]
  exact ⟨rfl, storedSpellRows_flush _ _ _⟩

theorem restoreHealthAndMana_current (w : World) (pet : Pet) (cb : LoadCallback)
    (hcurrent : cb.current = true) (hpct : cb.healthPct = 0) :
    (¬ (cb.savedhealth = 0 ∧ pet.m_petType = PetType.HUNTER_PET) →
      (restoreHealthAndMana w pet cb).Level = pet.Level ∧
      (restoreHealthAndMana w pet cb).UNIT_FIELD_PETEXPERIENCE = pet.UNIT_FIELD_PETEXPERIENCE ∧
      (restoreHealthAndMana w pet cb).Happiness = pet.Happiness ∧
      (restoreHealthAndMana w pet cb).MaxHealth = pet.MaxHealth ∧
      (restoreHealthAndMana w pet cb).Health = min cb.savedhealth pet.MaxHealth ∧
      (restoreHealthAndMana w pet cb).book = pet.book) ∧
    ((cb.savedhealth = 0 ∧ pet.m_petType = PetType.HUNTER_PET) →
      restoreHealthAndMana w pet cb
        = { setDeathState w pet DeathState.JUST_DIED with m_loading := false }) := by
  unfold restoreHealthAndMana
  simp only [hcurrent, hpct, ne_eq, not_true_eq_false, if_false, Bool.true_eq_false, and_false]
  constructor
  · intro hdead
    rw [if_neg hdead]
    refine ⟨rfl, rfl, rfl, rfl, ?_, rfl⟩
    simp only
    split_ifs with h
    · exact (Nat.min_eq_right (Nat.le_of_lt h)).symm
    · exact (Nat.min_eq_left (Nat.le_of_not_lt h)).symm
  · intro hdead
    rw [if_pos hdead]

end Pet

namespace Pet

theorem LoadSpells_independent (w : SpellWorld) (level : Nat) (b : AbilityBook)
    (rows : List (Nat × ActiveStates))
    (hspells : b.m_spells = []) (hauto : b.m_autospells = [])
    (hrows : rowsIndependent w rows = true) :
    (_LoadSpells w level b (some rows)).m_spells = rows.map loadedEntry := by
  unfold rowsIndependent at hrows
  simp only [Bool.and_eq_true, decide_eq_true_eq, List.all_eq_true] at hrows
  obtain ⟨hnodup, hall⟩ := hrows
  have h := loadRows_fold w level rows b
    (by rw [hspells]; simpa using hnodup)
    (by rw [hauto]; intro x hx; cases hx)
    (by
      intro r hr
      obtain ⟨⟨_, hinfo⟩, _⟩ := hall r hr
      cases hi : w.GetSpellInfo r.1 with
      | none => rw [hi] at hinfo; simp at hinfo
      | some info =>
        rw [hi] at hinfo
        simp only [Bool.and_eq_true, beq_iff_eq] at hinfo
        exact ⟨info, rfl, hinfo.1⟩)
    (by
      intro r hr
      obtain ⟨⟨hact, _⟩, _⟩ := hall r hr
      simpa using hact)
    (by
      intro r hr info hi id hidmem hne old hold
      obtain ⟨⟨_, hinfo⟩, _⟩ := hall r hr
      rw [hi] at hinfo
      simp only [Bool.and_eq_true, beq_iff_eq, List.all_eq_true] at hinfo
      rw [hspells] at hidmem
      have := hinfo.2 id (by simpa using hidmem)
      rw [hold] at this
      simpa [hne] using this)
    (by
      intro r hr t ti ht hti k hk hk0 hkr hmem
      obtain ⟨_, htal⟩ := hall r hr
      rw [ht] at htal
      simp only [hti, List.all_eq_true] at htal
      have := htal k hk
      rw [hspells] at hmem
      have hmem2 : k ∈ rows.map Prod.fst := by simpa using hmem
      simp [hk0, hkr, hmem2] at this)
  unfold _LoadSpells
  rw [h, hspells]
  rfl

theorem loadAbilities_fields (w : World) (pet : Pet) (isTemporarySummon : Bool)
    (spellRows : Option (List (Nat × ActiveStates))) :
    (loadAbilities w pet isTemporarySummon spellRows).Level = pet.Level ∧
      (loadAbilities w pet isTemporarySummon spellRows).UNIT_FIELD_PETEXPERIENCE
        = pet.UNIT_FIELD_PETEXPERIENCE ∧
      (loadAbilities w pet isTemporarySummon spellRows).Happiness = pet.Happiness ∧
      (loadAbilities w pet isTemporarySummon spellRows).MaxHealth = pet.MaxHealth ∧
      (loadAbilities w pet isTemporarySummon spellRows).m_petType = pet.m_petType := by
  unfold loadAbilities
  cases isTemporarySummon <;> exact ⟨rfl, rfl, rfl, rfl, rfl⟩

end Pet

namespace Pet

/-- C4 (as stated) fails: a controlled, player-owned hunter pet of level 30 with
500 experience that knows rank 1 (ability 100) is recorded at slot mode current
for an owner of level 40; loading that record with current = true gives a pet of
level 35 with 0 experience that knows rank 2 (ability 101) instead. -/
theorem C4_counterexample :
    (savedPetSample.isControlled, savedPetSample.ownerGuidIsPlayer, savedPetSample.Level,
        savedPetSample.UNIT_FIELD_PETEXPERIENCE, savedPetSample.book.m_spells.map Prod.fst)
      = (true, true, 30, 500, [100]) ∧
    (completeLoad worldSample
        (some (storedSpellRows
          (SavePetToDB worldSample (fun _ => false) changeMapFlagSample cutoffSample 4 5000 true
            (ownerSample 40) savedPetSample PET_SAVE_AS_CURRENT).pet.book.m_spells))
        (LoadPetFromDB worldSample
          (SavePetToDB worldSample (fun _ => false) changeMapFlagSample cutoffSample 4 5000 true
            (ownerSample 40) savedPetSample PET_SAVE_AS_CURRENT).owner {} 0 0 true)).map
        (fun loaded => (loaded.Level, loaded.UNIT_FIELD_PETEXPERIENCE,
          loaded.book.m_spells.map Prod.fst))
      = some (35, 0, [101]) := by
  decide

/-- C4 (amended): a controlled, player-owned pet that is not being loaded is
recorded at slot mode current by `SavePetToDB` into the current-slot record of
its owner, and `LoadPetFromDB` with current = true returns with a completion
callback. Then the completed load has: the level given by the level rule (owner
level for a summon pet, saved level clamped to owner level - 5 .. owner level for
a hunter pet); the saved experience, or 0 for a hunter pet whose level changed;
for a hunter pet the saved happiness; the saved health clamped to the maximum,
unless it is a hunter pet saved with 0 health, which is put to the just-died
state. The ability rows of the flushed book are the known non-family entries of
the saved book, and `_LoadSpells` on an empty book reads independent rows back
as exactly these abilities with their activation modes. -/
theorem C4_record_round_trip (w : World) (IsPetAura : Aura → Bool)
    (changeMapFlag cutoff maxStables curMSTime : Nat) (owner : Player) (saved fresh : Pet)
    (petEntry : Nat) (stable : PetStable) (cur : PetInfo)
    (spellRows : Option (List (Nat × ActiveStates)))
    (hplayer : saved.ownerGuidIsPlayer = true)
    (hready : saved.m_loading = false ∧ saved.Entry ≠ 0 ∧ saved.isControlled = true)
    (hstable : owner.PetStable = some stable) (hcur : stable.CurrentPet = some cur)
    (hnum : cur.PetNumber = saved.PetNumber)
    (hnoconf : owner.TemporaryUnsummonedPetNumber = 0 ∨
      owner.TemporaryUnsummonedPetNumber = saved.PetNumber)
    (hown : w.spells.hasOwner = true ∧ w.spells.ownerIsPlayer = true) (hlvl : 0 < owner.Level)
    (hret : (completeLoad w spellRows
      (LoadPetFromDB w
        (SavePetToDB w IsPetAura changeMapFlag cutoff maxStables curMSTime true owner saved
          PET_SAVE_AS_CURRENT).owner fresh petEntry 0 true)).isSome = true) :
    (∃ loaded before,
      completeLoad w spellRows
        (LoadPetFromDB w
          (SavePetToDB w IsPetAura changeMapFlag cutoff maxStables curMSTime true owner saved
            PET_SAVE_AS_CURRENT).owner fresh petEntry 0 true) = some loaded ∧
      (LoadPetFromDB w
          (SavePetToDB w IsPetAura changeMapFlag cutoff maxStables curMSTime true owner saved
            PET_SAVE_AS_CURRENT).owner fresh petEntry 0 true).pet? = some before ∧
      (¬ (saved.Health = 0 ∧ saved.m_petType = PetType.HUNTER_PET) →
        loaded.Level = syncedLevel saved.m_petType owner.Level saved.Level ∧
        loaded.UNIT_FIELD_PETEXPERIENCE
          = (if saved.m_petType = PetType.HUNTER_PET ∧
                syncedLevel saved.m_petType owner.Level saved.Level ≠ saved.Level
             then 0 else saved.UNIT_FIELD_PETEXPERIENCE) ∧
        (saved.m_petType = PetType.HUNTER_PET → loaded.Happiness = saved.Happiness) ∧
        loaded.Health = min saved.Health loaded.MaxHealth) ∧
      ((saved.Health = 0 ∧ saved.m_petType = PetType.HUNTER_PET) →
        loaded = { setDeathState w (loadAbilities w before false spellRows)
                     DeathState.JUST_DIED with m_loading := false })) ∧
    storedSpellRows (SavePetToDB w IsPetAura changeMapFlag cutoff maxStables curMSTime true owner
        saved PET_SAVE_AS_CURRENT).pet.book.m_spells = storedSpellRows saved.book.m_spells ∧
    ∀ (level : Nat) (b : AbilityBook), b.m_spells = [] → b.m_autospells = [] →
      rowsIndependent w.spells (storedSpellRows saved.book.m_spells) = true →
      (_LoadSpells w.spells level b (some (storedSpellRows saved.book.m_spells))).m_spells
        = (storedSpellRows saved.book.m_spells).map loadedEntry := by
  have hsave := SavePetToDB_current w IsPetAura changeMapFlag cutoff maxStables curMSTime owner
    saved stable cur hplayer hready hstable hcur hnum hnoconf
  refine ⟨?_, hsave.2, fun level b hs ha hrows =>
    LoadSpells_independent w.spells level b _ hs ha hrows⟩
  generalize hres : LoadPetFromDB w
    (SavePetToDB w IsPetAura changeMapFlag cutoff maxStables curMSTime true owner saved
      PET_SAVE_AS_CURRENT).owner fresh petEntry 0 true = res at hret ⊢
  rw [hsave.1] at hres
  cases res with
  | returnedFalse p o => simp [completeLoad] at hret
  | assertFailed => simp [completeLoad] at hret
  | returnedTrue pet2 owner2 callback =>
    cases callback with
    | none => simp [completeLoad] at hret
    | some cb =>
      have hf := LoadPetFromDB_current_fields w
        { owner with
          PetStable := some { stable with CurrentPet := some (FillPetInfo saved w.GameTime) } }
        fresh petEntry { stable with CurrentPet := some (FillPetInfo saved w.GameTime) }
        (FillPetInfo saved w.GameTime) rfl rfl hown hlvl pet2 owner2 cb hres
      obtain ⟨hlevel, hexp, hhappy, htype, hcb, _, _⟩ := hf
      have hla := loadAbilities_fields w pet2 cb.isTemporarySummon spellRows
      obtain ⟨hl1, hl2, hl3, hl4, hl5⟩ := hla
      have hcbcur : cb.current = true := by rw [hcb]
      have hcbpct : cb.healthPct = 0 := by rw [hcb]
      have hcbhealth : cb.savedhealth = saved.Health := by rw [hcb]; rfl
      have hcbtemp : cb.isTemporarySummon = false := by rw [hcb]
      have hrest := restoreHealthAndMana_current w
        (loadAbilities w pet2 cb.isTemporarySummon spellRows) cb hcbcur hcbpct
      have htype2 : pet2.m_petType = saved.m_petType := htype
      rw [hcbhealth, hl5, htype2] at hrest
      refine ⟨restoreHealthAndMana w (loadAbilities w pet2 cb.isTemporarySummon spellRows) cb,
        pet2, rfl, rfl, ?_, ?_⟩
      · intro hdead
        obtain ⟨r1, r2, r3, r4, r5, _⟩ := hrest.1 hdead
        refine ⟨?_, ?_, ?_, ?_⟩
        · rw [r1, hl1, hlevel]; rfl
        · rw [r2, hl2, hexp]; rfl
        · intro ht
          rw [r3, hl3]
          exact hhappy ht
        · rw [r5, r4]
      · intro hdead
        rw [hrest.2 hdead, hcbtemp]

/-- Witness of C4 (amended): the sample hunter pet recorded for an owner of its
own level 30 is loaded with level 30, experience 500, happiness 166500 and
health 900, and its one stored ability row is read back as ability 100. -/
theorem C4_record_round_trip_witness :
    (completeLoad worldSample none
        (LoadPetFromDB worldSample
          (SavePetToDB worldSample (fun _ => false) changeMapFlagSample cutoffSample 4 5000 true
            (ownerSample 30) savedPetSample PET_SAVE_AS_CURRENT).owner {} 0 0 true)).map
        (fun loaded => (loaded.Level, loaded.UNIT_FIELD_PETEXPERIENCE, loaded.Happiness,
          loaded.Health))
      = some (30, 500, 166500, 900) ∧
    (_LoadSpells spellWorldSample 30 {} (some (storedSpellRows savedPetSample.book.m_spells))).m_spells
      = [(100, { active := ActiveStates.ACT_PASSIVE, state := PetSpellState.PETSPELL_UNCHANGED,
                 type := PetSpellType.PETSPELL_NORMAL })] := by
  have h := C4_record_round_trip worldSample (fun _ => false) changeMapFlagSample cutoffSample 4
    5000 (ownerSample 30) savedPetSample {} 0
    { CurrentPet := some (FillPetInfo savedPetSample 1000) } (FillPetInfo savedPetSample 1000)
    none rfl (by decide) rfl rfl rfl (Or.inl rfl) (by decide) (by decide) (by decide)
  obtain ⟨⟨loaded, before, hloaded, _, hfields, _⟩, _, hrows⟩ := h
  refine ⟨?_, ?_⟩
  · obtain ⟨f1, f2, f3, f4⟩ := hfields (by decide)
    have hmax : loaded.MaxHealth = 1500 := by
      have : (completeLoad worldSample none
        (LoadPetFromDB worldSample
          (SavePetToDB worldSample (fun _ => false) changeMapFlagSample cutoffSample 4 5000 true
            (ownerSample 30) savedPetSample PET_SAVE_AS_CURRENT).owner {} 0 0 true)).map
          (fun p => p.MaxHealth) = some 1500 := by decide
      rw [hloaded] at this
      simpa using this
    rw [hloaded]
    simp only [Option.map_some', f1, f2, f3 rfl, f4, hmax]
    decide
  · have hread := hrows 30 {} rfl rfl (by decide)
    exact hread.trans (by decide)

end Pet

namespace Pet

/-! ### Loading the effects -/

theorem wrapInt32_of_range (z : Int) (h : -2147483648 ≤ z ∧ z < 2147483648) : wrapInt32 z = z := by
  unfold wrapInt32
  omega

theorem tdiv_thousand_le (remaintime : Int) (timediff : Nat) :
    Int.tdiv remaintime 1000 ≤ (timediff : Int) ↔ remaintime < (timediff : Int) * 1000 + 1000 := by
  by_cases hneg : remaintime < 0
  · have h1 : Int.tdiv remaintime 1000 = -(Int.tdiv (-remaintime) 1000) := by
      rw [Int.neg_tdiv, neg_neg]
    have h2 : 0 ≤ Int.tdiv (-remaintime) 1000 := Int.tdiv_nonneg (by omega) (by decide)
    constructor
    · intro _; omega
    · intro _; omega
  · have h1 : Int.tdiv remaintime 1000 = remaintime / 1000 :=
      Int.tdiv_eq_ediv (by omega) (by decide)
    rw [h1]
    omega

theorem countDownOffline_counted (spellInfo : SpellInfo) (remaintime : Int) (timediff : Nat)
    (hint32 : -2147483648 ≤ remaintime ∧ remaintime < 2147483648)
    (hrem : remaintime ≠ -1) (htd : timediff < 2147483648)
    (hneg : spellInfo.IsPositive = false ∨
      spellInfo.HasAttribute_SPELL_ATTR4_AURA_EXPIRES_OFFLINE = true) :
    countDownOffline spellInfo remaintime timediff
      = if Int.tdiv remaintime 1000 ≤ (timediff : Int) then none
        else some (remaintime - (timediff : Int) * 1000) := by
  have hcond : (!spellInfo.IsPositive ||
      spellInfo.HasAttribute_SPELL_ATTR4_AURA_EXPIRES_OFFLINE) = true := by
    rcases hneg with h | h
    · simp [h]
    · simp [h]
  have hwrap : wrapInt32 (timediff : Int) = (timediff : Int) :=
    wrapInt32_of_range _ (by omega)
  unfold countDownOffline
  rw [if_pos ⟨hrem, hcond⟩, hwrap]
  have hms : ((IN_MILLISECONDS : Nat) : Int) = 1000 := rfl
  rw [hms]
  by_cases hle : Int.tdiv remaintime 1000 ≤ (timediff : Int)
  · rw [if_pos hle, if_pos hle]
  · rw [if_neg hle, if_neg hle]
    have hlt := (not_congr (tdiv_thousand_le remaintime timediff)).1 hle
    have hprod : ((timediff * IN_MILLISECONDS % UINT32 : Nat) : Int) = (timediff : Int) * 1000 := by
      have h1 : IN_MILLISECONDS = 1000 := rfl
      have h2 : UINT32 = 4294967296 := rfl
      rw [h1, h2]
      omega
    rw [hprod, wrapInt32_of_range _ (by omega)]

/-- C11: a saved effect row with remaining time other than -1 whose spell is
not positive, or is flagged to expire offline, is discarded by `_LoadAuras`
when `remaintime / 1000 <= timediff` and is otherwise handed to the creation of
the effect with the remaining time `remaintime - timediff * 1000`, which is
positive; a row of a positive effect without the flag keeps its saved remaining
time. `timediff` fits a non-negative `int32`, and is the clock difference when
that does. -/
theorem C11_offline_countdown (s : AuraStore) (level petGUID timediff : Nat) (row : PetAuraRow)
    (spellInfo0 spellInfo : SpellInfo)
    (hspell : s.GetSpellInfo row.spell = some spellInfo0)
    (hrank : s.GetAuraRankForLevel spellInfo0 level = some spellInfo)
    (hint32 : -2147483648 ≤ row.duration ∧ row.duration < 2147483648)
    (htd : timediff < 2147483648) :
    (row.duration ≠ -1 →
      (spellInfo.IsPositive = false ∨
        spellInfo.HasAttribute_SPELL_ATTR4_AURA_EXPIRES_OFFLINE = true) →
      (Int.tdiv row.duration 1000 ≤ (timediff : Int) →
        loadAuraRow s level petGUID timediff row = none ∧
        ∀ before after, _LoadAuras s level petGUID (some (before ++ row :: after)) timediff
          = _LoadAuras s level petGUID (some (before ++ after)) timediff) ∧
      (¬ Int.tdiv row.duration 1000 ≤ (timediff : Int) →
        0 < row.duration - (timediff : Int) * 1000 ∧
        loadAuraRow s level petGUID timediff row
          = applyLoadedAura s spellInfo (if row.casterGUID = 0 then petGUID else row.casterGUID)
              row (row.duration - (timediff : Int) * 1000))) ∧
    ((spellInfo.IsPositive = true ∧
        spellInfo.HasAttribute_SPELL_ATTR4_AURA_EXPIRES_OFFLINE = false) →
      loadAuraRow s level petGUID timediff row
        = applyLoadedAura s spellInfo (if row.casterGUID = 0 then petGUID else row.casterGUID)
            row row.duration) ∧
    (∀ gameTime lastSaveTime : Int, gameTime - lastSaveTime = (timediff : Int) →
      loadTimediff gameTime lastSaveTime = timediff) := by
  refine ⟨?_, ?_, ?_⟩
  · intro hrem hneg
    have hcount := countDownOffline_counted spellInfo row.duration timediff hint32 hrem htd hneg
    have hrow : loadAuraRow s level petGUID timediff row
        = match countDownOffline spellInfo row.duration timediff with
          | none => none
          | some remaintime =>
            applyLoadedAura s spellInfo (if row.casterGUID = 0 then petGUID else row.casterGUID)
              row remaintime := by
      unfold loadAuraRow
      simp only [hspell, hrank]
    constructor
    · intro hle
      have hnone : loadAuraRow s level petGUID timediff row = none := by
        rw [hrow, hcount, if_pos hle]
      refine ⟨hnone, fun before after => ?_⟩
      unfold _LoadAuras
      simp only [List.filterMap_append, List.filterMap_cons, hnone]
    · intro hgt
      have hlt := (not_congr (tdiv_thousand_le row.duration timediff)).1 hgt
      refine ⟨by omega, ?_⟩
      rw [hrow, hcount, if_neg hgt]
  · intro hpos
    unfold loadAuraRow
    simp only [hspell, hrank]
    unfold countDownOffline
    simp [hpos.1, hpos.2]
  · intro gameTime lastSaveTime hdiff
    unfold loadTimediff
    rw [hdiff]
    have h2 : ((UINT32 : Nat) : Int) = 4294967296 := rfl
    rw [h2]
    omega

/-- Witness of C11: with two minutes left, the harmful spell 77 is restored
with 90 seconds after 30 seconds offline and discarded after 120 seconds; the
helpful spell 78 keeps its two minutes. -/
theorem C11_offline_countdown_witness :
    (_LoadAuras auraStoreSample 30 50 (some [auraRowSample 77]) 30).map
        (fun loaded => loaded.remaintime) = [90000] ∧
      _LoadAuras auraStoreSample 30 50 (some ([] ++ auraRowSample 77 :: [])) 120
        = _LoadAuras auraStoreSample 30 50 (some ([] ++ [])) 120 ∧
      (loadAuraRow auraStoreSample 30 50 120 (auraRowSample 78)).map
        (fun loaded => loaded.remaintime) = some 120000 := by
  have h77 := (C11_offline_countdown auraStoreSample 30 50 30 (auraRowSample 77)
    { Id := 77, IsPositive := false } { Id := 77, IsPositive := false } rfl rfl
    (by decide) (by decide)).1 (by decide) (Or.inl rfl)
  have h77late := (C11_offline_countdown auraStoreSample 30 50 120 (auraRowSample 77)
    { Id := 77, IsPositive := false } { Id := 77, IsPositive := false } rfl rfl
    (by decide) (by decide)).1 (by decide) (Or.inl rfl)
  have h78 := (C11_offline_countdown auraStoreSample 30 50 120 (auraRowSample 78)
    { Id := 78, IsPositive := true } { Id := 78, IsPositive := true } rfl rfl
    (by decide) (by decide)).2.1 ⟨rfl, rfl⟩
  refine ⟨?_, ?_, ?_⟩
  · have hrow := (h77.2 (by decide)).2
    unfold _LoadAuras
    simp only [List.filterMap_cons, List.filterMap_nil, hrow]
    decide
  · exact (h77late.1 (by decide)).2 [] []
  · rw [h78]
    decide

end Pet

namespace Pet

/-! ### Health and mana at the end of a load -/

/-- C12: in the load completion step a hunter-type pet whose resolved health
(the saved health, or `healthPct` percent of the maximum when `healthPct` is
not 0) is 0 is put to `JUST_DIED` and its health is not set; a summon-type pet
loaded with current = false gets full health and mana; in every remaining case
health is min(resolved health, max health) and mana min(saved mana, max mana). -/
theorem C12_load_health (w : World) (pet : Pet) (cb : LoadCallback) (curHealth : Nat)
    (hcur : curHealth = if cb.healthPct ≠ 0 then w.CountPctFromMaxHealth pet cb.healthPct
      else cb.savedhealth) :
    (pet.m_petType = PetType.HUNTER_PET ∧ curHealth = 0 →
      restoreHealthAndMana w pet cb
        = { setDeathState w pet DeathState.JUST_DIED with m_loading := false }) ∧
    (pet.m_petType = PetType.SUMMON_PET ∧ cb.current = false →
      restoreHealthAndMana w pet cb
        = { pet with Health := pet.MaxHealth, Mana := pet.MaxMana, m_loading := false }) ∧
    (¬ (pet.m_petType = PetType.HUNTER_PET ∧ curHealth = 0) →
      ¬ (pet.m_petType = PetType.SUMMON_PET ∧ cb.current = false) →
      restoreHealthAndMana w pet cb
        = { pet with
            Health := min curHealth pet.MaxHealth
            Mana := min cb.savedmana pet.MaxMana
            m_loading := false }) := by
  subst hcur
  refine ⟨?_, ?_, ?_⟩
  · intro h
    unfold restoreHealthAndMana
    have hnot : ¬ (pet.m_petType = PetType.SUMMON_PET ∧ cb.current = false) := by
      intro hs
      rw [h.1] at hs
      exact absurd hs.1 (by decide)
    simp only
    rw [if_neg hnot, if_pos ⟨h.2, h.1⟩]
  · intro h
    unfold restoreHealthAndMana
    simp only
    rw [if_pos h]
  · intro hdead hsummon
    unfold restoreHealthAndMana
    simp only
    rw [if_neg hsummon, if_neg (fun h => hdead ⟨h.2, h.1⟩)]
    have hmin : ∀ a b : Nat, (if a > b then b else a) = min a b := by
      intro a b
      split_ifs with h
      · exact (Nat.min_eq_right (Nat.le_of_lt h)).symm
      · exact (Nat.min_eq_left (Nat.le_of_not_lt h)).symm
    rw [hmin, hmin]

/-- Witness of C12: the sample hunter pet loaded with saved health 0 is put to
the just-died state, and with saved health 2000 it gets its maximum 1500. -/
theorem C12_load_health_witness :
    restoreHealthAndMana worldSample savedPetSample
        { isTemporarySummon := false, current := true, lastSaveTime := 0, savedhealth := 0,
          savedmana := 0, healthPct := 0 }
      = { setDeathState worldSample savedPetSample DeathState.JUST_DIED with m_loading := false } ∧
    (restoreHealthAndMana worldSample savedPetSample
        { isTemporarySummon := false, current := true, lastSaveTime := 0, savedhealth := 2000,
          savedmana := 0, healthPct := 0 }).Health = 1500 := by
  refine ⟨?_, ?_⟩
  · exact (C12_load_health worldSample savedPetSample
      { isTemporarySummon := false, current := true, lastSaveTime := 0, savedhealth := 0,
        savedmana := 0, healthPct := 0 } 0 rfl).1 ⟨rfl, rfl⟩
  · rw [(C12_load_health worldSample savedPetSample
      { isTemporarySummon := false, current := true, lastSaveTime := 0, savedhealth := 2000,
        savedmana := 0, healthPct := 0 } 2000 rfl).2.2 (by decide) (by decide)]
    decide

end Pet

namespace Pet

/-! ### Aborted loads -/

/-- C13 (the claim fails on the code): an abort of `LoadPetFromDB` on a
precondition after the record was found (reload of the current pet, owner busy
or not in the world, the class visibility rule, a time-limited summon asked as
current, a hunter pet the owner may not tame, the temporary-unsummon deferral)
returns false with every field of the pet object as before except `m_loading`,
which is left set; only the abort for a missing record clears it. A fresh pet
object (`m_loading` false) loaded for a spectating owner comes back with
`m_loading` true. -/
theorem C13_abort_leaves_loading_set (w : World) (owner : Player) (pet : Pet)
    (petEntry petnumber : Nat) (current : Bool) (healthPct : Nat) (stable : PetStable)
    (petInfo : PetInfo)
    (hstable : owner.PetStable = some stable)
    (hrecord : (GetLoadPetInfo stable petEntry petnumber current).1.bind stable.deref
      = some petInfo)
    (habort :
      (match stable.CurrentPet with
        | some cur => owner.hasPet && cur.PetNumber == petInfo.PetNumber
        | none => false) = true ∨
      (owner.IsSpectator || owner.hasPet || !owner.IsInWorld || !owner.hasMap) = true ∨
      (!w.forceLoadFromDB && (owner.isDeathKnight && !owner.CanSeeDKPet)) = true ∨
      (current && (match w.spells.GetSpellInfo petInfo.CreatedBySpellId with
        | some spellInfo => decide (spellInfo.Duration > 0)
        | none => false)) = true ∨
      (petInfo.Type_ = PetType.HUNTER_PET ∧ w.IsTameable petInfo.CreatureId ≠ some true) ∨
      (current && owner.IsPetNeedBeTemporaryUnsummoned) = true) :
    (∃ owner1, LoadPetFromDB w owner pet petEntry petnumber current healthPct
        = LoadResult.returnedFalse { pet with m_loading := true } owner1) ∧
      LoadPetFromDB worldSample { ownerSample 30 with IsSpectator := true } {} 0 0 true
        = LoadResult.returnedFalse { ({} : Pet) with m_loading := true }
            { ownerSample 30 with IsSpectator := true } ∧
      ({} : Pet).m_loading = false ∧
      LoadPetFromDB worldSample { Level := 30, PetStable := some {} } {} 0 0 true
        = LoadResult.returnedFalse {} { Level := 30, PetStable := some {} } := by
  refine ⟨?_, by decide, rfl, by decide⟩
  unfold LoadPetFromDB
  simp only [hstable, hrecord]
  split_ifs with h1 h2 h3 h4 h5 h6
  · exact ⟨_, rfl⟩
  · exact ⟨_, rfl⟩
  · exact ⟨_, rfl⟩
  · exact ⟨_, rfl⟩
  · exact ⟨_, rfl⟩
  · exact ⟨_, rfl⟩
  · exfalso
    rcases habort with h | h | h | h | h | h
    · exact h1 h
    · exact h2 h
    · exact h3 h
    · exact h4 h
    · exact h5 h
    · exact h6 h

/-- Witness of C13: the sample owner, spectating, loads a fresh pet object. -/
theorem C13_abort_leaves_loading_set_witness :
    ∃ owner1, LoadPetFromDB worldSample { ownerSample 30 with IsSpectator := true } {} 0 0 true 0
      = LoadResult.returnedFalse { ({} : Pet) with m_loading := true } owner1 :=
  (C13_abort_leaves_loading_set worldSample { ownerSample 30 with IsSpectator := true } {} 0 0
    true 0 { CurrentPet := some (FillPetInfo savedPetSample 1000) }
    (FillPetInfo savedPetSample 1000) rfl (by decide) (Or.inr (Or.inl rfl))).1

end Pet

namespace Pet

/-! ### Replacing and refusing ranks -/

theorem findSpell_cons (e : Nat × PetSpell) (rest : PetSpellMap) (spell : Nat) :
    findSpell (e :: rest) spell = if e.1 = spell then some e.2 else findSpell rest spell := by
  unfold findSpell
  by_cases h : e.1 = spell
  · simp [List.find?, h]
  · have hb : (e.1 == spell) = false := by simp [h]
    simp only [List.find?, hb, h, if_false]

theorem findSpell_eraseSpell_self (spells : PetSpellMap) (spell : Nat) :
    findSpell (eraseSpell spells spell) spell = none := by
  rw [findSpell_eq_none_iff]
  unfold eraseSpell
  simp only [List.mem_map, List.mem_filter, not_exists, not_and]
  intro e he heq
  simp [heq] at he

theorem findSpell_eraseSpell_ne (spells : PetSpellMap) (spell other : Nat) (h : other ≠ spell) :
    findSpell (eraseSpell spells spell) other = findSpell spells other := by
  induction spells with
  | nil => rfl
  | cons e rest ih =>
    unfold eraseSpell at ih ⊢
    by_cases he : e.1 = spell
    · have hne : ¬ e.1 = other := fun h2 => h (h2.symm.trans he)
      simp only [List.filter, he, beq_self_eq_true, Bool.not_true]
      rw [findSpell_cons, if_neg (by rw [he]; exact fun h2 => h h2.symm)]
      exact ih
    · have hb : (!(e.1 == spell)) = true := by simp [he]
      simp only [List.filter, hb]
      rw [findSpell_cons, findSpell_cons, ih]

theorem findSpell_modifySpell_self (spells : PetSpellMap) (spell : Nat) (f : PetSpell → PetSpell) :
    findSpell (modifySpell spells spell f) spell = (findSpell spells spell).map f := by
  induction spells with
  | nil => rfl
  | cons e rest ih =>
    unfold modifySpell at ih ⊢
    rw [List.map_cons, findSpell_cons, findSpell_cons]
    by_cases he : e.1 = spell
    · simp [he]
    · have hb : (e.1 == spell) = false := by simp [he]
      simp only [hb, Bool.false_eq_true, if_false, he]
      exact ih

theorem findSpell_modifySpell_ne (spells : PetSpellMap) (spell other : Nat)
    (f : PetSpell → PetSpell) (h : other ≠ spell) :
    findSpell (modifySpell spells spell f) other = findSpell spells other := by
  induction spells with
  | nil => rfl
  | cons e rest ih =>
    unfold modifySpell at ih ⊢
    rw [List.map_cons, findSpell_cons, findSpell_cons, ih]
    by_cases he : e.1 = spell
    · have hne : ¬ e.1 = other := fun h2 => h (h2.symm.trans he)
      simp [he, hne, Ne.symm h]
    · simp [he]

theorem findSpell_append_ne (spells : PetSpellMap) (spell other : Nat) (entry : PetSpell)
    (h : other ≠ spell) :
    findSpell (spells ++ [(spell, entry)]) other = findSpell spells other := by
  induction spells with
  | nil =>
    rw [List.nil_append, findSpell_cons, if_neg (fun h2 => h h2.symm)]
  | cons e rest ih =>
    rw [List.cons_append, findSpell_cons, findSpell_cons, ih]

end Pet

namespace Pet

theorem HasSpell_iff (spells : PetSpellMap) (spell : Nat) :
    HasSpell spells spell = true ↔
      ∃ entry, findSpell spells spell = some entry ∧ entry.state ≠ PetSpellState.PETSPELL_REMOVED := by
  unfold HasSpell
  cases h : findSpell spells spell with
  | none => simp
  | some entry => simp

theorem HasSpell_congr (spells spells2 : PetSpellMap) (spell : Nat)
    (h : findSpell spells2 spell = findSpell spells spell) :
    HasSpell spells2 spell = HasSpell spells spell := by
  unfold HasSpell
  rw [h]

theorem setActive_state (active : ActiveStates) (entry : PetSpell) :
    (setActive active entry).state ≠ PetSpellState.PETSPELL_REMOVED ∧
      (setActive active entry).active = active := by
  unfold setActive
  refine ⟨?_, rfl⟩
  simp only
  split_ifs with h
  · decide
  · simp only [ne_eq, not_not] at h
    rw [h]
    decide

/-- `ToggleAutocast` writes no entry but the one of the spell. -/
theorem ToggleAutocast_other (b : AbilityBook) (spellInfo : SpellInfo) (apply : Bool)
    (other : Nat) (h : other ≠ spellInfo.Id) :
    findSpell (ToggleAutocast b spellInfo apply).m_spells other = findSpell b.m_spells other := by
  unfold ToggleAutocast
  by_cases ha : (!spellInfo.IsAutocastable) = true
  · rw [if_pos ha]
  · rw [if_neg ha]
    cases hf : findSpell b.m_spells spellInfo.Id with
    | none => rfl
    | some entry =>
      simp only
      split_ifs <;> first
        | rfl
        | exact findSpell_modifySpell_ne _ _ _ _ h

/-- Switching autocast off keeps a known entry known, takes nothing into the
autocast list and leaves the talent counters. -/
theorem ToggleAutocast_off (b : AbilityBook) (spellInfo : SpellInfo) :
    (HasSpell b.m_spells spellInfo.Id = true →
      HasSpell (ToggleAutocast b spellInfo false).m_spells spellInfo.Id = true) ∧
    (∀ x, x ∈ (ToggleAutocast b spellInfo false).m_autospells → x ∈ b.m_autospells) ∧
    (ToggleAutocast b spellInfo false).m_usedTalentCount = b.m_usedTalentCount := by
  unfold ToggleAutocast
  by_cases ha : spellInfo.IsAutocastable = true
  · simp only [ha, Bool.not_true, Bool.false_eq_true, if_false]
    cases hf : findSpell b.m_spells spellInfo.Id with
    | none => exact ⟨fun h => h, fun x hx => hx, rfl⟩
    | some entry =>
      simp only
      by_cases hm : spellInfo.Id ∈ b.m_autospells
      · rw [if_pos hm]
        by_cases hd : entry.active = ActiveStates.ACT_DISABLED
        · simp only [hd, ne_eq, not_true_eq_false, if_false]
          exact ⟨fun h => h, fun x hx => List.mem_of_mem_erase hx, trivial⟩
        · simp only [ne_eq, hd, not_false_eq_true, if_true]
          refine ⟨fun _ => ?_, fun x hx => List.mem_of_mem_erase hx, trivial⟩
          rw [HasSpell_iff]
          refine ⟨setActive ActiveStates.ACT_DISABLED entry, ?_, (setActive_state _ _).1⟩
          rw [findSpell_modifySpell_self, hf]
          rfl
      · rw [if_neg hm]
        exact ⟨fun h => h, fun x hx => hx, rfl⟩
  · simp only [ha, Bool.not_false, if_true]
    exact ⟨fun h => h, fun x hx => hx, trivial⟩

/-- A successful `removeSpell` core: the spell is not known afterwards, no
other entry is written, and the autocast list is as before. -/
theorem removeSpellCore_known (w : SpellWorld) (level : Nat) (b : AbilityBook) (spell : Nat)
    (h : HasSpell b.m_spells spell = true) :
    ∃ b1, removeSpellCore w level b spell = some b1 ∧
      HasSpell b1.m_spells spell = false ∧
      (∀ other, other ≠ spell → findSpell b1.m_spells other = findSpell b.m_spells other) ∧
      b1.m_autospells = b.m_autospells := by
  obtain ⟨entry, hf, hs⟩ := (HasSpell_iff _ _).1 h
  have hkey : ∀ spells : PetSpellMap,
      spells = (if entry.state = PetSpellState.PETSPELL_NEW then eraseSpell b.m_spells spell
        else modifySpell b.m_spells spell
          (fun e => { e with state := PetSpellState.PETSPELL_REMOVED })) →
      HasSpell spells spell = false ∧
        ∀ other, other ≠ spell → findSpell spells other = findSpell b.m_spells other := by
    intro spells hsp
    subst hsp
    split_ifs with hn
    · refine ⟨?_, fun other ho => findSpell_eraseSpell_ne _ _ _ ho⟩
      unfold HasSpell
      rw [findSpell_eraseSpell_self]
    · refine ⟨?_, fun other ho => findSpell_modifySpell_ne _ _ _ _ ho⟩
      unfold HasSpell
      rw [findSpell_modifySpell_self, hf]
      rfl
  unfold removeSpellCore
  simp only [hf, hs, if_false]
  generalize hsp : (if entry.state = PetSpellState.PETSPELL_NEW then eraseSpell b.m_spells spell
        else modifySpell b.m_spells spell
          (fun e => { e with state := PetSpellState.PETSPELL_REMOVED })) = spells
  have hk := hkey spells hsp.symm
  split_ifs
  · exact ⟨_, rfl, hk.1, hk.2, rfl⟩
  · exact ⟨_, rfl, hk.1, hk.2, rfl⟩
  · exact ⟨_, rfl, hk.1, hk.2, rfl⟩

end Pet

namespace Pet

theorem scanRanks_finds (w : SpellWorld) (spellInfo oldInfo : SpellInfo) (old : Nat)
    (entry : PetSpell)
    (hinfo : w.GetSpellInfo old = some oldInfo)
    (hdiff : w.IsDifferentRankOf spellInfo oldInfo = true)
    (hhigh : w.IsHighRankOf spellInfo oldInfo = true)
    (hstate : entry.state ≠ PetSpellState.PETSPELL_REMOVED) :
    ∀ spells : PetSpellMap, findSpell spells old = some entry →
      (∀ e ∈ spells, e.1 ≠ old → e.2.state ≠ PetSpellState.PETSPELL_REMOVED →
        ∀ i, w.GetSpellInfo e.1 = some i → w.IsDifferentRankOf spellInfo i = false) →
      scanRanks w spellInfo spells = RankScan.replaceLower old entry oldInfo := by
  intro spells
  induction spells with
  | nil => intro hf; simp [findSpell] at hf
  | cons e rest ih =>
    intro hf hothers
    obtain ⟨spellID, petSpell⟩ := e
    rw [findSpell_cons] at hf
    unfold scanRanks
    by_cases hk : spellID = old
    · simp only [hk, if_true, Option.some.injEq] at hf
      subst hf
      subst hk
      simp only [hstate, if_false, hinfo, hdiff, hhigh, if_true]
    · simp only [hk, if_false] at hf
      have ih2 := ih hf (fun e he => hothers e (List.mem_cons_of_mem _ he))
      by_cases hr : petSpell.state = PetSpellState.PETSPELL_REMOVED
      · rw [if_pos hr]; exact ih2
      · rw [if_neg hr]
        cases hi : w.GetSpellInfo spellID with
        | none => exact ih2
        | some i =>
          have := hothers (spellID, petSpell) (List.mem_cons_self _ _) hk hr i hi
          simp only [this, Bool.false_eq_true, if_false]
          exact ih2

theorem addSpellFinish_true (w : SpellWorld) (level : Nat) (b : AbilityBook)
    (spellInfo : SpellInfo) (spellId : Nat) (newspell : PetSpell) :
    (addSpellFinish w level b spellInfo spellId newspell).2 = true := by
  unfold addSpellFinish
  simp only
  split_ifs <;> rfl

/-- The autocast list after the end of `addSpell` for a spell that had no
entry and was not in the list. -/
theorem addSpellFinish_autospells (w : SpellWorld) (level : Nat) (b : AbilityBook)
    (spellInfo : SpellInfo) (spellId : Nat) (newspell : PetSpell)
    (hid : spellInfo.Id = spellId)
    (hnew : findSpell b.m_spells spellId = none) (hauto : spellId ∉ b.m_autospells) :
    (addSpellFinish w level b spellInfo spellId newspell).1.m_autospells
      = if spellInfo.IsAutocastable = true ∧ newspell.active = ActiveStates.ACT_ENABLED
        then b.m_autospells ++ [spellId] else b.m_autospells := by
  have hassign : assignSpell b.m_spells spellId newspell = b.m_spells ++ [(spellId, newspell)] := by
    unfold assignSpell
    rw [hnew]
    rfl
  have hfind : findSpell (b.m_spells ++ [(spellId, newspell)]) spellInfo.Id = some newspell := by
    rw [hid]
    exact findSpell_append_new b.m_spells spellId newspell hnew
  have htoggle : (ToggleAutocast { b with m_spells := assignSpell b.m_spells spellId newspell }
      spellInfo (newspell.active == ActiveStates.ACT_ENABLED)).m_autospells
      = if spellInfo.IsAutocastable = true ∧ newspell.active = ActiveStates.ACT_ENABLED
        then b.m_autospells ++ [spellId] else b.m_autospells := by
    unfold ToggleAutocast
    rw [hassign]
    by_cases ha : spellInfo.IsAutocastable = true
    · simp only [ha, Bool.not_true, Bool.false_eq_true, if_false, hfind, true_and]
      by_cases he : newspell.active = ActiveStates.ACT_ENABLED
      · simp [he, hid, hauto]
      · simp [he, hid, hauto]
    · simp [ha]
  rw [← htoggle]
  unfold addSpellFinish
  simp only
  split_ifs <;> rfl

end Pet

namespace Pet

/-- The replacement branch of `addSpell`: the lower rank met by the scan is
unlearned and the new rank is inserted with its activation mode. -/
theorem addSpellNew_replace (w : SpellWorld) (level : Nat) (b : AbilityBook)
    (highInfo lowInfo : SpellInfo) (high low : Nat) (lowEntry : PetSpell)
    (active : ActiveStates) (state : PetSpellState) (type : PetSpellType)
    (hlowId : lowInfo.Id = low)
    (hnone : findSpell b.m_spells high = none) (hauto : high ∉ b.m_autospells)
    (hlowInfo : w.GetSpellInfo low = some lowInfo)
    (hlow : findSpell b.m_spells low = some lowEntry)
    (hlowState : lowEntry.state ≠ PetSpellState.PETSPELL_REMOVED)
    (htal : w.GetTalentSpellPos high = none) (hranked : highInfo.IsRanked = true)
    (hdiff : w.IsDifferentRankOf highInfo lowInfo = true)
    (hhigh : w.IsHighRankOf highInfo lowInfo = true)
    (hothers : ∀ e ∈ b.m_spells, e.1 ≠ low → e.2.state ≠ PetSpellState.PETSPELL_REMOVED →
      ∀ i, w.GetSpellInfo e.1 = some i → w.IsDifferentRankOf highInfo i = false) :
    ∃ b2, addSpellNew w level b highInfo high active state type
        = addSpellFinish w level b2 highInfo high
            { state := state, type := type, active := lowEntry.active } ∧
      HasSpell b2.m_spells low = false ∧ findSpell b2.m_spells high = none ∧
      high ∉ b2.m_autospells := by
  have hne : high ≠ low := by
    intro h
    rw [h, hlow] at hnone
    cases hnone
  have hscan := scanRanks_finds w highInfo lowInfo low lowEntry hlowInfo hdiff hhigh hlowState
    b.m_spells hlow hothers
  have hknown : HasSpell b.m_spells low = true := (HasSpell_iff _ _).2 ⟨lowEntry, hlow, hlowState⟩
  have hb1 : ∀ b1 : AbilityBook,
      b1 = (if lowEntry.active = ActiveStates.ACT_ENABLED then ToggleAutocast b lowInfo false
        else b) →
      HasSpell b1.m_spells low = true ∧ findSpell b1.m_spells high = none ∧
        high ∉ b1.m_autospells := by
    intro b1 hb
    subst hb
    split_ifs with he
    · have hoff := ToggleAutocast_off b lowInfo
      rw [hlowId] at hoff
      refine ⟨hoff.1 hknown, ?_, fun hmem => hauto (hoff.2.1 _ hmem)⟩
      rw [ToggleAutocast_other b lowInfo false high (by rw [hlowId]; exact hne)]
      exact hnone
    · exact ⟨hknown, hnone, hauto⟩
  unfold addSpellNew
  simp only [htal, hranked, if_true, hscan]
  generalize hgen : (if lowEntry.active = ActiveStates.ACT_ENABLED then
    ToggleAutocast b lowInfo false else b) = b1
  obtain ⟨h1, h2, h3⟩ := hb1 b1 hgen.symm
  obtain ⟨b3, hrem, hL3, hoth3, hauto3⟩ := removeSpellCore_known w level b1 low h1
  refine ⟨b3, ?_, hL3, by rw [hoth3 high hne]; exact h2, by rw [hauto3]; exact h3⟩
  rw [hrem]

end Pet

namespace Pet

theorem addSpellNew_replace_result (w : SpellWorld) (level : Nat) (b : AbilityBook)
    (highInfo lowInfo : SpellInfo) (high low : Nat) (lowEntry : PetSpell)
    (active : ActiveStates) (state : PetSpellState) (type : PetSpellType)
    (hhighId : highInfo.Id = high) (hlowId : lowInfo.Id = low)
    (hnone : findSpell b.m_spells high = none) (hauto : high ∉ b.m_autospells)
    (hlowInfo : w.GetSpellInfo low = some lowInfo)
    (hlow : findSpell b.m_spells low = some lowEntry)
    (hlowState : lowEntry.state ≠ PetSpellState.PETSPELL_REMOVED)
    (htal : w.GetTalentSpellPos high = none) (hranked : highInfo.IsRanked = true)
    (hdiff : w.IsDifferentRankOf highInfo lowInfo = true)
    (hhigh : w.IsHighRankOf highInfo lowInfo = true)
    (hothers : ∀ e ∈ b.m_spells, e.1 ≠ low → e.2.state ≠ PetSpellState.PETSPELL_REMOVED →
      ∀ i, w.GetSpellInfo e.1 = some i → w.IsDifferentRankOf highInfo i = false)
    (hstate : state ≠ PetSpellState.PETSPELL_REMOVED)
    (hcast : lowEntry.active = ActiveStates.ACT_ENABLED → highInfo.IsAutocastable = true) :
    (addSpellNew w level b highInfo high active state type).2 = true ∧
      HasSpell (addSpellNew w level b highInfo high active state type).1.m_spells low = false ∧
      HasSpell (addSpellNew w level b highInfo high active state type).1.m_spells high = true ∧
      (∃ e, findSpell (addSpellNew w level b highInfo high active state type).1.m_spells high
          = some e ∧ e.active = lowEntry.active) ∧
      (high ∈ (addSpellNew w level b highInfo high active state type).1.m_autospells ↔
        lowEntry.active = ActiveStates.ACT_ENABLED) := by
  have hne : low ≠ high := by
    intro h
    rw [← h, hlow] at hnone
    cases hnone
  obtain ⟨b2, heq, hL2, hH2, hauto2⟩ := addSpellNew_replace w level b highInfo lowInfo high low
    lowEntry active state type hlowId hnone hauto hlowInfo hlow hlowState htal hranked hdiff
    hhigh hothers
  rw [heq]
  have hfresh := addSpellFinish_fresh w level b2 highInfo high
    { state := state, type := type, active := lowEntry.active } hhighId
    ((findSpell_eq_none_iff _ _).1 hH2) hauto2
  have hautos := addSpellFinish_autospells w level b2 highInfo high
    { state := state, type := type, active := lowEntry.active } hhighId hH2 hauto2
  have hfindHigh : findSpell (addSpellFinish w level b2 highInfo high
      { state := state, type := type, active := lowEntry.active }).1.m_spells high
      = some { state := state, type := type, active := lowEntry.active } := by
    rw [hfresh.1]
    exact findSpell_append_new _ _ _ hH2
  refine ⟨addSpellFinish_true _ _ _ _ _ _, ?_, ?_, ⟨_, hfindHigh, rfl⟩, ?_⟩
  · rw [HasSpell_congr b2.m_spells _ low (by rw [hfresh.1]; exact findSpell_append_ne _ _ _ _ hne)]
    exact hL2
  · exact (HasSpell_iff _ _).2 ⟨_, hfindHigh, hstate⟩
  · rw [hautos]
    constructor
    · intro hmem
      split_ifs at hmem with hc
      · exact hc.2
      · exact absurd hmem hauto2
    · intro he
      rw [if_pos ⟨hcast he, he⟩]
      simp

/-- C14 (as stated) fails: with rank 2 (201) of the sample chain known and
autocast on, learning rank 3 (202) returns false and keeps rank 2 when rank 3
is known already; with rank 3 known and autocast on, learning rank 4 (203),
which cannot be set to autocast, leaves the autocast list empty; and with rank
2 known as a passive and a stale 202 in the autocast list, rank 3 is learned as
disabled, not passive. -/
theorem C14_counterexample :
    ((addSpell rankWorldSample 30
        { rankBookSample with
          m_spells := rankBookSample.m_spells ++
            [(202, { active := ActiveStates.ACT_DISABLED,
                     state := PetSpellState.PETSPELL_UNCHANGED })] } 202).2 = false ∧
      HasSpell (addSpell rankWorldSample 30
        { rankBookSample with
          m_spells := rankBookSample.m_spells ++
            [(202, { active := ActiveStates.ACT_DISABLED,
                     state := PetSpellState.PETSPELL_UNCHANGED })] } 202).1.m_spells 201 = true) ∧
    ((addSpell rankWorldSample 30
        { m_spells := [(202, { active := ActiveStates.ACT_ENABLED,
                               state := PetSpellState.PETSPELL_UNCHANGED })]
          m_autospells := [202] } 203).2 = true ∧
      (addSpell rankWorldSample 30
        { m_spells := [(202, { active := ActiveStates.ACT_ENABLED,
                               state := PetSpellState.PETSPELL_UNCHANGED })]
          m_autospells := [202] } 203).1.m_autospells = []) ∧
    findSpell (addSpell rankWorldSample 30
        { m_spells := [(201, { active := ActiveStates.ACT_PASSIVE,
                               state := PetSpellState.PETSPELL_UNCHANGED })]
          m_autospells := [202] } 202).1.m_spells 202
      = some { active := ActiveStates.ACT_DISABLED, state := PetSpellState.PETSPELL_NEW } := by
  decide

/-- C14 (amended): in a book in which a lower rank L of a non-talent ranked
spell is known with activation mode m, which has no entry for the higher rank
H other than one marked removed, no known entry besides L that is another rank
of H, and H not in the autocast list, `addSpell` of H (with a state other than
removed, as every caller passes) returns true, leaves L not known and H known
with activation mode m; and if H can be set to autocast whenever m is
"enabled", H is in the autocast list exactly when m is "enabled". -/
theorem C14_higher_rank_replaces (w : SpellWorld) (level : Nat) (b : AbilityBook)
    (highInfo lowInfo : SpellInfo) (high low : Nat) (lowEntry : PetSpell)
    (active : ActiveStates) (state : PetSpellState) (type : PetSpellType)
    (hhighInfo : w.GetSpellInfo high = some highInfo) (hhighId : highInfo.Id = high)
    (hlowInfo : w.GetSpellInfo low = some lowInfo) (hlowId : lowInfo.Id = low)
    (htal : w.GetTalentSpellPos high = none) (hranked : highInfo.IsRanked = true)
    (hdiff : w.IsDifferentRankOf highInfo lowInfo = true)
    (hhigh : w.IsHighRankOf highInfo lowInfo = true)
    (hlow : findSpell b.m_spells low = some lowEntry)
    (hlowState : lowEntry.state ≠ PetSpellState.PETSPELL_REMOVED)
    (hstate : state ≠ PetSpellState.PETSPELL_REMOVED)
    (hfree : ∀ e, findSpell b.m_spells high = some e → e.state = PetSpellState.PETSPELL_REMOVED)
    (hothers : ∀ e ∈ b.m_spells, e.1 ≠ low → e.2.state ≠ PetSpellState.PETSPELL_REMOVED →
      ∀ i, w.GetSpellInfo e.1 = some i → w.IsDifferentRankOf highInfo i = false)
    (hauto : high ∉ b.m_autospells)
    (hcast : lowEntry.active = ActiveStates.ACT_ENABLED → highInfo.IsAutocastable = true) :
    (addSpell w level b high active state type).2 = true ∧
      HasSpell (addSpell w level b high active state type).1.m_spells low = false ∧
      HasSpell (addSpell w level b high active state type).1.m_spells high = true ∧
      (∃ e, findSpell (addSpell w level b high active state type).1.m_spells high = some e ∧
        e.active = lowEntry.active) ∧
      (high ∈ (addSpell w level b high active state type).1.m_autospells ↔
        lowEntry.active = ActiveStates.ACT_ENABLED) := by
  cases hf : findSpell b.m_spells high with
  | none =>
    have hadd : addSpell w level b high active state type
        = addSpellNew w level b highInfo high active state type := by
      unfold addSpell
      simp only [hhighInfo, hf]
    rw [hadd]
    exact addSpellNew_replace_result w level b highInfo lowInfo high low lowEntry active state
      type hhighId hlowId hf hauto hlowInfo hlow hlowState htal hranked hdiff hhigh hothers
      hstate hcast
  | some e =>
    have hrem := hfree e hf
    have hne : low ≠ high := by
      intro h
      rw [h, hf] at hlow
      cases hlow
      exact hlowState hrem
    have hadd : addSpell w level b high active state type
        = addSpellNew w level { b with m_spells := eraseSpell b.m_spells high } highInfo high
            active PetSpellState.PETSPELL_CHANGED type := by
      unfold addSpell
      simp only [hhighInfo, hf, hrem, if_true]
    rw [hadd]
    exact addSpellNew_replace_result w level { b with m_spells := eraseSpell b.m_spells high }
      highInfo lowInfo high low lowEntry active PetSpellState.PETSPELL_CHANGED type hhighId
      hlowId (findSpell_eraseSpell_self _ _) hauto hlowInfo
      ((findSpell_eraseSpell_ne _ _ _ hne).trans hlow) hlowState htal hranked hdiff hhigh
      (fun e he => hothers e (List.mem_of_mem_filter he)) (by decide) hcast

/-- Witness of C14 (amended): rank 2 known with autocast on, rank 3 learned. -/
theorem C14_higher_rank_replaces_witness :
    (addSpell rankWorldSample 30 rankBookSample 202).2 = true ∧
      HasSpell (addSpell rankWorldSample 30 rankBookSample 202).1.m_spells 201 = false ∧
      HasSpell (addSpell rankWorldSample 30 rankBookSample 202).1.m_spells 202 = true ∧
      (202 ∈ (addSpell rankWorldSample 30 rankBookSample 202).1.m_autospells ↔
        ActiveStates.ACT_ENABLED = ActiveStates.ACT_ENABLED) := by
  have h := C14_higher_rank_replaces rankWorldSample 30 rankBookSample
    { Id := 202, IsRanked := true, IsAutocastable := true }
    { Id := 201, IsRanked := true, IsAutocastable := true } 202 201
    { active := ActiveStates.ACT_ENABLED, state := PetSpellState.PETSPELL_UNCHANGED }
    ActiveStates.ACT_DECIDE PetSpellState.PETSPELL_NEW PetSpellType.PETSPELL_NORMAL
    (by decide) rfl (by decide) rfl rfl rfl (by decide) (by decide) (by decide) (by decide)
    (by decide) (by decide) (by decide) (by decide) (fun _ => rfl)
  exact ⟨h.1, h.2.1, h.2.2.1, h.2.2.2.2⟩

end Pet

namespace Pet

theorem scanRanks_refuses (w : SpellWorld) (spellInfo oldInfo : SpellInfo) (old : Nat)
    (entry : PetSpell)
    (hinfo : w.GetSpellInfo old = some oldInfo)
    (hdiff : w.IsDifferentRankOf spellInfo oldInfo = true)
    (hhigh : w.IsHighRankOf spellInfo oldInfo = false)
    (hstate : entry.state ≠ PetSpellState.PETSPELL_REMOVED) :
    ∀ spells : PetSpellMap, findSpell spells old = some entry →
      (∀ e ∈ spells, e.1 ≠ old → e.2.state ≠ PetSpellState.PETSPELL_REMOVED →
        ∀ i, w.GetSpellInfo e.1 = some i → w.IsDifferentRankOf spellInfo i = false) →
      scanRanks w spellInfo spells = RankScan.ignoreLesser := by
  intro spells
  induction spells with
  | nil => intro hf; simp [findSpell] at hf
  | cons e rest ih =>
    intro hf hothers
    obtain ⟨spellID, petSpell⟩ := e
    rw [findSpell_cons] at hf
    unfold scanRanks
    by_cases hk : spellID = old
    · simp only [hk, if_true, Option.some.injEq] at hf
      subst hf
      subst hk
      simp only [hstate, if_false, hinfo, hdiff, hhigh, if_true, Bool.false_eq_true]
    · simp only [hk, if_false] at hf
      have ih2 := ih hf (fun e he => hothers e (List.mem_cons_of_mem _ he))
      by_cases hr : petSpell.state = PetSpellState.PETSPELL_REMOVED
      · rw [if_pos hr]; exact ih2
      · rw [if_neg hr]
        cases hi : w.GetSpellInfo spellID with
        | none => exact ih2
        | some i =>
          have := hothers (spellID, petSpell) (List.mem_cons_self _ _) hk hr i hi
          simp only [this, Bool.false_eq_true, if_false]
          exact ih2

/-- C15 (the claim fails on the code): `addSpell` of a lower rank L of a
non-talent ranked spell, while a higher rank H is known and is the other rank
the scan meets, returns false; the book is unchanged when L has no entry in it,
but an entry of L that is marked removed is erased before the refusal, so the
delete that the next flush would have written for L is lost. With rank 1 (200)
marked removed and rank 2 (201) new, `addSpell` of rank 1 returns false and
leaves only rank 2 in the book: the flush wrote a delete for 200 and an insert
for 201 before the call and writes only the insert after it. -/
theorem C15_lower_rank_refused (w : SpellWorld) (level : Nat) (b : AbilityBook)
    (highInfo lowInfo : SpellInfo) (high low : Nat) (highEntry : PetSpell)
    (active : ActiveStates) (state : PetSpellState) (type : PetSpellType)
    (hlowInfo : w.GetSpellInfo low = some lowInfo)
    (hhighInfo : w.GetSpellInfo high = some highInfo)
    (htal : w.GetTalentSpellPos low = none) (hranked : lowInfo.IsRanked = true)
    (hdiff : w.IsDifferentRankOf lowInfo highInfo = true)
    (hhigh : w.IsHighRankOf lowInfo highInfo = false)
    (hknown : findSpell b.m_spells high = some highEntry)
    (hknownState : highEntry.state ≠ PetSpellState.PETSPELL_REMOVED)
    (hothers : ∀ e ∈ b.m_spells, e.1 ≠ high → e.2.state ≠ PetSpellState.PETSPELL_REMOVED →
      ∀ i, w.GetSpellInfo e.1 = some i → w.IsDifferentRankOf lowInfo i = false) :
    (findSpell b.m_spells low = none →
      addSpell w level b low active state type = (b, false)) ∧
    ((∃ e, findSpell b.m_spells low = some e ∧ e.state = PetSpellState.PETSPELL_REMOVED) →
      addSpell w level b low active state type
        = ({ b with m_spells := eraseSpell b.m_spells low }, false)) ∧
    addSpell rankWorldSample 30
        { m_spells := [(200, { active := ActiveStates.ACT_DISABLED,
                               state := PetSpellState.PETSPELL_REMOVED }),
                       (201, { active := ActiveStates.ACT_DISABLED,
                               state := PetSpellState.PETSPELL_NEW })] } 200
      = ({ m_spells := [(201, { active := ActiveStates.ACT_DISABLED,
                                state := PetSpellState.PETSPELL_NEW })] }, false) ∧
    (_SaveSpells 1 [(200, { active := ActiveStates.ACT_DISABLED,
                            state := PetSpellState.PETSPELL_REMOVED }),
                    (201, { active := ActiveStates.ACT_DISABLED,
                            state := PetSpellState.PETSPELL_NEW })] []).2
      = [Stmt.CHAR_DEL_PET_SPELL_BY_SPELL 1 200,
         Stmt.CHAR_INS_PET_SPELL 1 201 ActiveStates.ACT_DISABLED] ∧
    (_SaveSpells 1 [(201, { active := ActiveStates.ACT_DISABLED,
                            state := PetSpellState.PETSPELL_NEW })] []).2
      = [Stmt.CHAR_INS_PET_SPELL 1 201 ActiveStates.ACT_DISABLED] := by
  have hrefuse : ∀ (b0 : AbilityBook) (state0 : PetSpellState),
      findSpell b0.m_spells high = some highEntry →
      (∀ e ∈ b0.m_spells, e.1 ≠ high → e.2.state ≠ PetSpellState.PETSPELL_REMOVED →
        ∀ i, w.GetSpellInfo e.1 = some i → w.IsDifferentRankOf lowInfo i = false) →
      addSpellNew w level b0 lowInfo low active state0 type = (b0, false) := by
    intro b0 state0 hk ho
    unfold addSpellNew
    simp only [htal, hranked, if_true,
      scanRanks_refuses w lowInfo highInfo high highEntry hhighInfo hdiff hhigh hknownState
        b0.m_spells hk ho]
  refine ⟨?_, ?_, by decide, by decide, by decide⟩
  · intro hnone
    unfold addSpell
    simp only [hlowInfo, hnone]
    exact hrefuse b state hknown hothers
  · rintro ⟨e, he, hrem⟩
    have hne : high ≠ low := by
      intro h
      rw [h, he] at hknown
      cases hknown
      exact hknownState hrem
    unfold addSpell
    simp only [hlowInfo, he, hrem, if_true]
    exact hrefuse { b with m_spells := eraseSpell b.m_spells low } PetSpellState.PETSPELL_CHANGED
      ((findSpell_eraseSpell_ne _ _ _ hne).trans hknown)
      (fun e he => hothers e (List.mem_of_mem_filter he))

/-- Witness of C15: rank 2 (201) known and no entry for rank 1 (200). -/
theorem C15_lower_rank_refused_witness :
    addSpell rankWorldSample 30 rankBookSample 200 = (rankBookSample, false) :=
  (C15_lower_rank_refused rankWorldSample 30 rankBookSample
    { Id := 201, IsRanked := true, IsAutocastable := true }
    { Id := 200, IsRanked := true, IsAutocastable := true } 201 200
    { active := ActiveStates.ACT_ENABLED, state := PetSpellState.PETSPELL_UNCHANGED }
    ActiveStates.ACT_DECIDE PetSpellState.PETSPELL_NEW PetSpellType.PETSPELL_NORMAL
    (by decide) (by decide) rfl rfl (by decide) (by decide) (by decide) (by decide)
    (by decide)).1 (by decide)

end Pet

namespace Pet

/-! ### Talent nodes -/

theorem ToggleAutocast_keeps_known (b : AbilityBook) (spellInfo : SpellInfo) (apply : Bool)
    (h : HasSpell b.m_spells spellInfo.Id = true) :
    HasSpell (ToggleAutocast b spellInfo apply).m_spells spellInfo.Id = true := by
  obtain ⟨entry, hf, hs⟩ := (HasSpell_iff _ _).1 h
  have hset : ∀ a, HasSpell (modifySpell b.m_spells spellInfo.Id (setActive a)) spellInfo.Id
      = true := by
    intro a
    rw [HasSpell_iff]
    refine ⟨setActive a entry, ?_, (setActive_state _ _).1⟩
    rw [findSpell_modifySpell_self, hf]
    rfl
  unfold ToggleAutocast
  by_cases ha : (!spellInfo.IsAutocastable) = true
  · rw [if_pos ha]; exact h
  · rw [if_neg ha]
    simp only [hf]
    split_ifs <;> first
      | exact h
      | exact hset _

/-- The talent loop of `addSpell` leaves no other rank of the node known,
makes nothing known and does not write the entry of the spell itself. -/
theorem unlearnOtherTalentRanks_spec (w : SpellWorld) (level spellId : Nat) :
    ∀ (ranks : List Nat) (b : AbilityBook),
      (∀ r ∈ ranks, r ≠ 0 → r ≠ spellId →
        HasSpell (unlearnOtherTalentRanks w level spellId ranks b).m_spells r = false) ∧
      (∀ k, HasSpell b.m_spells k = false →
        HasSpell (unlearnOtherTalentRanks w level spellId ranks b).m_spells k = false) ∧
      findSpell (unlearnOtherTalentRanks w level spellId ranks b).m_spells spellId
        = findSpell b.m_spells spellId := by
  intro ranks
  induction ranks with
  | nil =>
    intro b
    exact ⟨fun r hr => absurd hr (List.not_mem_nil r), fun k hk => hk, rfl⟩
  | cons r rest ih =>
    intro b
    unfold unlearnOtherTalentRanks
    by_cases h1 : r = 0 ∨ r = spellId
    · rw [if_pos h1]
      obtain ⟨i1, i2, i3⟩ := ih b
      refine ⟨fun r2 hr2 h0 hs => ?_, i2, i3⟩
      rcases List.mem_cons.1 hr2 with heq | hmem
      · subst heq
        exact absurd h1 (fun h => h.elim h0 hs)
      · exact i1 r2 hmem h0 hs
    · rw [if_neg h1]
      by_cases h2 : HasSpell b.m_spells r = true
      · simp only [h2, Bool.not_true, Bool.false_eq_true, if_false]
        obtain ⟨b1, hrem, hgone, hoth, _⟩ := removeSpellCore_known w level b r h2
        rw [hrem]
        simp only
        obtain ⟨i1, i2, i3⟩ := ih b1
        have hmono : ∀ k, HasSpell b.m_spells k = false → HasSpell b1.m_spells k = false := by
          intro k hk
          by_cases hkr : k = r
          · rw [hkr]; exact hgone
          · rw [HasSpell_congr b.m_spells b1.m_spells k (hoth k hkr)]; exact hk
        refine ⟨fun r2 hr2 h0 hs => ?_, fun k hk => i2 k (hmono k hk), ?_⟩
        · rcases List.mem_cons.1 hr2 with heq | hmem
          · subst heq
            exact i2 r2 hgone
          · exact i1 r2 hmem h0 hs
        · rw [i3]
          exact hoth spellId (fun h => h1 (Or.inr h.symm))
      · have h2f : HasSpell b.m_spells r = false := by simpa using h2
        simp only [h2f, Bool.not_false, if_true]
        obtain ⟨i1, i2, i3⟩ := ih b
        refine ⟨fun r2 hr2 h0 hs => ?_, i2, i3⟩
        rcases List.mem_cons.1 hr2 with heq | hmem
        · subst heq
          exact i2 r2 h2f
        · exact i1 r2 hmem h0 hs

/-- The end of `addSpell` for a spell without an entry: the spell is known
afterwards and no other entry is written. -/
theorem addSpellFinish_known (w : SpellWorld) (level : Nat) (b : AbilityBook)
    (spellInfo : SpellInfo) (spellId : Nat) (newspell : PetSpell)
    (hid : spellInfo.Id = spellId) (hnone : findSpell b.m_spells spellId = none)
    (hstate : newspell.state ≠ PetSpellState.PETSPELL_REMOVED) :
    HasSpell (addSpellFinish w level b spellInfo spellId newspell).1.m_spells spellId = true ∧
      ∀ other, other ≠ spellId →
        findSpell (addSpellFinish w level b spellInfo spellId newspell).1.m_spells other
          = findSpell b.m_spells other := by
  have hassign : assignSpell b.m_spells spellId newspell = b.m_spells ++ [(spellId, newspell)] := by
    unfold assignSpell
    rw [hnone]
    rfl
  have hspells : (addSpellFinish w level b spellInfo spellId newspell).1.m_spells
      = (ToggleAutocast { b with m_spells := b.m_spells ++ [(spellId, newspell)] } spellInfo
          (newspell.active == ActiveStates.ACT_ENABLED)).m_spells := by
    unfold addSpellFinish
    simp only [hassign]
    split_ifs <;> rfl
  rw [hspells]
  constructor
  · have hk : HasSpell ({ b with m_spells := b.m_spells ++ [(spellId, newspell)] } :
        AbilityBook).m_spells spellInfo.Id = true := by
      rw [HasSpell_iff]
      exact ⟨newspell, by rw [hid]; exact findSpell_append_new _ _ _ hnone, hstate⟩
    have := ToggleAutocast_keeps_known _ spellInfo
      (newspell.active == ActiveStates.ACT_ENABLED) hk
    rw [hid] at this
    exact this
  · intro other hne
    rw [ToggleAutocast_other _ spellInfo _ other (by rw [hid]; exact hne)]
    exact findSpell_append_ne _ _ _ _ hne

end Pet

namespace Pet

theorem addSpellNew_talent (w : SpellWorld) (level : Nat) (b : AbilityBook)
    (spellInfo : SpellInfo) (spellId talent : Nat) (talentInfo : TalentEntry)
    (active : ActiveStates) (state : PetSpellState) (type : PetSpellType)
    (hid : spellInfo.Id = spellId)
    (htal : w.GetTalentSpellPos spellId = some talent)
    (hnode : w.sTalentStore talent = some talentInfo)
    (hnone : findSpell b.m_spells spellId = none)
    (hstate : state ≠ PetSpellState.PETSPELL_REMOVED) :
    (∀ r ∈ talentInfo.RankID, r ≠ 0 → r ≠ spellId →
      HasSpell (addSpellNew w level b spellInfo spellId active state type).1.m_spells r = false) ∧
    HasSpell (addSpellNew w level b spellInfo spellId active state type).1.m_spells spellId
      = true := by
  have heq : ∃ newspell : PetSpell, newspell.state = state ∧
      addSpellNew w level b spellInfo spellId active state type
        = addSpellFinish w level (unlearnOtherTalentRanks w level spellId talentInfo.RankID b)
            spellInfo spellId newspell := by
    unfold addSpellNew
    simp only [htal, hnode]
    exact ⟨_, rfl, rfl⟩
  obtain ⟨newspell, hns, hrw⟩ := heq
  rw [hrw]
  obtain ⟨u1, _, u3⟩ := unlearnOtherTalentRanks_spec w level spellId talentInfo.RankID b
  obtain ⟨k1, k2⟩ := addSpellFinish_known w level
    (unlearnOtherTalentRanks w level spellId talentInfo.RankID b) spellInfo spellId newspell hid
    (u3.trans hnone) (by rw [hns]; exact hstate)
  refine ⟨fun r hr h0 hs => ?_, k1⟩
  rw [HasSpell_congr _ _ r (k2 r hs)]
  exact u1 r hr h0 hs

/-- C16: for a spell S of a talent node, after an `addSpell` of S that
returned true no other rank of the node is known (`HasSpell` is false for every
other non-zero `RankID` of the talent) and S itself is known. The state passed
is not "removed", as in every call of the sources. -/
theorem C16_talent_single_rank (w : SpellWorld) (level : Nat) (b : AbilityBook)
    (spellInfo : SpellInfo) (spellId talent : Nat) (talentInfo : TalentEntry)
    (active : ActiveStates) (state : PetSpellState) (type : PetSpellType)
    (hinfo : w.GetSpellInfo spellId = some spellInfo) (hid : spellInfo.Id = spellId)
    (htal : w.GetTalentSpellPos spellId = some talent)
    (hnode : w.sTalentStore talent = some talentInfo)
    (hstate : state ≠ PetSpellState.PETSPELL_REMOVED)
    (hret : (addSpell w level b spellId active state type).2 = true) :
    (∀ r ∈ talentInfo.RankID, r ≠ 0 → r ≠ spellId →
      HasSpell (addSpell w level b spellId active state type).1.m_spells r = false) ∧
    HasSpell (addSpell w level b spellId active state type).1.m_spells spellId = true := by
  cases hf : findSpell b.m_spells spellId with
  | none =>
    have hadd : addSpell w level b spellId active state type
        = addSpellNew w level b spellInfo spellId active state type := by
      unfold addSpell
      simp only [hinfo, hf]
    rw [hadd]
    exact addSpellNew_talent w level b spellInfo spellId talent talentInfo active state type hid
      htal hnode hf hstate
  | some e =>
    by_cases hrem : e.state = PetSpellState.PETSPELL_REMOVED
    · have hadd : addSpell w level b spellId active state type
          = addSpellNew w level { b with m_spells := eraseSpell b.m_spells spellId } spellInfo
              spellId active PetSpellState.PETSPELL_CHANGED type := by
        unfold addSpell
        simp only [hinfo, hf, hrem, if_true]
      rw [hadd]
      exact addSpellNew_talent w level { b with m_spells := eraseSpell b.m_spells spellId }
        spellInfo spellId talent talentInfo active PetSpellState.PETSPELL_CHANGED type hid htal
        hnode (findSpell_eraseSpell_self _ _) (by decide)
    · exfalso
      unfold addSpell at hret
      simp only [hinfo, hf, hrem, if_false] at hret
      split_ifs at hret

/-- Witness of C16: rank 1 (300) of the sample talent is known and rank 2
(301) is learned. -/
theorem C16_talent_single_rank_witness :
    (∀ r ∈ [300, 301, 302, 0, 0], r ≠ 0 → r ≠ 301 →
      HasSpell (addSpell talentWorldSample 30
        { m_spells := [(300, { active := ActiveStates.ACT_PASSIVE,
                               state := PetSpellState.PETSPELL_UNCHANGED })]
          m_usedTalentCount := 1 } 301).1.m_spells r = false) ∧
    HasSpell (addSpell talentWorldSample 30
        { m_spells := [(300, { active := ActiveStates.ACT_PASSIVE,
                               state := PetSpellState.PETSPELL_UNCHANGED })]
          m_usedTalentCount := 1 } 301).1.m_spells 301 = true :=
  C16_talent_single_rank talentWorldSample 30
    { m_spells := [(300, { active := ActiveStates.ACT_PASSIVE,
                           state := PetSpellState.PETSPELL_UNCHANGED })]
      m_usedTalentCount := 1 }
    { Id := 301 } 301 1 { TalentTab := 1, RankID := [300, 301, 302, 0, 0] }
    ActiveStates.ACT_DECIDE PetSpellState.PETSPELL_NEW PetSpellType.PETSPELL_NORMAL
    (by decide) rfl (by decide) (by decide) (by decide) (by decide)

end Pet

namespace Pet

/-! ### Talent points after a level change -/

theorem GetMaxTalentPointsForLevel_lt (w : SpellWorld) (level : Nat) :
    GetMaxTalentPointsForLevel w level < 256 := by
  unfold GetMaxTalentPointsForLevel
  exact Nat.mod_lt _ (by decide)

theorem GivePetLevel_book (w : World) (pet : Pet) (level : Nat)
    (hlevel : level ≠ 0 ∧ level ≠ pet.Level) :
    (GivePetLevel w pet level).book
      = InitTalentForLevel w.spells level
          (InitLevelupSpellsForLevel w.spells level pet.Entry pet.book) := by
  have hstats : ∀ p : Pet, (InitStatsForLevel w p level).1.Level = level ∧
      (InitStatsForLevel w p level).1.Entry = p.Entry ∧
      (InitStatsForLevel w p level).1.book = p.book := by
    intro p
    unfold InitStatsForLevel
    simp only
    split_ifs <;> exact ⟨rfl, rfl, rfl⟩
  unfold GivePetLevel
  rw [if_neg (fun h => h.elim hlevel.1 hlevel.2)]
  simp only
  by_cases ht : pet.m_petType = PetType.HUNTER_PET
  · rw [if_pos ht]
    obtain ⟨h1, h2, h3⟩ := hstats { pet with
      UNIT_FIELD_PETEXPERIENCE := 0
      UNIT_FIELD_PETNEXTLEVELEXP := w.PetNextLevelExp level }
    rw [h1, h2, h3]
  · rw [if_neg ht]
    obtain ⟨h1, h2, h3⟩ := hstats pet
    rw [h1, h2, h3]

theorem resetTalents_stopped (w : SpellWorld) (level : Nat) (b : AbilityBook)
    (hstop : w.CanResetTalents = false ∨ w.GetCreatureTemplate = none ∨
      (∃ ci, w.GetCreatureTemplate = some ci ∧
        (w.sCreatureFamilyStore ci.family = none ∨
          ∃ family, w.sCreatureFamilyStore ci.family = some family ∧
            family.petTalentType < 0))) :
    (resetTalents w level b).1 = b := by
  unfold resetTalents
  by_cases ho : (!(w.hasOwner && w.ownerIsPlayer)) = true
  · rw [if_pos ho]
  · rw [if_neg ho]
    rcases hstop with h | h | ⟨ci, hci, h⟩
    · simp [h]
    · by_cases hc : (!w.CanResetTalents) = true
      · rw [if_pos hc]
      · rw [if_neg hc]; simp only [h]
    · by_cases hc : (!w.CanResetTalents) = true
      · rw [if_pos hc]
      · rw [if_neg hc]
        simp only [hci]
        rcases h with h | ⟨family, hfam, hneg⟩
        · simp only [h]
        · simp only [hfam, hneg, if_true]

theorem knownSum_cons (q : Nat → Bool) (f : Nat → Nat) (e : Nat × PetSpell)
    (rest : PetSpellMap) :
    knownSum q f (e :: rest)
      = (if (e.2.state != PetSpellState.PETSPELL_REMOVED && q e.1) = true then f e.1 else 0)
        + knownSum q f rest := by
  unfold knownSum
  rw [List.map_cons, List.sum_cons]

theorem knownSum_one_le_length (q : Nat → Bool) (spells : PetSpellMap) :
    knownSum q (fun _ => 1) spells ≤ spells.length := by
  induction spells with
  | nil => exact Nat.le_refl 0
  | cons e rest ih =>
    rw [knownSum_cons, List.length_cons]
    split_ifs <;> omega

theorem knownSum_eq_zero (q : Nat → Bool) (f : Nat → Nat) (spells : PetSpellMap)
    (h : ∀ e ∈ spells, (e.2.state != PetSpellState.PETSPELL_REMOVED && q e.1) = false) :
    knownSum q f spells = 0 := by
  induction spells with
  | nil => rfl
  | cons e rest ih =>
    rw [knownSum_cons, ih (fun x hx => h x (List.mem_cons_of_mem _ hx)),
      h e (List.mem_cons_self _ _)]
    rfl

theorem knownSum_one_eq_zero (q : Nat → Bool) (spells : PetSpellMap)
    (h : knownSum q (fun _ => 1) spells = 0) :
    ∀ e ∈ spells, (e.2.state != PetSpellState.PETSPELL_REMOVED && q e.1) = false := by
  induction spells with
  | nil => intro e he; cases he
  | cons a rest ih =>
    rw [knownSum_cons] at h
    intro e he
    rcases List.mem_cons.1 he with rfl | hmem
    · by_contra hne
      rw [if_pos (by simpa using hne)] at h
      omega
    · exact ih (by omega) e hmem

theorem eraseSpell_of_not_mem (spells : PetSpellMap) (spell : Nat)
    (h : spell ∉ spells.map Prod.fst) : eraseSpell spells spell = spells := by
  unfold eraseSpell
  rw [List.filter_eq_self]
  intro e he
  have hne : e.1 ≠ spell := fun hEq => h (List.mem_map.2 ⟨e, he, hEq⟩)
  simpa using hne

theorem modifySpell_of_not_mem (spells : PetSpellMap) (spell : Nat) (f : PetSpell → PetSpell)
    (h : spell ∉ spells.map Prod.fst) : modifySpell spells spell f = spells := by
  unfold modifySpell
  conv_rhs => rw [← List.map_id spells]
  apply List.map_congr_left
  intro e he
  have hne : e.1 ≠ spell := fun hEq => h (List.mem_map.2 ⟨e, he, hEq⟩)
  simp [hne]

theorem eraseSpell_cons (e : Nat × PetSpell) (rest : PetSpellMap) (spell : Nat) :
    eraseSpell (e :: rest) spell
      = if e.1 = spell then eraseSpell rest spell else e :: eraseSpell rest spell := by
  unfold eraseSpell
  by_cases h : e.1 = spell
  · rw [if_pos h, List.filter_cons_of_neg (by simp [h])]
  · rw [if_neg h, List.filter_cons_of_pos (by simp [h])]

theorem modifySpell_cons (e : Nat × PetSpell) (rest : PetSpellMap) (spell : Nat)
    (f : PetSpell → PetSpell) :
    modifySpell (e :: rest) spell f
      = (if e.1 = spell then (e.1, f e.2) else e) :: modifySpell rest spell f := by
  unfold modifySpell
  rw [List.map_cons]
  by_cases h : e.1 = spell
  · simp [h]
  · simp [h]

theorem keys_modifySpell (spells : PetSpellMap) (spell : Nat) (f : PetSpell → PetSpell) :
    (modifySpell spells spell f).map Prod.fst = spells.map Prod.fst := by
  induction spells with
  | nil => rfl
  | cons e rest ih =>
    rw [modifySpell_cons, List.map_cons, List.map_cons, ih]
    split_ifs <;> rfl

theorem keys_eraseSpell_nodup (spells : PetSpellMap) (spell : Nat)
    (h : (spells.map Prod.fst).Nodup) : ((eraseSpell spells spell).map Prod.fst).Nodup := by
  unfold eraseSpell
  exact h.sublist ((List.filter_sublist _).map Prod.fst)

theorem knownSum_eraseSpell_le (q : Nat → Bool) (f : Nat → Nat) (spells : PetSpellMap)
    (spell : Nat) : knownSum q f (eraseSpell spells spell) ≤ knownSum q f spells := by
  induction spells with
  | nil => exact Nat.le_refl _
  | cons e rest ih =>
    rw [eraseSpell_cons, knownSum_cons]
    by_cases h : e.1 = spell
    · rw [if_pos h]; omega
    · rw [if_neg h, knownSum_cons]; omega

theorem knownSum_markRemoved_le (q : Nat → Bool) (f : Nat → Nat) (spells : PetSpellMap)
    (spell : Nat) :
    knownSum q f (modifySpell spells spell
        (fun e => { e with state := PetSpellState.PETSPELL_REMOVED }))
      ≤ knownSum q f spells := by
  induction spells with
  | nil => exact Nat.le_refl _
  | cons e rest ih =>
    rw [modifySpell_cons, knownSum_cons, knownSum_cons]
    by_cases h : e.1 = spell
    · rw [if_pos h]
      simp only [bne_self_eq_false, Bool.false_and, Bool.false_eq_true, if_false]
      omega
    · rw [if_neg h]; omega

/-- Erasing the entry of a known spell takes its weight off the sum, once:
a book has one entry for a spell. -/
theorem knownSum_eraseSpell_known (q : Nat → Bool) (f : Nat → Nat) (spells : PetSpellMap)
    (spell : Nat) (entry : PetSpell) (hnodup : (spells.map Prod.fst).Nodup)
    (hmem : (spell, entry) ∈ spells) (hknown : entry.state ≠ PetSpellState.PETSPELL_REMOVED)
    (hq : q spell = true) :
    knownSum q f (eraseSpell spells spell) + f spell = knownSum q f spells := by
  induction spells with
  | nil => cases hmem
  | cons e rest ih =>
    rw [List.map_cons, List.nodup_cons] at hnodup
    rw [eraseSpell_cons, knownSum_cons]
    by_cases h : e.1 = spell
    · rw [if_pos h]
      have hnot : spell ∉ rest.map Prod.fst := by rw [← h]; exact hnodup.1
      have he : e = (spell, entry) := by
        rcases List.mem_cons.1 hmem with hEq | hrest
        · exact hEq.symm
        · exact absurd (List.mem_map.2 ⟨(spell, entry), hrest, rfl⟩) hnot
      rw [eraseSpell_of_not_mem rest spell hnot, he]
      simp only [hq, Bool.and_true, bne_iff_ne, ne_eq, hknown, not_false_eq_true, if_true]
      omega
    · rw [if_neg h, knownSum_cons]
      have hrest : (spell, entry) ∈ rest := by
        rcases List.mem_cons.1 hmem with hEq | hrest
        · exact absurd (by rw [← hEq]) h
        · exact hrest
      have := ih hnodup.2 hrest
      omega

/-- Marking the entry of a known spell removed takes its weight off the sum,
once. -/
theorem knownSum_markRemoved_known (q : Nat → Bool) (f : Nat → Nat) (spells : PetSpellMap)
    (spell : Nat) (entry : PetSpell) (hnodup : (spells.map Prod.fst).Nodup)
    (hmem : (spell, entry) ∈ spells) (hknown : entry.state ≠ PetSpellState.PETSPELL_REMOVED)
    (hq : q spell = true) :
    knownSum q f (modifySpell spells spell
        (fun e => { e with state := PetSpellState.PETSPELL_REMOVED })) + f spell
      = knownSum q f spells := by
  induction spells with
  | nil => cases hmem
  | cons e rest ih =>
    rw [List.map_cons, List.nodup_cons] at hnodup
    rw [modifySpell_cons, knownSum_cons, knownSum_cons]
    by_cases h : e.1 = spell
    · rw [if_pos h]
      have hnot : spell ∉ rest.map Prod.fst := by rw [← h]; exact hnodup.1
      have he : e = (spell, entry) := by
        rcases List.mem_cons.1 hmem with hEq | hrest
        · exact hEq.symm
        · exact absurd (List.mem_map.2 ⟨(spell, entry), hrest, rfl⟩) hnot
      rw [modifySpell_of_not_mem rest spell _ hnot, he]
      simp only [hq, Bool.and_true, bne_iff_ne, ne_eq, hknown, not_false_eq_true, if_true,
        bne_self_eq_false, Bool.false_eq_true, if_false]
      omega
    · rw [if_neg h]
      have hrest : (spell, entry) ∈ rest := by
        rcases List.mem_cons.1 hmem with hEq | hrest
        · exact absurd (by rw [← hEq]) h
        · exact hrest
      have := ih hnodup.2 hrest
      omega

theorem findSpell_of_mem_nodup (spells : PetSpellMap) (spell : Nat) (entry : PetSpell)
    (hnodup : (spells.map Prod.fst).Nodup) (hmem : (spell, entry) ∈ spells) :
    findSpell spells spell = some entry := by
  induction spells with
  | nil => cases hmem
  | cons e rest ih =>
    rw [List.map_cons, List.nodup_cons] at hnodup
    rw [findSpell_cons]
    by_cases h : e.1 = spell
    · have hnot : spell ∉ rest.map Prod.fst := by rw [← h]; exact hnodup.1
      have he : e = (spell, entry) := by
        rcases List.mem_cons.1 hmem with hEq | hrest
        · exact hEq.symm
        · exact absurd (List.mem_map.2 ⟨(spell, entry), hrest, rfl⟩) hnot
      simp [he]
    · have hrest : (spell, entry) ∈ rest := by
        rcases List.mem_cons.1 hmem with hEq | hrest
        · exact absurd (by rw [← hEq]) h
        · exact hrest
      simp [h, ih hnodup.2 hrest]

/-- One step of the reset: unlearning a known spell of a book with one entry
per spell takes its talent cost off the used points, saturating at 0, and its
weight off every sum over the known entries. -/
theorem unlearnSpell_known_step (w : SpellWorld) (level : Nat) (b : AbilityBook) (spell : Nat)
    (entry : PetSpell) (hnodup : (b.m_spells.map Prod.fst).Nodup)
    (hmem : (spell, entry) ∈ b.m_spells)
    (hknown : entry.state ≠ PetSpellState.PETSPELL_REMOVED) :
    ((unlearnSpell w level b spell false).1.m_spells.map Prod.fst).Nodup ∧
      (unlearnSpell w level b spell false).1.m_usedTalentCount
        = b.m_usedTalentCount - w.GetTalentSpellCost spell ∧
      (∀ (q : Nat → Bool) (f : Nat → Nat),
        knownSum q f (unlearnSpell w level b spell false).1.m_spells
          ≤ knownSum q f b.m_spells) ∧
      (∀ (q : Nat → Bool) (f : Nat → Nat), q spell = true →
        knownSum q f (unlearnSpell w level b spell false).1.m_spells + f spell
          = knownSum q f b.m_spells) := by
  have hfind := findSpell_of_mem_nodup b.m_spells spell entry hnodup hmem
  have hcore : ∃ b1, removeSpellCore w level b spell = some b1 ∧
      b1.m_spells = (if entry.state = PetSpellState.PETSPELL_NEW then
          eraseSpell b.m_spells spell
        else modifySpell b.m_spells spell
          (fun e => { e with state := PetSpellState.PETSPELL_REMOVED })) ∧
      b1.m_usedTalentCount = b.m_usedTalentCount - w.GetTalentSpellCost spell := by
    unfold removeSpellCore
    rw [hfind]
    simp only
    rw [if_neg hknown]
    by_cases hc : w.GetTalentSpellCost spell > 0
    · rw [if_pos hc]
      refine ⟨_, rfl, rfl, ?_⟩
      simp only
      split_ifs <;> omega
    · rw [if_neg hc]
      refine ⟨_, rfl, rfl, ?_⟩
      simp only
      omega
  obtain ⟨b1, hb1, hspells, hused⟩ := hcore
  have hun : (unlearnSpell w level b spell false).1 = b1 := by
    unfold unlearnSpell removeSpell
    rw [hb1]
    rfl
  rw [hun, hspells, hused]
  by_cases hnew : entry.state = PetSpellState.PETSPELL_NEW
  · rw [if_pos hnew]
    exact ⟨keys_eraseSpell_nodup _ _ hnodup, rfl,
      fun q f => knownSum_eraseSpell_le q f _ _,
      fun q f hq => knownSum_eraseSpell_known q f _ _ entry hnodup hmem hknown hq⟩
  · rw [if_neg hnew]
    refine ⟨?_, rfl, fun q f => knownSum_markRemoved_le q f _ _,
      fun q f hq => knownSum_markRemoved_known q f _ _ entry hnodup hmem hknown hq⟩
    rw [keys_modifySpell]
    exact hnodup

/-- The scan of `resetTalents` for one rank spell `r`: with fuel for every
known entry whose first rank is `r`, none of them is left known; the used
points stay covered by the costs of the known entries that satisfy `q`, as long
as `q` holds for the spells of first rank `r`. -/
theorem resetTalentSpell_spec (w : SpellWorld) (level r : Nat) (q : Nat → Bool)
    (hq : ∀ spell, w.GetFirstSpellInChain spell = r → q spell = true) :
    ∀ (fuel : Nat) (b : AbilityBook), (b.m_spells.map Prod.fst).Nodup →
      knownSum (fun spell => w.GetFirstSpellInChain spell == r) (fun _ => 1) b.m_spells ≤ fuel →
      b.m_usedTalentCount ≤ knownSum q w.GetTalentSpellCost b.m_spells →
      ((resetTalentSpell w level r fuel b).m_spells.map Prod.fst).Nodup ∧
        (resetTalentSpell w level r fuel b).m_usedTalentCount
          ≤ knownSum q w.GetTalentSpellCost (resetTalentSpell w level r fuel b).m_spells ∧
        knownSum (fun spell => w.GetFirstSpellInChain spell == r) (fun _ => 1)
          (resetTalentSpell w level r fuel b).m_spells = 0 ∧
        (∀ (q2 : Nat → Bool) (f2 : Nat → Nat),
          knownSum q2 f2 (resetTalentSpell w level r fuel b).m_spells
            ≤ knownSum q2 f2 b.m_spells) := by
  intro fuel
  induction fuel with
  | zero =>
    intro b hnodup hfuel hcover
    exact ⟨hnodup, hcover, Nat.le_zero.1 hfuel, fun _ _ => Nat.le_refl _⟩
  | succ fuel ih =>
    intro b hnodup hfuel hcover
    unfold resetTalentSpell
    cases hfound : b.m_spells.find? (fun e =>
        e.2.state != PetSpellState.PETSPELL_REMOVED &&
          w.GetFirstSpellInChain e.1 == r) with
    | none =>
      simp only
      refine ⟨hnodup, hcover, ?_, fun _ _ => Nat.le_refl _⟩
      apply knownSum_eq_zero
      intro e he
      have := List.find?_eq_none.1 hfound e he
      simpa using this
    | some e =>
      simp only
      have hp := List.find?_some hfound
      have hmem : (e.1, e.2) ∈ b.m_spells := List.mem_of_find?_eq_some hfound
      simp only [Bool.and_eq_true, bne_iff_ne, ne_eq, beq_iff_eq] at hp
      obtain ⟨h1, h2, h3, h4⟩ := unlearnSpell_known_step w level b e.1 e.2 hnodup hmem hp.1
      have hone : knownSum (fun spell => w.GetFirstSpellInChain spell == r) (fun _ => 1)
            (unlearnSpell w level b e.1 false).1.m_spells + 1
          = knownSum (fun spell => w.GetFirstSpellInChain spell == r) (fun _ => 1)
            b.m_spells :=
        h4 (fun spell => w.GetFirstSpellInChain spell == r) (fun _ => 1)
          (by simpa using hp.2)
      have hcost := h4 q w.GetTalentSpellCost (hq e.1 hp.2)
      obtain ⟨r1, r2, r3, r4⟩ := ih (unlearnSpell w level b e.1 false).1 h1
        (by omega) (by rw [h2]; omega)
      exact ⟨r1, r2, r3, fun q2 f2 => Nat.le_trans (r4 q2 f2) (h3 q2 f2)⟩

/-- The loop of `resetTalents` over the rank spells of a talent. -/
theorem resetTalentRanks_spec (w : SpellWorld) (level : Nat) (q : Nat → Bool) :
    ∀ (ranks : List Nat) (b : AbilityBook),
      (∀ r ∈ ranks, ∀ spell, w.GetFirstSpellInChain spell = r → q spell = true) →
      (b.m_spells.map Prod.fst).Nodup →
      b.m_usedTalentCount ≤ knownSum q w.GetTalentSpellCost b.m_spells →
      ((resetTalentRanks w level ranks b).m_spells.map Prod.fst).Nodup ∧
        (resetTalentRanks w level ranks b).m_usedTalentCount
          ≤ knownSum q w.GetTalentSpellCost (resetTalentRanks w level ranks b).m_spells ∧
        (∀ r ∈ ranks,
          knownSum (fun spell => w.GetFirstSpellInChain spell == r) (fun _ => 1)
            (resetTalentRanks w level ranks b).m_spells = 0) ∧
        (∀ (q2 : Nat → Bool) (f2 : Nat → Nat),
          knownSum q2 f2 (resetTalentRanks w level ranks b).m_spells
            ≤ knownSum q2 f2 b.m_spells) := by
  intro ranks
  induction ranks with
  | nil =>
    intro b _ hnodup hcover
    exact ⟨hnodup, hcover, (fun r hr => absurd hr (List.not_mem_nil r)),
      fun _ _ => Nat.le_refl _⟩
  | cons r rest ih =>
    intro b hq hnodup hcover
    unfold resetTalentRanks
    obtain ⟨s1, s2, s3, s4⟩ := resetTalentSpell_spec w level r q
      (hq r (List.mem_cons_self _ _)) b.m_spells.length b hnodup
      (knownSum_one_le_length _ _) hcover
    obtain ⟨r1, r2, r3, r4⟩ := ih (resetTalentSpell w level r b.m_spells.length b)
      (fun x hx => hq x (List.mem_cons_of_mem _ hx)) s1 s2
    refine ⟨r1, r2, ?_, fun q2 f2 => Nat.le_trans (r4 q2 f2) (s4 q2 f2)⟩
    intro x hx
    rcases List.mem_cons.1 hx with rfl | hmem
    · have := r4 (fun spell => w.GetFirstSpellInChain spell == x) (fun _ => 1)
      omega
    · exact r3 x hmem

theorem resetTalentRanks_append (w : SpellWorld) (level : Nat) (ranks more : List Nat)
    (b : AbilityBook) :
    resetTalentRanks w level (ranks ++ more) b
      = resetTalentRanks w level more (resetTalentRanks w level ranks b) := by
  induction ranks generalizing b with
  | nil => rfl
  | cons r rest ih =>
    rw [List.cons_append]
    show resetTalentRanks w level (rest ++ more) (resetTalentSpell w level r b.m_spells.length b)
      = resetTalentRanks w level more
          (resetTalentRanks w level rest (resetTalentSpell w level r b.m_spells.length b))
    exact ih _

/-- The loop of `resetTalents` over the talent store is the loop over the rank
spells of the rows it does not skip. -/
theorem resetTalentRows_eq (w : SpellWorld) (level : Nat) (petTalentType : Int) :
    ∀ (n i : Nat) (b : AbilityBook),
      resetTalentRows w level petTalentType n i b
        = resetTalentRanks w level (resetRankSpells w petTalentType n i) b := by
  intro n
  induction n with
  | zero => intro i b; rfl
  | succ n ih =>
    intro i b
    unfold resetTalentRows resetRankSpells
    cases w.sTalentStore i with
    | none => exact ih _ _
    | some talentInfo =>
      simp only
      cases w.sTalentTabStore talentInfo.TalentTab with
      | none => exact ih _ _
      | some petTalentMask =>
        simp only
        by_cases hmask : (1 <<< petTalentType.toNat) &&& petTalentMask = 0
        · rw [if_pos hmask, if_pos hmask]
          exact ih _ _
        · rw [if_neg hmask, if_neg hmask, resetTalentRanks_append]
          exact ih _ _

/-- A full reset that no guard stops, on a book with one entry per spell whose
used points are covered by the costs of the known talents of the tree of the
pet, leaves no used point. -/
theorem resetTalents_allowed_used (w : SpellWorld) (level : Nat) (b : AbilityBook)
    (hown : w.hasOwner = true ∧ w.ownerIsPlayer = true)
    (hallowed : resetTalentsAllowed w = true)
    (hnodup : (b.m_spells.map Prod.fst).Nodup)
    (hcover : b.m_usedTalentCount ≤ resetTalentCost w b.m_spells) :
    (resetTalents w level b).1.m_usedTalentCount = 0 := by
  unfold resetTalentsAllowed at hallowed
  unfold resetTalentCost at hcover
  unfold resetTalents
  rw [Bool.and_eq_true] at hallowed
  obtain ⟨hhook, hrest⟩ := hallowed
  simp only [hown.1, hown.2, hhook, Bool.and_self, Bool.not_true, Bool.false_eq_true, if_false]
  cases hci : w.GetCreatureTemplate with
  | none => rw [hci] at hrest; simp at hrest
  | some ci =>
    rw [hci] at hrest hcover
    simp only at hrest hcover ⊢
    cases hfam : w.sCreatureFamilyStore ci.family with
    | none => rw [hfam] at hrest; simp at hrest
    | some pet_family =>
      rw [hfam] at hrest hcover
      simp only [decide_eq_true_eq] at hrest hcover ⊢
      rw [if_neg (by omega)]
      by_cases hzero : b.m_usedTalentCount = 0
      · rw [if_pos hzero]
        exact hzero
      · rw [if_neg hzero]
        show (resetTalentRows w level pet_family.petTalentType w.sTalentStoreNumRows 0
          b).m_usedTalentCount = 0
        rw [resetTalentRows_eq]
        obtain ⟨_, r2, r3, _⟩ := resetTalentRanks_spec w level
          (fun spell =>
            (resetRankSpells w pet_family.petTalentType w.sTalentStoreNumRows 0).contains
              (w.GetFirstSpellInChain spell))
          (resetRankSpells w pet_family.petTalentType w.sTalentStoreNumRows 0) b
          (fun r hr spell hspell => by
            simp only [hspell]
            simpa using hr)
          hnodup hcover
        rw [knownSum_eq_zero] at r2
        · omega
        · intro e he
          by_contra hne
          simp only [Bool.not_eq_false, Bool.and_eq_true] at hne
          have hz := knownSum_one_eq_zero _ _ (r3 _ (by simpa using hne.2)) e he
          simp only [beq_self_eq_true, Bool.and_true] at hz
          rw [hz] at hne
          exact absurd hne.1 (by decide)

theorem resetTalents_not_allowed (w : SpellWorld) (level : Nat) (b : AbilityBook)
    (hstop : resetTalentsAllowed w = false) : (resetTalents w level b).1 = b := by
  apply resetTalents_stopped
  unfold resetTalentsAllowed at hstop
  cases hhook : w.CanResetTalents with
  | false => exact Or.inl rfl
  | true =>
    rw [hhook] at hstop
    cases hci : w.GetCreatureTemplate with
    | none => exact Or.inr (Or.inl rfl)
    | some ci =>
      rw [hci] at hstop
      simp only [Bool.true_and] at hstop
      refine Or.inr (Or.inr ⟨ci, rfl, ?_⟩)
      cases hfam : w.sCreatureFamilyStore ci.family with
      | none => exact Or.inl rfl
      | some pet_family =>
        rw [hfam] at hstop
        simp only [decide_eq_false_iff_not, not_le] at hstop
        exact Or.inr ⟨pet_family, rfl, hstop⟩

/-- C17 (as stated) fails, in two ways. A pet of level 24 that knows rank 301
of the sample talent node (cost 2) with 2 used points, owned by a player, is
given level 20, where the maximum is 1 point. (1) While the script hook does
not allow a talent reset, 2 points are still used afterwards (and the free
points are 255). (2) While the talent belongs to the tree of another pet talent
type, the reset runs without a guard stopping it and unlearns nothing: 2 points
are still used. -/
theorem C17_counterexample :
    GetMaxTalentPointsForLevel talentTreeWorldSample 20 = 1 ∧
    ((GivePetLevel
        { worldSample with spells := { talentTreeWorldSample with CanResetTalents := false } }
        { savedPetSample with Level := 24, book := talentBookSample } 20).Level,
      (GivePetLevel
        { worldSample with spells := { talentTreeWorldSample with CanResetTalents := false } }
        { savedPetSample with Level := 24, book := talentBookSample }
        20).book.m_usedTalentCount,
      (GivePetLevel
        { worldSample with spells := { talentTreeWorldSample with CanResetTalents := false } }
        { savedPetSample with Level := 24, book := talentBookSample }
        20).book.FreeTalentPoints) = (20, 2, 255) ∧
    resetTalentsAllowed
      { talentTreeWorldSample with
        sTalentTabStore := fun tab => if tab = 1 then some 2 else none } = true ∧
    ((GivePetLevel
        { worldSample with
          spells := { talentTreeWorldSample with
            sTalentTabStore := fun tab => if tab = 1 then some 2 else none } }
        { savedPetSample with Level := 24, book := talentBookSample } 20).Level,
      (GivePetLevel
        { worldSample with
          spells := { talentTreeWorldSample with
            sTalentTabStore := fun tab => if tab = 1 then some 2 else none } }
        { savedPetSample with Level := 24, book := talentBookSample }
        20).book.m_usedTalentCount) = (20, 2) := by
  refine ⟨by decide, by decide, by decide, by decide⟩

/-- C17 (amended): `GivePetLevel` to a new level (not 0, not the current one)
on a pet with a player owner ends in `InitTalentForLevel` on the book left by
the level-up ability pass. If the maximum for the new level is not 0 and the
used count is at most the maximum, the count is kept, and used ≤ maximum and
free = maximum - used hold. Otherwise `resetTalents` is called: when none of
its guards stops it (script hook, creature template, family with a talent
tree) and the used count is covered by the talent costs of the known entries
the reset unlearns, in a book with one entry per spell, no point is left used,
so used ≤ maximum and free = maximum - used hold; when a guard stops it the
used count is kept. Whenever the count left is at most the maximum, the free
points are maximum - used. -/
theorem C17_talent_points_after_level (w : World) (pet : Pet) (level : Nat)
    (before : AbilityBook)
    (hlevel : level ≠ 0 ∧ level ≠ pet.Level)
    (hown : w.spells.hasOwner = true ∧ w.spells.ownerIsPlayer = true)
    (hbefore : before = InitLevelupSpellsForLevel w.spells level pet.Entry pet.book) :
    (GetMaxTalentPointsForLevel w.spells level ≠ 0 ∧
        before.m_usedTalentCount ≤ GetMaxTalentPointsForLevel w.spells level →
      (GivePetLevel w pet level).book.m_usedTalentCount = before.m_usedTalentCount ∧
      (GivePetLevel w pet level).book.m_usedTalentCount
        ≤ GetMaxTalentPointsForLevel w.spells level ∧
      (GivePetLevel w pet level).book.FreeTalentPoints
        = GetMaxTalentPointsForLevel w.spells level
          - (GivePetLevel w pet level).book.m_usedTalentCount) ∧
    (GetMaxTalentPointsForLevel w.spells level = 0 ∨
        before.m_usedTalentCount > GetMaxTalentPointsForLevel w.spells level →
      resetTalentsAllowed w.spells = true →
      (before.m_spells.map Prod.fst).Nodup →
      before.m_usedTalentCount ≤ resetTalentCost w.spells before.m_spells →
      (GivePetLevel w pet level).book.m_usedTalentCount = 0 ∧
      (GivePetLevel w pet level).book.m_usedTalentCount
        ≤ GetMaxTalentPointsForLevel w.spells level ∧
      (GivePetLevel w pet level).book.FreeTalentPoints
        = GetMaxTalentPointsForLevel w.spells level
          - (GivePetLevel w pet level).book.m_usedTalentCount) ∧
    (GetMaxTalentPointsForLevel w.spells level = 0 ∨
        before.m_usedTalentCount > GetMaxTalentPointsForLevel w.spells level →
      resetTalentsAllowed w.spells = false →
      (GivePetLevel w pet level).book.m_usedTalentCount = before.m_usedTalentCount) ∧
    ((GivePetLevel w pet level).book.m_usedTalentCount
        ≤ GetMaxTalentPointsForLevel w.spells level →
      (GivePetLevel w pet level).book.FreeTalentPoints
        = GetMaxTalentPointsForLevel w.spells level
          - (GivePetLevel w pet level).book.m_usedTalentCount) := by
  have hbook := GivePetLevel_book w pet level hlevel
  rw [← hbefore] at hbook
  have hlt := GetMaxTalentPointsForLevel_lt w.spells level
  have hu : UINT32 = 4294967296 := rfl
  have hinit : InitTalentForLevel w.spells level before
      = { (if GetMaxTalentPointsForLevel w.spells level = 0 ∨
            before.m_usedTalentCount > GetMaxTalentPointsForLevel w.spells level
          then (resetTalents w.spells level before).1 else before) with
          FreeTalentPoints :=
            (GetMaxTalentPointsForLevel w.spells level + UINT32
              - (if GetMaxTalentPointsForLevel w.spells level = 0 ∨
                  before.m_usedTalentCount > GetMaxTalentPointsForLevel w.spells level
                then (resetTalents w.spells level before).1 else before).m_usedTalentCount
                % UINT32) % UINT32 % 256 } := by
    unfold InitTalentForLevel
    simp only [hown.1, hown.2, Bool.and_self, Bool.not_true, Bool.false_eq_true, if_false]
  have hfree : (GivePetLevel w pet level).book.m_usedTalentCount
        ≤ GetMaxTalentPointsForLevel w.spells level →
      (GivePetLevel w pet level).book.FreeTalentPoints
        = GetMaxTalentPointsForLevel w.spells level
          - (GivePetLevel w pet level).book.m_usedTalentCount := by
    rw [hbook, hinit]
    intro hle
    simp only at hle ⊢
    rw [hu]
    omega
  have hused : (GivePetLevel w pet level).book.m_usedTalentCount
      = (if GetMaxTalentPointsForLevel w.spells level = 0 ∨
            before.m_usedTalentCount > GetMaxTalentPointsForLevel w.spells level
          then (resetTalents w.spells level before).1 else before).m_usedTalentCount := by
    rw [hbook, hinit]
  refine ⟨?_, ?_, ?_, hfree⟩
  · intro hle
    have hno : ¬ (GetMaxTalentPointsForLevel w.spells level = 0 ∨
        before.m_usedTalentCount > GetMaxTalentPointsForLevel w.spells level) := by omega
    have hkept : (GivePetLevel w pet level).book.m_usedTalentCount
        = before.m_usedTalentCount := by rw [hused, if_neg hno]
    have hle2 : (GivePetLevel w pet level).book.m_usedTalentCount
        ≤ GetMaxTalentPointsForLevel w.spells level := by rw [hkept]; exact hle.2
    exact ⟨hkept, hle2, hfree hle2⟩
  · intro hreset hallowed hkeys hcover
    have hzero : (GivePetLevel w pet level).book.m_usedTalentCount = 0 := by
      rw [hused, if_pos hreset]
      exact resetTalents_allowed_used w.spells level before hown hallowed hkeys hcover
    have hle2 : (GivePetLevel w pet level).book.m_usedTalentCount
        ≤ GetMaxTalentPointsForLevel w.spells level := by rw [hzero]; exact Nat.zero_le _
    exact ⟨hzero, hle2, hfree hle2⟩
  · intro hreset hstop
    rw [hused, if_pos hreset, resetTalents_not_allowed w.spells level before hstop]

/-- Witness of C17 (amended): the sample pet of level 24 that knows rank 301
(cost 2) with 2 used points is given level 20, where the maximum is 1: the
reset unlearns the talent, no point stays used and 1 is free. -/
theorem C17_talent_points_after_level_witness :
    (GivePetLevel { worldSample with spells := talentTreeWorldSample }
        { savedPetSample with Level := 24, book := talentBookSample }
        20).book.m_usedTalentCount = 0 ∧
      (GivePetLevel { worldSample with spells := talentTreeWorldSample }
        { savedPetSample with Level := 24, book := talentBookSample }
        20).book.FreeTalentPoints = 1 ∧
      HasSpell (GivePetLevel { worldSample with spells := talentTreeWorldSample }
        { savedPetSample with Level := 24, book := talentBookSample }
        20).book.m_spells 301 = false := by
  have h := (C17_talent_points_after_level
    { worldSample with spells := talentTreeWorldSample }
    { savedPetSample with Level := 24, book := talentBookSample } 20
    (InitLevelupSpellsForLevel talentTreeWorldSample 20 savedPetSample.Entry talentBookSample)
    (by decide) (by decide) rfl).2.1 (by decide) (by decide) (by decide) (by decide)
  refine ⟨h.1, ?_, by decide⟩
  rw [h.2.2, h.1]
  decide

end Pet

namespace Pet

/-! ### The deferred cast -/

/-- C18 (as stated) fails: on a pet whose stored request has the fallback
target 6, `CastWhenWillAvailable(77, 8, nullptr, false)` stores (77, 8, 6,
false): the fallback target of the earlier request is kept. -/
theorem C18_counterexample :
    deferredRequest pendingPetSample = (55, some 5, some 6, true) ∧
      deferredRequest (CastWhenWillAvailable pendingPetSample 77 (some 8) none false)
        = (77, some 8, some 6, false) ∧
      deferredRequest (CastWhenWillAvailable pendingPetSample 77 (some 8) none false)
        ≠ (77, some 8, none, false) := by
  decide

/-- C18 (amended): after `CastWhenWillAvailable(spell, target, oldTarget,
positive)` with spell not 0 and a non-null target the stored request is (spell,
target, fallback, positive), whatever was stored before, where the fallback is
`oldTarget` when that is non-null and the fallback stored before the call when
it is null; nothing else of the pet changes. -/
theorem C18_request_stored (pet : Pet) (spellid target : Nat) (oldTarget : Option Nat)
    (spellIsPositive : Bool) (hspell : spellid ≠ 0) :
    deferredRequest (CastWhenWillAvailable pet spellid (some target) oldTarget spellIsPositive)
        = (spellid, some target,
            (match oldTarget with
              | some old => some old
              | none => pet.m_tempoldTarget), spellIsPositive) ∧
      CastWhenWillAvailable pet spellid (some target) oldTarget spellIsPositive
        = { pet with
            m_tempspell := spellid
            m_tempspellTarget := some target
            m_tempoldTarget := (match oldTarget with
              | some old => some old
              | none => pet.m_tempoldTarget)
            m_tempspellIsPositive := spellIsPositive } := by
  unfold CastWhenWillAvailable deferredRequest
  rw [if_neg hspell]
  cases oldTarget with
  | none => exact ⟨rfl, rfl⟩
  | some old => exact ⟨rfl, rfl⟩

/-- Witness of C18 (amended): a new request with the fallback target 7
overwrites the stored one. -/
theorem C18_request_stored_witness :
    deferredRequest (CastWhenWillAvailable pendingPetSample 77 (some 8) (some 7) false)
      = (77, some 8, some 7, false) :=
  (C18_request_stored pendingPetSample 77 8 (some 7) false (by decide)).1

end Pet

namespace Pet

theorem updateHappiness_request (t : TickWorld) (pet : Pet) (diff : Nat) :
    deferredRequest (updateHappiness t pet diff) = deferredRequest pet ∧
      (updateHappiness t pet diff).charmInfo = pet.charmInfo := by
  unfold updateHappiness LoseHappiness deferredRequest
  simp only
  split_ifs <;> exact ⟨rfl, rfl⟩

/-- A tick that passes the checks of the `ALIVE` case runs its body on the pet
with the duration counted down. -/
theorem Update_of_tickGetsToBody (t : TickWorld) (pet : Pet) (diff : Nat)
    (h : tickGetsToBody t pet diff = true) :
    Update t pet diff
      = if (updateAliveBody t
            (if pet.m_duration > 0 then { pet with m_duration := pet.m_duration - diff } else pet)
            diff).returned
        then UpdateResult.done
          (updateAliveBody t
            (if pet.m_duration > 0 then { pet with m_duration := pet.m_duration - diff } else pet)
            diff).pet
          (updateAliveBody t
            (if pet.m_duration > 0 then { pet with m_duration := pet.m_duration - diff } else pet)
            diff).calls
        else UpdateResult.done
          (updateAliveBody t
            (if pet.m_duration > 0 then { pet with m_duration := pet.m_duration - diff } else pet)
            diff).pet
          ((updateAliveBody t
            (if pet.m_duration > 0 then { pet with m_duration := pet.m_duration - diff } else pet)
            diff).calls ++ [UpdateCall.Creature_Update diff]) := by
  unfold tickGetsToBody at h
  simp only [Bool.and_eq_true, Bool.not_eq_true', beq_iff_eq, decide_eq_false_iff_not] at h
  obtain ⟨⟨⟨⟨⟨h1, h2⟩, h3⟩, h4⟩, h5⟩, h6⟩ := h
  unfold Update
  simp only [h1, h2, h3, h4, h5, h6, Bool.false_eq_true, if_false]

/-- The deferred-cast block when the stored target is null or dead and the
controller has no live victim. -/
theorem updateDeferredCast_clear (t : TickWorld) (pet : Pet) (charmer : Nat) (charm : CharmInfo)
    (hpending : pet.m_tempspell ≠ 0)
    (hcharmer : t.charmerOrOwner = some charmer) (hcharm : pet.charmInfo = some charm)
    (htarget : pet.m_tempspellTarget.filter t.IsAlive = none)
    (hvictim : t.charmerVictim.filter t.IsAlive = none) :
    updateDeferredCast t pet
      = { pet := { pet with
            m_tempspell := 0
            m_tempspellTarget := none
            m_tempoldTarget := none
            m_tempspellIsPositive := false
            charmInfo := some (followCommand charm) }
          calls := [UpdateCall.StopMoving, UpdateCall.MotionMaster_Clear, UpdateCall.MoveIdle,
            UpdateCall.MoveFollow charmer]
          returned := false } := by
  unfold updateDeferredCast
  rw [if_pos hpending]
  simp only [hcharmer, hcharm, htarget, hvictim]
  rfl

theorem filter_alive_none (IsAlive : Nat → Bool) (unit : Option Nat)
    (h : ∀ u, unit = some u → IsAlive u = false) : unit.filter IsAlive = none := by
  cases unit with
  | none => rfl
  | some u => simp [Option.filter, h u rfl]

end Pet

namespace Pet

/-- The body of the `ALIVE` case when the stored target is null or dead and
the controller has no live victim. -/
theorem updateAliveBody_clear (t : TickWorld) (pet : Pet) (diff charmer : Nat) (charm : CharmInfo)
    (hpending : pet.m_tempspell ≠ 0)
    (hcharmer : t.charmerOrOwner = some charmer) (hcharm : pet.charmInfo = some charm)
    (htarget : pet.m_tempspellTarget.filter t.IsAlive = none)
    (hvictim : t.charmerVictim.filter t.IsAlive = none) :
    (updateAliveBody t pet diff).returned = false ∧
      deferredRequest (updateAliveBody t pet diff).pet = (0, none, none, false) ∧
      (updateAliveBody t pet diff).pet.charmInfo = some (followCommand charm) ∧
      UpdateCall.MoveFollow charmer ∈ (updateAliveBody t pet diff).calls ∧
      ∀ u, UpdateCall.AttackStart u ∉ (updateAliveBody t pet diff).calls := by
  have hkey : ∀ (p : Pet) (calls0 : List UpdateCall),
      p.m_tempspell = pet.m_tempspell → p.m_tempspellTarget = pet.m_tempspellTarget →
      p.charmInfo = pet.charmInfo → (∀ u, UpdateCall.AttackStart u ∉ calls0) →
      ((if (updateDeferredCast t p).returned then
          ({ updateDeferredCast t p with calls := calls0 ++ (updateDeferredCast t p).calls } : Tick)
        else { pet := updateHappiness t (updateDeferredCast t p).pet diff
               calls := calls0 ++ (updateDeferredCast t p).calls }).returned = false ∧
        deferredRequest (if (updateDeferredCast t p).returned then
          ({ updateDeferredCast t p with calls := calls0 ++ (updateDeferredCast t p).calls } : Tick)
        else { pet := updateHappiness t (updateDeferredCast t p).pet diff
               calls := calls0 ++ (updateDeferredCast t p).calls }).pet = (0, none, none, false) ∧
        (if (updateDeferredCast t p).returned then
          ({ updateDeferredCast t p with calls := calls0 ++ (updateDeferredCast t p).calls } : Tick)
        else { pet := updateHappiness t (updateDeferredCast t p).pet diff
               calls := calls0 ++ (updateDeferredCast t p).calls }).pet.charmInfo
          = some (followCommand charm) ∧
        UpdateCall.MoveFollow charmer ∈ (if (updateDeferredCast t p).returned then
          ({ updateDeferredCast t p with calls := calls0 ++ (updateDeferredCast t p).calls } : Tick)
        else { pet := updateHappiness t (updateDeferredCast t p).pet diff
               calls := calls0 ++ (updateDeferredCast t p).calls }).calls ∧
        ∀ u, UpdateCall.AttackStart u ∉ (if (updateDeferredCast t p).returned then
          ({ updateDeferredCast t p with calls := calls0 ++ (updateDeferredCast t p).calls } : Tick)
        else { pet := updateHappiness t (updateDeferredCast t p).pet diff
               calls := calls0 ++ (updateDeferredCast t p).calls }).calls) := by
    intro p calls0 h1 h2 h3 hcalls
    have hclear := updateDeferredCast_clear t p charmer charm (by rw [h1]; exact hpending)
      hcharmer (by rw [h3]; exact hcharm) (by rw [h2]; exact htarget) hvictim
    rw [hclear]
    simp only [Bool.false_eq_true, if_false]
    have hh := updateHappiness_request t { p with
      m_tempspell := 0
      m_tempspellTarget := none
      m_tempoldTarget := none
      m_tempspellIsPositive := false
      charmInfo := some (followCommand charm) } diff
    refine ⟨trivial, hh.1.trans rfl, hh.2.trans rfl, ?_, ?_⟩
    · simp
    · intro u hmem
      rcases List.mem_append.1 hmem with h | h
      · exact hcalls u h
      · simp at h
  unfold updateAliveBody
  simp only
  by_cases hf : t.powerTypeIsFocus = true
  · simp only [hf, if_true]
    by_cases ht : pet.m_petRegenTimer - (diff : Int) ≤ 0
    · simp only [ht, if_true]
      exact hkey _ [UpdateCall.Regenerate_POWER_FOCUS] rfl rfl rfl (by simp)
    · simp only [ht, if_false]
      exact hkey _ [] rfl rfl rfl (by simp)
  · simp only [hf, Bool.false_eq_true, if_false]
    exact hkey _ [] rfl rfl rfl (by simp)

/-- C19 (as stated) fails: a live pet with a pending request whose target
(unit 5) is dead, with a controller without victim and with charm info, but
whose owner is out of visibility range, is handed to removal by the tick: the
request stays as it was and no follow command is issued. -/
theorem C19_counterexample :
    (pendingPetSample.m_deathState = DeathState.ALIVE ∧ pendingPetSample.m_removed = false ∧
      pendingPetSample.m_loading = false ∧ pendingPetSample.charmInfo.isSome = true ∧
      tickWorldSample.charmerOrOwner = some 9 ∧ tickWorldSample.charmerVictim = none ∧
      tickWorldSample.IsAlive 5 = false) ∧
    Update { tickWorldSample with IsWithinDistInMap_owner := false } pendingPetSample 100
      = UpdateResult.done pendingPetSample [UpdateCall.Remove PET_SAVE_NOT_IN_SLOT true] ∧
    deferredRequest pendingPetSample = (55, some 5, some 6, true) := by
  refine ⟨by decide, by decide, by decide⟩

/-- C19 (amended): for a pet with a pending deferred cast that passes the
checks of the tick before the body of the `ALIVE` case (not removed or being
loaded, alive, owner present and in range or the pet possessed, a controlled pet
linked to its owner, duration not running out in the tick), that has a
controller and charm info, whose stored target is null or not alive and whose
controller has no live victim, one `Update` tick clears the four request
fields and issues the follow command and no attack command: command state
FOLLOW, command-attack false, at-stay false, command-follow true, a
`MoveFollow` to the controller and no `AttackStart`. -/
theorem C19_dead_target_clears (t : TickWorld) (pet : Pet) (diff charmer : Nat)
    (charm : CharmInfo)
    (hbody : tickGetsToBody t pet diff = true)
    (hpending : pet.m_tempspell ≠ 0)
    (hcharmer : t.charmerOrOwner = some charmer) (hcharm : pet.charmInfo = some charm)
    (htarget : ∀ u, pet.m_tempspellTarget = some u → t.IsAlive u = false)
    (hvictim : ∀ v, t.charmerVictim = some v → t.IsAlive v = false) :
    ∃ after calls newCharm, Update t pet diff = UpdateResult.done after calls ∧
      deferredRequest after = (0, none, none, false) ∧
      after.charmInfo = some newCharm ∧
      newCharm.CommandState = CommandStates.COMMAND_FOLLOW ∧
      newCharm.IsCommandAttack = false ∧ newCharm.IsAtStay = false ∧
      newCharm.IsCommandFollow = true ∧
      UpdateCall.MoveFollow charmer ∈ calls ∧ ∀ u, UpdateCall.AttackStart u ∉ calls := by
  have hupd := Update_of_tickGetsToBody t pet diff hbody
  have hbodyClear : ∀ p : Pet, p.m_tempspell = pet.m_tempspell →
      p.m_tempspellTarget = pet.m_tempspellTarget → p.charmInfo = pet.charmInfo →
      (updateAliveBody t p diff).returned = false ∧
        deferredRequest (updateAliveBody t p diff).pet = (0, none, none, false) ∧
        (updateAliveBody t p diff).pet.charmInfo = some (followCommand charm) ∧
        UpdateCall.MoveFollow charmer ∈ (updateAliveBody t p diff).calls ∧
        ∀ u, UpdateCall.AttackStart u ∉ (updateAliveBody t p diff).calls := by
    intro p h1 h2 h3
    exact updateAliveBody_clear t p diff charmer charm (by rw [h1]; exact hpending) hcharmer
      (by rw [h3]; exact hcharm)
      (filter_alive_none t.IsAlive _ (by rw [h2]; exact htarget))
      (filter_alive_none t.IsAlive _ hvictim)
  have hp : ∀ p : Pet,
      p = (if pet.m_duration > 0 then { pet with m_duration := pet.m_duration - diff } else pet) →
      p.m_tempspell = pet.m_tempspell ∧ p.m_tempspellTarget = pet.m_tempspellTarget ∧
        p.charmInfo = pet.charmInfo := by
    intro p hp
    subst hp
    split_ifs <;> exact ⟨rfl, rfl, rfl⟩
  generalize hgen : (if pet.m_duration > 0 then { pet with m_duration := pet.m_duration - diff }
    else pet) = p at hupd
  obtain ⟨h1, h2, h3⟩ := hp p hgen.symm
  obtain ⟨b1, b2, b3, b4, b5⟩ := hbodyClear p h1 h2 h3
  rw [b1] at hupd
  simp only [Bool.false_eq_true, if_false] at hupd
  refine ⟨_, _, followCommand charm, hupd, b2, b3, rfl, rfl, rfl, rfl, ?_, ?_⟩
  · exact List.mem_append_left _ b4
  · intro u hmem
    rcases List.mem_append.1 hmem with h | h
    · exact b5 u h
    · simp at h

/-- Witness of C19 (amended): the sample pet, whose target 5 is dead, in the
sample world. -/
theorem C19_dead_target_clears_witness :
    ∃ after calls newCharm, Update tickWorldSample pendingPetSample 100
        = UpdateResult.done after calls ∧
      deferredRequest after = (0, none, none, false) ∧
      after.charmInfo = some newCharm ∧
      newCharm.CommandState = CommandStates.COMMAND_FOLLOW ∧
      newCharm.IsCommandAttack = false ∧ newCharm.IsAtStay = false ∧
      newCharm.IsCommandFollow = true ∧
      UpdateCall.MoveFollow 9 ∈ calls ∧ ∀ u, UpdateCall.AttackStart u ∉ calls :=
  C19_dead_target_clears tickWorldSample pendingPetSample 100 9 {} (by decide) (by decide) rfl rfl
    (by decide) (by decide)

end Pet

namespace Pet

/-- The deferred-cast block leaves the pet as it is while the target is alive
and line of sight, range or a cooldown stands against the cast. -/
theorem updateDeferredCast_blocked (t : TickWorld) (pet : Pet) (target : Nat)
    (htarget : pet.m_tempspellTarget = some target) (halive : t.IsAlive target = true)
    (hblocked : ∀ spellInfo, t.GetSpellInfo pet.m_tempspell = some spellInfo →
      (t.IsWithinLOSInMap target = false ∨
        ¬ t.GetDistance target < maxUsableRange t target spellInfo ∨
        t.HasGlobalCooldown spellInfo = true ∨ t.HasSpellCooldown pet.m_tempspell = true)) :
    (updateDeferredCast t pet).pet = pet := by
  have hfilter : pet.m_tempspellTarget.filter t.IsAlive = some target := by
    rw [htarget]
    simp [Option.filter, halive]
  unfold updateDeferredCast
  by_cases hp : pet.m_tempspell ≠ 0
  · rw [if_pos hp]
    cases hc : t.charmerOrOwner with
    | none => rfl
    | some charmer =>
      cases hci : pet.charmInfo with
      | none => rfl
      | some charm =>
        simp only [hfilter]
        cases hs : t.GetSpellInfo pet.m_tempspell with
        | none => rfl
        | some spellInfo =>
          simp only
          rcases hblocked spellInfo hs with h | h | h | h
          · simp [h]
          · simp [h]
          · simp only [h, Bool.not_true, Bool.false_and, Bool.false_eq_true, if_false]
            split_ifs <;> rfl
          · simp only [h, Bool.not_true, Bool.and_false, Bool.false_eq_true, if_false]
            split_ifs <;> rfl
  · rw [if_neg hp]

theorem updateAliveBody_blocked (t : TickWorld) (pet : Pet) (diff target : Nat)
    (htarget : pet.m_tempspellTarget = some target) (halive : t.IsAlive target = true)
    (hblocked : ∀ spellInfo, t.GetSpellInfo pet.m_tempspell = some spellInfo →
      (t.IsWithinLOSInMap target = false ∨
        ¬ t.GetDistance target < maxUsableRange t target spellInfo ∨
        t.HasGlobalCooldown spellInfo = true ∨ t.HasSpellCooldown pet.m_tempspell = true)) :
    deferredRequest (updateAliveBody t pet diff).pet = deferredRequest pet := by
  have hkey : ∀ (p : Pet) (calls0 : List UpdateCall),
      p.m_tempspell = pet.m_tempspell → p.m_tempspellTarget = pet.m_tempspellTarget →
      deferredRequest p = deferredRequest pet →
      deferredRequest (if (updateDeferredCast t p).returned then
          ({ updateDeferredCast t p with calls := calls0 ++ (updateDeferredCast t p).calls } : Tick)
        else { pet := updateHappiness t (updateDeferredCast t p).pet diff
               calls := calls0 ++ (updateDeferredCast t p).calls }).pet = deferredRequest pet := by
    intro p calls0 h1 h2 h3
    have hb := updateDeferredCast_blocked t p target (by rw [h2]; exact htarget) halive
      (by rw [h1]; exact hblocked)
    split_ifs
    · simp only [hb]; exact h3
    · simp only [hb]
      exact (updateHappiness_request t p diff).1.trans h3
  unfold updateAliveBody
  simp only
  by_cases hf : t.powerTypeIsFocus = true
  · simp only [hf, if_true]
    by_cases ht : pet.m_petRegenTimer - (diff : Int) ≤ 0
    · simp only [ht, if_true]
      exact hkey _ [UpdateCall.Regenerate_POWER_FOCUS] rfl rfl rfl
    · simp only [ht, if_false]
      exact hkey _ [] rfl rfl rfl
  · simp only [hf, Bool.false_eq_true, if_false]
    exact hkey _ [] rfl rfl rfl

theorem petAfter_ite (pet after : Pet) (c : Bool) (calls1 calls2 : List UpdateCall) :
    UpdateResult.petAfter pet
      (if c = true then UpdateResult.done after calls1 else UpdateResult.done after calls2)
      = after := by
  cases c <;> rfl

/-- One tick leaves the request while the target is alive and the cast is
blocked, whatever else the tick does. -/
theorem Update_blocked (t : TickWorld) (pet : Pet) (diff target : Nat)
    (htarget : pet.m_tempspellTarget = some target) (halive : t.IsAlive target = true)
    (hblocked : ∀ spellInfo, t.GetSpellInfo pet.m_tempspell = some spellInfo →
      (t.IsWithinLOSInMap target = false ∨
        ¬ t.GetDistance target < maxUsableRange t target spellInfo ∨
        t.HasGlobalCooldown spellInfo = true ∨ t.HasSpellCooldown pet.m_tempspell = true)) :
    deferredRequest (UpdateResult.petAfter pet (Update t pet diff)) = deferredRequest pet := by
  have hbody : ∀ p : Pet,
      p = (if pet.m_duration > 0 then { pet with m_duration := pet.m_duration - diff } else pet) →
      deferredRequest (updateAliveBody t p diff).pet = deferredRequest pet := by
    intro p hp
    have hsame : p.m_tempspell = pet.m_tempspell ∧ p.m_tempspellTarget = pet.m_tempspellTarget ∧
        deferredRequest p = deferredRequest pet := by
      subst hp
      split_ifs <;> exact ⟨rfl, rfl, rfl⟩
    rw [← hsame.2.2]
    exact updateAliveBody_blocked t p diff target (by rw [hsame.2.1]; exact htarget) halive
      (by rw [hsame.1]; exact hblocked)
  unfold Update
  by_cases h1 : pet.m_removed = true
  · rw [if_pos h1]; rfl
  rw [if_neg h1]
  by_cases h2 : pet.m_loading = true
  · rw [if_pos h2]; rfl
  rw [if_neg h2]
  split
  · split_ifs <;> rfl
  · by_cases h3 : (!t.ownerPresent || (!t.IsWithinDistInMap_owner && !t.isPossessed) ||
        (pet.isControlled && t.ownerPetGUID == 0)) = true
    · rw [if_pos h3]; rfl
    rw [if_neg h3]
    by_cases h4 : (pet.isControlled && t.ownerPetGUID != pet.GUID) = true
    · rw [if_pos h4]
      by_cases h5 : pet.m_petType = PetType.HUNTER_PET
      · rw [if_pos h5]; rfl
      · rw [if_neg h5]; rfl
    rw [if_neg h4]
    by_cases h6 : pet.m_duration > 0 ∧ ¬ pet.m_duration > diff
    · rw [if_pos h6]; rfl
    rw [if_neg h6]
    simp only
    rw [petAfter_ite]
    exact hbody _ rfl
  · rfl

end Pet

namespace Pet

/-- C20: while the target of a pending deferred cast is alive and, at each
tick, the target is out of line of sight, or its distance is not below the
maximum usable range, or the global cooldown or the cooldown of the ability is
active, a tick of `Update` leaves the four request fields unchanged, for any
number of consecutive ticks. -/
theorem C20_blocked_request_pending (worlds : Nat → TickWorld) (pet : Pet) (diff target n : Nat)
    (htarget : pet.m_tempspellTarget = some target)
    (hblocked : ∀ i, i < n → (worlds i).IsAlive target = true ∧
      ∀ spellInfo, (worlds i).GetSpellInfo pet.m_tempspell = some spellInfo →
        ((worlds i).IsWithinLOSInMap target = false ∨
          ¬ (worlds i).GetDistance target < maxUsableRange (worlds i) target spellInfo ∨
          (worlds i).HasGlobalCooldown spellInfo = true ∨
          (worlds i).HasSpellCooldown pet.m_tempspell = true)) :
    deferredRequest (updateTicks worlds diff n pet) = deferredRequest pet := by
  induction n with
  | zero => rfl
  | succ k ih =>
    have hprev := ih (fun i hi => hblocked i (Nat.lt_succ_of_lt hi))
    have hspell : (updateTicks worlds diff k pet).m_tempspell = pet.m_tempspell :=
      congrArg (fun r => r.1) hprev
    have htar : (updateTicks worlds diff k pet).m_tempspellTarget = pet.m_tempspellTarget :=
      congrArg (fun r => r.2.1) hprev
    obtain ⟨halive, hb⟩ := hblocked k (Nat.lt_succ_self k)
    have hstep := Update_blocked (worlds k) (updateTicks worlds diff k pet) diff target
      (htar.trans htarget) halive (by rw [hspell]; exact hb)
    exact hstep.trans hprev

/-- Witness of C20: the pending request for the live target 6 stays through
three ticks without line of sight. -/
theorem C20_blocked_request_pending_witness :
    deferredRequest (updateTicks (fun _ => { tickWorldSample with IsWithinLOSInMap := fun _ => false })
        100 3 { pendingPetSample with m_tempspellTarget := some 6 })
      = (55, some 6, some 6, true) :=
  C20_blocked_request_pending (fun _ => { tickWorldSample with IsWithinLOSInMap := fun _ => false })
    { pendingPetSample with m_tempspellTarget := some 6 } 100 6 3 rfl
    (fun _ _ => ⟨rfl, fun _ _ => Or.inl rfl⟩)

end Pet

namespace Pet

/-! ### The guards and the duration timer of a tick -/

/-- C21: for a pet whose `m_removed` or `m_loading` flag is set, `Update`
returns the pet as it is and makes no call: the timers, the deferred-cast
request and the death state are unchanged, and no removal, regeneration, cast
or base-creature update takes place. -/
theorem C21_removed_or_loading_idle (t : TickWorld) (pet : Pet) (diff : Nat)
    (h : pet.m_removed = true ∨ pet.m_loading = true) :
    Update t pet diff = UpdateResult.done pet [] := by
  unfold Update
  rcases h with h | h
  · rw [if_pos h]
  · by_cases hr : pet.m_removed = true
    · rw [if_pos hr]
    · rw [if_neg hr, if_pos h]

/-- Witness of C21: the sample pet with a pending request, while loading. -/
theorem C21_removed_or_loading_idle_witness :
    Update tickWorldSample { pendingPetSample with m_loading := true } 100
      = UpdateResult.done { pendingPetSample with m_loading := true } [] :=
  C21_removed_or_loading_idle tickWorldSample { pendingPetSample with m_loading := true } 100
    (Or.inr rfl)

theorem castDeferred_frame (t : TickWorld) (pet : Pet) (charm : CharmInfo) (charmer target : Nat)
    (spellInfo : SpellInfo) :
    (castDeferred t pet charm charmer target spellInfo).pet.m_duration = pet.m_duration ∧
      (castDeferred t pet charm charmer target spellInfo).calls.all
        (fun c => !UpdateCall.isRemove c) = true := by
  unfold castDeferred
  simp only
  split_ifs <;> refine ⟨rfl, ?_⟩ <;>
    simp only [List.all_append, List.all_cons, List.all_nil, UpdateCall.isRemove, Bool.not_false,
      Bool.and_self, Bool.true_and, Bool.and_true]
  all_goals
    cases pet.m_tempoldTarget with
    | none => rfl
    | some old => rfl

end Pet

namespace Pet

theorem updateDeferredCast_frame (t : TickWorld) (pet : Pet) :
    (updateDeferredCast t pet).pet.m_duration = pet.m_duration ∧
      (updateDeferredCast t pet).calls.all (fun c => !UpdateCall.isRemove c) = true := by
  unfold updateDeferredCast
  by_cases hp : pet.m_tempspell ≠ 0
  · rw [if_pos hp]
    cases t.charmerOrOwner with
    | none => exact ⟨rfl, rfl⟩
    | some charmer =>
      cases pet.charmInfo with
      | none => exact ⟨rfl, rfl⟩
      | some charm =>
        simp only
        cases pet.m_tempspellTarget.filter t.IsAlive with
        | some target =>
          simp only
          cases t.GetSpellInfo pet.m_tempspell with
          | none => exact ⟨rfl, rfl⟩
          | some spellInfo =>
            simp only
            by_cases h1 : (t.IsWithinLOSInMap target &&
                decide (t.GetDistance target < maxUsableRange t target spellInfo)) = true
            · rw [if_pos h1]
              by_cases h2 : (!t.HasGlobalCooldown spellInfo &&
                  !t.HasSpellCooldown pet.m_tempspell) = true
              · rw [if_pos h2]
                exact castDeferred_frame t pet charm charmer target spellInfo
              · rw [if_neg h2]
                exact ⟨rfl, rfl⟩
            · rw [if_neg h1]
              exact ⟨rfl, rfl⟩
        | none =>
          simp only
          cases t.charmerVictim.filter t.IsAlive with
          | some victim =>
            refine ⟨rfl, ?_⟩
            simp only
            by_cases ha : t.IsAIEnabled = true
            · rw [if_pos ha]; rfl
            · rw [if_neg ha]; rfl
          | none => exact ⟨rfl, rfl⟩
  · rw [if_neg hp]
    exact ⟨rfl, rfl⟩

theorem updateHappiness_duration (t : TickWorld) (pet : Pet) (diff : Nat) :
    (updateHappiness t pet diff).m_duration = pet.m_duration := by
  unfold updateHappiness LoseHappiness
  simp only
  split_ifs <;> rfl

/-- The body of the `ALIVE` case leaves the duration and asks for no removal. -/
theorem updateAliveBody_frame (t : TickWorld) (pet : Pet) (diff : Nat) :
    (updateAliveBody t pet diff).pet.m_duration = pet.m_duration ∧
      (updateAliveBody t pet diff).calls.all (fun c => !UpdateCall.isRemove c) = true := by
  have hkey : ∀ (p : Pet) (calls0 : List UpdateCall), p.m_duration = pet.m_duration →
      calls0.all (fun c => !UpdateCall.isRemove c) = true →
      (if (updateDeferredCast t p).returned then
          ({ updateDeferredCast t p with calls := calls0 ++ (updateDeferredCast t p).calls } : Tick)
        else { pet := updateHappiness t (updateDeferredCast t p).pet diff
               calls := calls0 ++ (updateDeferredCast t p).calls }).pet.m_duration
          = pet.m_duration ∧
        (if (updateDeferredCast t p).returned then
          ({ updateDeferredCast t p with calls := calls0 ++ (updateDeferredCast t p).calls } : Tick)
        else { pet := updateHappiness t (updateDeferredCast t p).pet diff
               calls := calls0 ++ (updateDeferredCast t p).calls }).calls.all
          (fun c => !UpdateCall.isRemove c) = true := by
    intro p calls0 hd hc
    obtain ⟨f1, f2⟩ := updateDeferredCast_frame t p
    split_ifs
    · exact ⟨f1.trans hd, by simp only [List.all_append, hc, f2, Bool.and_self]⟩
    · exact ⟨(updateHappiness_duration t _ diff).trans (f1.trans hd),
        by simp only [List.all_append, hc, f2, Bool.and_self]⟩
  unfold updateAliveBody
  simp only
  by_cases hf : t.powerTypeIsFocus = true
  · simp only [hf, if_true]
    by_cases ht : pet.m_petRegenTimer - (diff : Int) ≤ 0
    · simp only [ht, if_true]
      exact hkey _ [UpdateCall.Regenerate_POWER_FOCUS] rfl rfl
    · simp only [ht, if_false]
      exact hkey _ [] rfl rfl
  · simp only [hf, Bool.false_eq_true, if_false]
    exact hkey _ [] rfl rfl

/-- A tick of a live pet that passes the owner checks and whose duration does
not run out: the body of the `ALIVE` case, then the base-creature update. -/
theorem Update_live (t : TickWorld) (pet : Pet) (diff : Nat)
    (hlive : pet.m_removed = false ∧ pet.m_loading = false ∧
      pet.m_deathState = DeathState.ALIVE)
    (hown : passesOwnerChecks t pet = true)
    (hdur : ¬ (pet.m_duration > 0 ∧ ¬ pet.m_duration > diff)) :
    tickGetsToBody t pet diff = true := by
  unfold passesOwnerChecks at hown
  unfold tickGetsToBody
  simp only [Bool.and_eq_true] at hown ⊢
  refine ⟨⟨⟨⟨⟨by simp [hlive.1], by simp [hlive.2.1]⟩, by simp [hlive.2.2]⟩, hown.1⟩, hown.2⟩, ?_⟩
  simp only [Bool.not_eq_true', decide_eq_false_iff_not]
  exact hdur

end Pet

namespace Pet

theorem Update_in_body (t : TickWorld) (pet : Pet) (diff : Nat)
    (hbody : tickGetsToBody t pet diff = true) :
    ∃ after calls, Update t pet diff = UpdateResult.done after calls ∧
      after.m_duration = (if pet.m_duration > 0 then pet.m_duration - diff else pet.m_duration) ∧
      calls.all (fun c => !UpdateCall.isRemove c) = true := by
  have hupd := Update_of_tickGetsToBody t pet diff hbody
  have hp : ∀ p : Pet,
      p = (if pet.m_duration > 0 then { pet with m_duration := pet.m_duration - diff } else pet) →
      p.m_duration = (if pet.m_duration > 0 then pet.m_duration - diff else pet.m_duration) := by
    intro p hp
    subst hp
    split_ifs <;> rfl
  generalize hgen : (if pet.m_duration > 0 then { pet with m_duration := pet.m_duration - diff }
    else pet) = p at hupd
  obtain ⟨f1, f2⟩ := updateAliveBody_frame t p diff
  by_cases hr : (updateAliveBody t p diff).returned = true
  · rw [if_pos hr] at hupd
    exact ⟨_, _, hupd, f1.trans (hp p hgen.symm), f2⟩
  · rw [if_neg hr] at hupd
    refine ⟨_, _, hupd, f1.trans (hp p hgen.symm), ?_⟩
    simp only [List.all_append, f2, Bool.true_and]
    rfl

/-- C22: for a live pet that passes the ownership checks, with m_duration > 0,
a tick of `diff` ms subtracts `diff` from m_duration when m_duration > diff,
which leaves it positive, and asks for no removal; otherwise (diff >=
m_duration) it removes the pet, with mode `PET_SAVE_NOT_IN_SLOT` for a
summon-type pet and `PET_SAVE_AS_DELETED` for any other; a pet with m_duration =
0 keeps it and is not removed by the timer. -/
theorem C22_duration_timer (t : TickWorld) (pet : Pet) (diff : Nat)
    (hlive : pet.m_removed = false ∧ pet.m_loading = false ∧
      pet.m_deathState = DeathState.ALIVE)
    (hown : passesOwnerChecks t pet = true) :
    (pet.m_duration > diff →
      ∃ after calls, Update t pet diff = UpdateResult.done after calls ∧
        after.m_duration = pet.m_duration - diff ∧ 0 < after.m_duration ∧
        calls.all (fun c => !UpdateCall.isRemove c) = true) ∧
    (0 < pet.m_duration ∧ pet.m_duration ≤ diff →
      Update t pet diff = UpdateResult.done pet
        [UpdateCall.Remove
          (if pet.m_petType = PetType.SUMMON_PET then PET_SAVE_NOT_IN_SLOT
            else PET_SAVE_AS_DELETED) false]) ∧
    (pet.m_duration = 0 →
      ∃ after calls, Update t pet diff = UpdateResult.done after calls ∧
        after.m_duration = 0 ∧ calls.all (fun c => !UpdateCall.isRemove c) = true) := by
  refine ⟨?_, ?_, ?_⟩
  · intro hgt
    obtain ⟨after, calls, hupd, hd, hc⟩ := Update_in_body t pet diff
      (Update_live t pet diff hlive hown (by omega))
    rw [if_pos (by omega)] at hd
    exact ⟨after, calls, hupd, hd, by omega, hc⟩
  · intro hle
    unfold passesOwnerChecks at hown
    simp only [Bool.and_eq_true, Bool.not_eq_true'] at hown
    have hexp : pet.m_duration > 0 ∧ ¬ pet.m_duration > diff := ⟨hle.1, by omega⟩
    unfold Update
    simp only [hlive.1, hlive.2.1, hlive.2.2, hown.1, hown.2, Bool.false_eq_true, if_false,
      hexp, and_self, if_true]
    by_cases hs : pet.m_petType = PetType.SUMMON_PET
    · simp [hs]
    · simp [hs]
  · intro hzero
    obtain ⟨after, calls, hupd, hd, hc⟩ := Update_in_body t pet diff
      (Update_live t pet diff hlive hown (by omega))
    rw [if_neg (by omega)] at hd
    exact ⟨after, calls, hupd, hd.trans hzero, hc⟩

/-- Witness of C22: a summon-type pet with 3000 ms left is counted down to
2900 by a tick of 100 ms and is removed, not in slot, by a tick of 5000 ms. -/
theorem C22_duration_timer_witness :
    (∃ after calls, Update tickWorldSample
          { pendingPetSample with m_petType := PetType.SUMMON_PET, m_duration := 3000 } 100
        = UpdateResult.done after calls ∧
        after.m_duration = 3000 - 100 ∧ 0 < after.m_duration ∧
        calls.all (fun c => !UpdateCall.isRemove c) = true) ∧
    Update tickWorldSample
        { pendingPetSample with m_petType := PetType.SUMMON_PET, m_duration := 3000 } 5000
      = UpdateResult.done
          { pendingPetSample with m_petType := PetType.SUMMON_PET, m_duration := 3000 }
          [UpdateCall.Remove PET_SAVE_NOT_IN_SLOT false] :=
  ⟨(C22_duration_timer tickWorldSample
      { pendingPetSample with m_petType := PetType.SUMMON_PET, m_duration := 3000 } 100
      (by decide) (by decide)).1 (by decide),
   (C22_duration_timer tickWorldSample
      { pendingPetSample with m_petType := PetType.SUMMON_PET, m_duration := 3000 } 5000
      (by decide) (by decide)).2.1 (by decide)⟩

end Pet

namespace Pet

/-! ### Level synchronisation -/

/-- C23: for a hunter-type pet of level p with a player owner of level o (a
player level is at least 1), `SynchronizeLevelWithOwner` leaves the pet at level
o if p > o, at level o - 5 if p + 5 < o, and at level p otherwise, which is p
clamped to [o - 5, o]. -/
theorem C23_hunter_level_sync (w : World) (ownerLevel : Nat) (pet : Pet)
    (hown : w.spells.hasOwner = true ∧ w.spells.ownerIsPlayer = true)
    (hplayer : 0 < ownerLevel) (htype : pet.m_petType = PetType.HUNTER_PET) :
    (pet.Level > ownerLevel →
      (SynchronizeLevelWithOwner w ownerLevel pet).Level = ownerLevel) ∧
    (pet.Level + 5 < ownerLevel →
      (SynchronizeLevelWithOwner w ownerLevel pet).Level = ownerLevel - 5) ∧
    (¬ pet.Level > ownerLevel → ¬ pet.Level + 5 < ownerLevel →
      (SynchronizeLevelWithOwner w ownerLevel pet).Level = pet.Level) ∧
    (SynchronizeLevelWithOwner w ownerLevel pet).Level
      = max (ownerLevel - 5) (min pet.Level ownerLevel) := by
  have h := (SynchronizeLevelWithOwner_fields w ownerLevel pet hown hplayer).1
  rw [htype] at h
  simp only [syncedLevel] at h
  rw [h]
  refine ⟨fun h1 => ?_, fun h2 => ?_, fun h1 h2 => ?_, ?_⟩
  · rw [if_pos h1]
  · rw [if_neg (by omega), if_pos h2]
  · rw [if_neg h1, if_neg h2]
  · split_ifs <;> omega

/-- Witness of C23: owner level 40 and the sample hunter pet of level 30 give
level 35, not 40. -/
theorem C23_hunter_level_sync_witness :
    (SynchronizeLevelWithOwner worldSample 40 savedPetSample).Level = 35 :=
  (C23_hunter_level_sync worldSample 40 savedPetSample (by decide) (by decide) rfl).2.1
    (by decide)

end Pet

namespace Pet

/-! ### Experience and level-ups -/

theorem GivePetLevel_hunter (w : World) (pet : Pet) (level : Nat)
    (h0 : level ≠ 0) (h1 : level ≠ pet.Level) (ht : pet.m_petType = PetType.HUNTER_PET) :
    (GivePetLevel w pet level).Level = level ∧
      (GivePetLevel w pet level).m_petType = PetType.HUNTER_PET ∧
      (GivePetLevel w pet level).UNIT_FIELD_PETNEXTLEVELEXP = w.PetNextLevelExp level ∧
      (GivePetLevel w pet level).m_deathState = pet.m_deathState := by
  unfold GivePetLevel
  rw [if_neg (by simp [h0, h1]), if_pos ht]
  unfold InitStatsForLevel
  simp only
  split_ifs <;> exact ⟨rfl, ht, rfl, rfl⟩

theorem xpThreshold_shift (w : World) (pet pet1 : Pet)
    (hlevel : pet1.Level = pet.Level + 1)
    (hnext : pet1.UNIT_FIELD_PETNEXTLEVELEXP = w.PetNextLevelExp (pet.Level + 1)) (i : Nat) :
    xpThreshold w pet1 i = xpThreshold w pet (i + 1) := by
  unfold xpThreshold
  rw [if_neg (Nat.succ_ne_zero i)]
  by_cases hi : i = 0
  · rw [if_pos hi, hnext, hi]
  · rw [if_neg hi, hlevel]
    congr 1
    omega

theorem xpThresholdSum_shift (w : World) (pet pet1 : Pet)
    (hlevel : pet1.Level = pet.Level + 1)
    (hnext : pet1.UNIT_FIELD_PETNEXTLEVELEXP = w.PetNextLevelExp (pet.Level + 1)) (k : Nat) :
    xpThresholdSum w pet (k + 1) = pet.UNIT_FIELD_PETNEXTLEVELEXP + xpThresholdSum w pet1 k := by
  induction k with
  | zero => simp [xpThresholdSum, xpThreshold]
  | succ n ih =>
    have hs : xpThresholdSum w pet (n + 1 + 1)
        = xpThresholdSum w pet (n + 1) + xpThreshold w pet (n + 1) := rfl
    have hs1 : xpThresholdSum w pet1 (n + 1)
        = xpThresholdSum w pet1 n + xpThreshold w pet1 n := rfl
    rw [hs, hs1, ih, xpThreshold_shift w pet pet1 hlevel hnext n]
    omega

end Pet

namespace Pet

/-- The level-up loop leaves with enough fuel: what it leaves after `k`
rounds, one level and one threshold per round. -/
theorem xpLoop_spec (w : World) (maxlevel : Nat) :
    ∀ (fuel : Nat) (pet : Pet) (newXP petlevel iterations : Nat),
      pet.m_petType = PetType.HUNTER_PET → pet.Level = petlevel → petlevel ≤ maxlevel →
      maxlevel - petlevel ≤ fuel →
      ∃ e k, xpLoop w maxlevel fuel pet newXP petlevel iterations = some e ∧
        e.iterations = iterations + k ∧ e.petlevel = petlevel + k ∧ petlevel + k ≤ maxlevel ∧
        e.pet.Level = petlevel + k ∧ (k = 0 → e.pet = pet) ∧
        e.pet.m_deathState = pet.m_deathState ∧
        e.pet.UNIT_FIELD_PETNEXTLEVELEXP = xpThreshold w pet k ∧
        newXP = e.newXP + xpThresholdSum w pet k ∧
        (∀ i, i < k → xpThresholdSum w pet (i + 1) ≤ newXP) ∧
        (petlevel + k < maxlevel → e.newXP < xpThreshold w pet k) := by
  intro fuel
  induction fuel with
  | zero =>
    intro pet newXP petlevel iterations _ hlevel hle hfuel
    have hnot : ¬ (newXP ≥ pet.UNIT_FIELD_PETNEXTLEVELEXP ∧ petlevel < maxlevel) := by omega
    refine ⟨{ pet := pet, newXP := newXP, petlevel := petlevel, iterations := iterations }, 0,
      ?_, rfl, rfl, hle, hlevel, fun _ => rfl, rfl, rfl, rfl, fun i hi => absurd hi (by omega), ?_⟩
    · unfold xpLoop
      rw [if_neg hnot]
    · intro hlt
      omega
  | succ f ih =>
    intro pet newXP petlevel iterations htype hlevel hle hfuel
    by_cases hcond : newXP ≥ pet.UNIT_FIELD_PETNEXTLEVELEXP ∧ petlevel < maxlevel
    · have hgive := GivePetLevel_hunter w pet (petlevel + 1) (by omega) (by omega) htype
      obtain ⟨g1, g2, g3, g4⟩ := hgive
      have hlevel1 : (GivePetLevel w pet (petlevel + 1)).Level = pet.Level + 1 := by
        rw [g1, hlevel]
      have hnext1 : (GivePetLevel w pet (petlevel + 1)).UNIT_FIELD_PETNEXTLEVELEXP
          = w.PetNextLevelExp (pet.Level + 1) := by
        rw [g3, hlevel]
      obtain ⟨e, k, hrun, e1, e2, e3, e4, _, e6, e7, e8, e9, e10⟩ :=
        ih (GivePetLevel w pet (petlevel + 1)) (newXP - pet.UNIT_FIELD_PETNEXTLEVELEXP)
          (petlevel + 1) (iterations + 1) g2 g1 (by omega) (by omega)
      have hshift := xpThreshold_shift w pet _ hlevel1 hnext1
      have hsum := xpThresholdSum_shift w pet _ hlevel1 hnext1
      refine ⟨e, k + 1, ?_, by omega, by omega, by omega, by omega,
        fun h => absurd h (Nat.succ_ne_zero k), e6.trans g4, ?_, ?_, ?_, ?_⟩
      · rw [← hrun]
        conv => lhs; unfold xpLoop
        rw [if_pos hcond]
      · rw [e7, hshift]
      · rw [hsum]
        omega
      · intro i hi
        cases i with
        | zero =>
          have : xpThresholdSum w pet (0 + 1) = pet.UNIT_FIELD_PETNEXTLEVELEXP := by
            simp [xpThresholdSum, xpThreshold]
          rw [this]
          exact hcond.1
        | succ j =>
          have hj := e9 j (by omega)
          rw [hsum (j + 1)]
          omega
      · intro hlt
        rw [← hshift]
        exact e10 (by omega)
    · refine ⟨{ pet := pet, newXP := newXP, petlevel := petlevel, iterations := iterations }, 0,
        ?_, rfl, rfl, hle, hlevel, fun _ => rfl, rfl, rfl, rfl,
        fun i hi => absurd hi (by omega), ?_⟩
      · unfold xpLoop
        rw [if_neg hcond]
      · intro hlt
        show newXP < pet.UNIT_FIELD_PETNEXTLEVELEXP
        by_contra hge
        exact hcond ⟨by omega, by omega⟩

end Pet

namespace Pet

/-- C24: for a live hunter-type pet below maxlevel = min(configured level cap,
owner level), `GivePetXP` with a scaled amount of at least 1, and no 32-bit
overflow of current experience + amount, returns after `k` level-ups, one per
next-level threshold crossed, each threshold subtracted from the running total;
the level is at most maxlevel, and the stored experience is the carried
remainder, below the new next-level threshold, or 0 if maxlevel was reached.
The configured cap is one that fits the byte it is converted to. -/
theorem C24_level_ups_carry (w : World) (ownerLevel : Nat) (pet : Pet) (xp : Nat)
    (hcap : w.CONFIG_MAX_PLAYER_LEVEL < 256)
    (htype : pet.m_petType = PetType.HUNTER_PET)
    (halive : pet.m_deathState = DeathState.ALIVE)
    (hxp : 1 ≤ w.scaledPetXP xp)
    (hbelow : pet.Level < min w.CONFIG_MAX_PLAYER_LEVEL ownerLevel)
    (hno : pet.UNIT_FIELD_PETEXPERIENCE + w.scaledPetXP xp < UINT32) :
    ∃ after k, GivePetXP w ownerLevel pet xp = some after ∧
      after.Level = pet.Level + k ∧
      after.Level ≤ min w.CONFIG_MAX_PLAYER_LEVEL ownerLevel ∧
      (∀ i, i < k →
        xpThresholdSum w pet (i + 1) ≤ pet.UNIT_FIELD_PETEXPERIENCE + w.scaledPetXP xp) ∧
      after.UNIT_FIELD_PETNEXTLEVELEXP = xpThreshold w pet k ∧
      (after.Level < min w.CONFIG_MAX_PLAYER_LEVEL ownerLevel →
        after.UNIT_FIELD_PETEXPERIENCE + xpThresholdSum w pet k
          = pet.UNIT_FIELD_PETEXPERIENCE + w.scaledPetXP xp ∧
        after.UNIT_FIELD_PETEXPERIENCE < after.UNIT_FIELD_PETNEXTLEVELEXP) ∧
      (after.Level = min w.CONFIG_MAX_PLAYER_LEVEL ownerLevel →
        after.UNIT_FIELD_PETEXPERIENCE = 0) := by
  have hmax : xpMaxLevel w ownerLevel = min w.CONFIG_MAX_PLAYER_LEVEL ownerLevel := by
    unfold xpMaxLevel
    rw [Nat.mod_eq_of_lt hcap]
  rw [← hmax] at hbelow ⊢
  have hu : UINT32 = 4294967296 := rfl
  have htotal : (pet.UNIT_FIELD_PETEXPERIENCE + w.scaledPetXP xp) % UINT32
      = pet.UNIT_FIELD_PETEXPERIENCE + w.scaledPetXP xp := Nat.mod_eq_of_lt hno
  obtain ⟨e, k, hrun, _, e2, e3, e4, _, _, e7, e8, e9, e10⟩ :=
    xpLoop_spec w (xpMaxLevel w ownerLevel) (xpMaxLevel w ownerLevel - pet.Level) pet
      (pet.UNIT_FIELD_PETEXPERIENCE + w.scaledPetXP xp) pet.Level 0 htype rfl (by omega)
      (le_refl _)
  have hgive : GivePetXP w ownerLevel pet xp
      = some { e.pet with
          UNIT_FIELD_PETEXPERIENCE :=
            if e.petlevel < xpMaxLevel w ownerLevel then e.newXP else 0 } := by
    unfold GivePetXP
    simp only [htype, ne_eq, not_true_eq_false, if_false, halive, htotal]
    rw [if_neg (by omega), if_neg (by omega), hrun]
  refine ⟨_, k, hgive, e4, by simp only; omega, e9, e7, ?_, ?_⟩
  · intro hlt
    simp only at hlt ⊢
    rw [e4] at hlt
    rw [if_pos (by omega)]
    refine ⟨by omega, ?_⟩
    rw [e7]
    exact e10 hlt
  · intro heq
    simp only at heq ⊢
    rw [e4] at heq
    rw [if_neg (by omega)]

/-- Witness of C24: the sample pet (level 30, 500 experience, threshold 3000,
thresholds of 100 per level after it) gets 6000 experience under an owner of
level 40: two level-ups, 400 experience carried. -/
theorem C24_level_ups_carry_witness :
    (GivePetXP worldSample 40 savedPetSample 6000).map
        (fun after => (after.Level, after.UNIT_FIELD_PETEXPERIENCE,
          after.UNIT_FIELD_PETNEXTLEVELEXP)) = some (32, 400, 3200) := by
  obtain ⟨after, k, hgive, h1, _, _, h4, h5, _⟩ := C24_level_ups_carry worldSample 40
    savedPetSample 6000 (by decide) rfl rfl (by decide) (by decide) (by decide)
  have hvalue : GivePetXP worldSample 40 savedPetSample 6000 = some after := hgive
  rw [hvalue]
  have hdec : (GivePetXP worldSample 40 savedPetSample 6000).map
      (fun after => (after.Level, after.UNIT_FIELD_PETEXPERIENCE,
        after.UNIT_FIELD_PETNEXTLEVELEXP)) = some (32, 400, 3200) := by decide
  rw [hvalue] at hdec
  exact hdec

/-- C25: `GivePetXP` returns the pet as it is, with its level and experience,
when the pet is not hunter-type, when the rate-scaled amount is below 1, when
the pet is not alive, or when its level is at least min(configured maximum
player level, owner level). -/
theorem C25_xp_ignored (w : World) (ownerLevel : Nat) (pet : Pet) (xp : Nat)
    (h : pet.m_petType ≠ PetType.HUNTER_PET ∨ w.scaledPetXP xp < 1 ∨
      pet.m_deathState ≠ DeathState.ALIVE ∨
      pet.Level ≥ min w.CONFIG_MAX_PLAYER_LEVEL ownerLevel) :
    GivePetXP w ownerLevel pet xp = some pet := by
  unfold GivePetXP
  by_cases h1 : pet.m_petType ≠ PetType.HUNTER_PET
  · rw [if_pos h1]
  rw [if_neg h1]
  simp only
  by_cases h2 : w.scaledPetXP xp < 1
  · rw [if_pos h2]
  rw [if_neg h2]
  by_cases h3 : pet.m_deathState ≠ DeathState.ALIVE
  · rw [if_pos h3]
  rw [if_neg h3]
  have h4 : pet.Level ≥ xpMaxLevel w ownerLevel := by
    rcases h with h | h | h | h
    · exact absurd h h1
    · exact absurd h h2
    · exact absurd h h3
    · unfold xpMaxLevel
      have := Nat.mod_le w.CONFIG_MAX_PLAYER_LEVEL 256
      omega
  rw [if_pos h4]

/-- Witness of C25: the sample pet, dead, is given experience. -/
theorem C25_xp_ignored_witness :
    GivePetXP worldSample 40 { savedPetSample with m_deathState := DeathState.CORPSE } 6000
      = some { savedPetSample with m_deathState := DeathState.CORPSE } :=
  C25_xp_ignored worldSample 40 { savedPetSample with m_deathState := DeathState.CORPSE } 6000
    (Or.inr (Or.inr (Or.inl (by decide))))

theorem xpLoop_terminates (w : World) (maxlevel : Nat) :
    ∀ (fuel : Nat) (pet : Pet) (newXP petlevel iterations : Nat),
      maxlevel - petlevel ≤ fuel →
      ∃ e, xpLoop w maxlevel fuel pet newXP petlevel iterations = some e ∧
        e.iterations ≤ iterations + (maxlevel - petlevel) ∧
        e.petlevel + iterations = petlevel + e.iterations ∧
        (iterations < e.iterations → e.petlevel ≤ maxlevel) := by
  intro fuel
  induction fuel with
  | zero =>
    intro pet newXP petlevel iterations hfuel
    have hnot : ¬ (newXP ≥ pet.UNIT_FIELD_PETNEXTLEVELEXP ∧ petlevel < maxlevel) := by omega
    refine ⟨{ pet := pet, newXP := newXP, petlevel := petlevel, iterations := iterations },
      ?_, by simp only; omega, rfl, fun h => absurd h (lt_irrefl _)⟩
    unfold xpLoop
    rw [if_neg hnot]
  | succ f ih =>
    intro pet newXP petlevel iterations hfuel
    by_cases hcond : newXP ≥ pet.UNIT_FIELD_PETNEXTLEVELEXP ∧ petlevel < maxlevel
    · obtain ⟨e, hrun, e1, e2, e3⟩ := ih (GivePetLevel w pet (petlevel + 1))
        (newXP - pet.UNIT_FIELD_PETNEXTLEVELEXP) (petlevel + 1) (iterations + 1) (by omega)
      refine ⟨e, ?_, by omega, by omega, fun _ => ?_⟩
      · rw [← hrun]
        conv => lhs; unfold xpLoop
        rw [if_pos hcond]
      · by_cases hm : iterations + 1 < e.iterations
        · exact e3 hm
        · omega
    · refine ⟨{ pet := pet, newXP := newXP, petlevel := petlevel, iterations := iterations },
        ?_, by simp only; omega, rfl, fun h => absurd h (lt_irrefl _)⟩
      unfold xpLoop
      rw [if_neg hcond]

/-- C30: the level-up loop of `GivePetXP` terminates for every input, also
with next-level thresholds of 0: with `maxlevel - petlevel` rounds of fuel, or
more, the loop is left, every round has raised the local pet level by one, and
at most `maxlevel - petlevel` rounds were made; so `GivePetXP` returns for
every pet, owner level and amount. -/
theorem C30_xp_loop_terminates (w : World) (maxlevel fuel : Nat) (pet : Pet)
    (newXP petlevel : Nat) (hfuel : maxlevel - petlevel ≤ fuel) :
    (∃ e, xpLoop w maxlevel fuel pet newXP petlevel 0 = some e ∧
      e.iterations ≤ maxlevel - petlevel ∧ e.petlevel = petlevel + e.iterations ∧
      xpLoop w maxlevel (maxlevel - petlevel) pet newXP petlevel 0 = some e) ∧
    ∀ (ownerLevel xp : Nat) (p : Pet), (GivePetXP w ownerLevel p xp).isSome = true := by
  constructor
  · obtain ⟨e, hrun, e1, e2, _⟩ := xpLoop_terminates w maxlevel fuel pet newXP petlevel 0 hfuel
    obtain ⟨e0, hrun0, _, _, _⟩ := xpLoop_terminates w maxlevel (maxlevel - petlevel) pet newXP
      petlevel 0 (le_refl _)
    have hsame : ∀ (f1 f2 : Nat) (q : Pet) (x l n : Nat) (a b : XpLoopEnd),
        xpLoop w maxlevel f1 q x l n = some a → xpLoop w maxlevel f2 q x l n = some b →
        a = b := by
      intro f1
      induction f1 with
      | zero =>
        intro f2 q x l n a b ha hb
        unfold xpLoop at ha
        by_cases hc : x ≥ q.UNIT_FIELD_PETNEXTLEVELEXP ∧ l < maxlevel
        · rw [if_pos hc] at ha
          cases ha
        · rw [if_neg hc] at ha
          unfold xpLoop at hb
          rw [if_neg hc] at hb
          exact (Option.some.inj ha).symm.trans (Option.some.inj hb)
      | succ g ihg =>
        intro f2 q x l n a b ha hb
        unfold xpLoop at ha hb
        by_cases hc : x ≥ q.UNIT_FIELD_PETNEXTLEVELEXP ∧ l < maxlevel
        · rw [if_pos hc] at ha hb
          cases f2 with
          | zero => cases hb
          | succ g2 => exact ihg g2 _ _ _ _ a b ha hb
        · rw [if_neg hc] at ha hb
          exact (Option.some.inj ha).symm.trans (Option.some.inj hb)
    have heq := hsame _ _ _ _ _ _ _ _ hrun hrun0
    refine ⟨e, hrun, by omega, by omega, ?_⟩
    rw [heq]
    exact hrun0
  · intro ownerLevel xp p
    unfold GivePetXP
    by_cases h1 : p.m_petType ≠ PetType.HUNTER_PET
    · rw [if_pos h1]; rfl
    rw [if_neg h1]
    simp only
    by_cases h2 : w.scaledPetXP xp < 1
    · rw [if_pos h2]; rfl
    rw [if_neg h2]
    by_cases h3 : p.m_deathState ≠ DeathState.ALIVE
    · rw [if_pos h3]; rfl
    rw [if_neg h3]
    by_cases h4 : p.Level ≥ xpMaxLevel w ownerLevel
    · rw [if_pos h4]; rfl
    rw [if_neg h4]
    obtain ⟨e, hrun, _⟩ := xpLoop_terminates w (xpMaxLevel w ownerLevel)
      (xpMaxLevel w ownerLevel - p.Level) p
      ((p.UNIT_FIELD_PETEXPERIENCE + w.scaledPetXP xp) % UINT32) p.Level 0 (le_refl _)
    rw [hrun]
    rfl

/-- Witness of C30: with every threshold 0 the sample pet is raised from level
30 to the maximum 40 in 10 rounds. -/
theorem C30_xp_loop_terminates_witness :
    ∃ e, xpLoop { worldSample with PetNextLevelExp := fun _ => 0 } 40 10
        { savedPetSample with UNIT_FIELD_PETNEXTLEVELEXP := 0 } 6500 30 0 = some e ∧
      e.iterations ≤ 40 - 30 ∧ e.petlevel = 30 + e.iterations ∧
      xpLoop { worldSample with PetNextLevelExp := fun _ => 0 } 40 (40 - 30)
        { savedPetSample with UNIT_FIELD_PETNEXTLEVELEXP := 0 } 6500 30 0 = some e :=
  (C30_xp_loop_terminates { worldSample with PetNextLevelExp := fun _ => 0 } 40 10
    { savedPetSample with UNIT_FIELD_PETNEXTLEVELEXP := 0 } 6500 30 (by decide)).1

end Pet

namespace Pet

/-! ### The slot mode of a record and the swap with a stable slot -/

theorem firstIndex_lt {α : Type} (p : α → Bool) (l : List α) (i : Nat)
    (h : firstIndex p l = some i) : i < l.length := by
  obtain ⟨a, ha, _⟩ := firstIndex_some_get p l i h
  exact (List.getElem?_eq_some.1 ha).1

/-- The four ways `GetLoadPetInfo` returns. -/
theorem GetLoadPetInfo_shape (stable : PetStable) (petEntry petnumber : Nat) (current : Bool) :
    GetLoadPetInfo stable petEntry petnumber current
        = (some PetInfoPtr.current, PET_SAVE_AS_CURRENT) ∨
      (∃ i, firstIndex (stabledHasNumber petnumber) stable.StabledPets = some i ∧
        GetLoadPetInfo stable petEntry petnumber current
          = (some (PetInfoPtr.stabled i), PET_SAVE_FIRST_STABLE_SLOT + (i : Int))) ∨
      (∃ j, GetLoadPetInfo stable petEntry petnumber current
        = (some (PetInfoPtr.unslotted j), PET_SAVE_NOT_IN_SLOT)) ∨
      GetLoadPetInfo stable petEntry petnumber current = (none, PET_SAVE_AS_DELETED) := by
  unfold GetLoadPetInfo
  by_cases hn : petnumber ≠ 0
  · rw [if_pos hn]
    by_cases hc : stabledHasNumber petnumber stable.CurrentPet = true
    · rw [if_pos hc]; exact Or.inl rfl
    · rw [if_neg hc]
      cases hs : firstIndex (stabledHasNumber petnumber) stable.StabledPets with
      | some i => exact Or.inr (Or.inl ⟨i, rfl, rfl⟩)
      | none =>
        simp only
        cases firstIndex (fun pet => pet.PetNumber == petnumber) stable.UnslottedPets with
        | some j => exact Or.inr (Or.inr (Or.inl ⟨j, rfl⟩))
        | none => exact Or.inr (Or.inr (Or.inr rfl))
  · rw [if_neg hn]
    by_cases hcur : current = true
    · rw [if_pos hcur]
      cases stable.CurrentPet with
      | some _ => exact Or.inl rfl
      | none => exact Or.inr (Or.inr (Or.inr rfl))
    · rw [if_neg hcur]
      by_cases he : petEntry ≠ 0
      · rw [if_pos he]
        split_ifs
        · exact Or.inl rfl
        · cases firstIndex (fun pet => pet.CreatureId == petEntry) stable.UnslottedPets with
          | some j => exact Or.inr (Or.inr (Or.inl ⟨j, rfl⟩))
          | none => exact Or.inr (Or.inr (Or.inr rfl))
      · rw [if_neg he]
        cases stable.CurrentPet with
        | some _ => exact Or.inl rfl
        | none =>
          simp only
          split_ifs
          · exact Or.inr (Or.inr (Or.inl ⟨0, rfl⟩))
          · exact Or.inr (Or.inr (Or.inr rfl))

/-- C27: the mode `GetLoadPetInfo` returns names the place of the record it
returns: `PET_SAVE_AS_CURRENT` exactly for the current-slot record,
`PET_SAVE_FIRST_STABLE_SLOT + i` exactly for the record in stable slot `i`,
`PET_SAVE_NOT_IN_SLOT` exactly for an element of the unslotted list, and
`PET_SAVE_AS_DELETED` exactly when no record is returned; a returned pointer
points to a record. The stable slots are numbered below `PET_SAVE_NOT_IN_SLOT`,
as the enumeration has them. -/
theorem C27_mode_names_place (stable : PetStable) (petEntry petnumber : Nat) (current : Bool)
    (hslots : PET_SAVE_FIRST_STABLE_SLOT + (stable.StabledPets.length : Int)
      ≤ PET_SAVE_NOT_IN_SLOT) :
    ((GetLoadPetInfo stable petEntry petnumber current).2 = PET_SAVE_AS_CURRENT ↔
      (GetLoadPetInfo stable petEntry petnumber current).1 = some PetInfoPtr.current) ∧
    (∀ i, i < stable.StabledPets.length →
      ((GetLoadPetInfo stable petEntry petnumber current).2
          = PET_SAVE_FIRST_STABLE_SLOT + (i : Int) ↔
        (GetLoadPetInfo stable petEntry petnumber current).1 = some (PetInfoPtr.stabled i))) ∧
    (∀ i, (GetLoadPetInfo stable petEntry petnumber current).1 = some (PetInfoPtr.stabled i) →
      i < stable.StabledPets.length) ∧
    ((GetLoadPetInfo stable petEntry petnumber current).2 = PET_SAVE_NOT_IN_SLOT ↔
      ∃ j, (GetLoadPetInfo stable petEntry petnumber current).1
        = some (PetInfoPtr.unslotted j)) ∧
    ((GetLoadPetInfo stable petEntry petnumber current).2 = PET_SAVE_AS_DELETED ↔
      (GetLoadPetInfo stable petEntry petnumber current).1 = none) ∧
    (∀ ptr, (GetLoadPetInfo stable petEntry petnumber current).1 = some ptr →
      ∃ record, stable.deref ptr = some record) := by
  have hderef : ∀ ptr, (GetLoadPetInfo stable petEntry petnumber current).1 = some ptr →
      ∃ record, stable.deref ptr = some record := by
    intro ptr hptr
    have := GetLoadPetInfo_deref_ne_none stable petEntry petnumber current ptr hptr
    exact Option.ne_none_iff_exists'.1 this
  have hc : PET_SAVE_AS_CURRENT = (0 : Int) := rfl
  have hf : PET_SAVE_FIRST_STABLE_SLOT = (1 : Int) := rfl
  have hn : PET_SAVE_NOT_IN_SLOT = (100 : Int) := rfl
  have hd : PET_SAVE_AS_DELETED = (-1 : Int) := rfl
  rw [hf, hn] at hslots
  refine ⟨?_, ?_, ?_, ?_, ?_, hderef⟩
  · rcases GetLoadPetInfo_shape stable petEntry petnumber current with h | ⟨i, hi, h⟩ | ⟨j, h⟩ | h
    · rw [h]; simp
    · rw [h]; simp only [hc, hf]; simp; (try unfold PetSaveMode at *); omega
    · rw [h]; simp [hc, hn]
    · rw [h]; simp [hc, hd]
  · intro k hk
    rcases GetLoadPetInfo_shape stable petEntry petnumber current with h | ⟨i, hi, h⟩ | ⟨j, h⟩ | h
    · rw [h]; simp only [hc, hf]; simp; (try unfold PetSaveMode at *); omega
    · rw [h]; simp only [hf]; simp
    · rw [h]; simp only [hn, hf]; simp; (try unfold PetSaveMode at *); omega
    · rw [h]; simp only [hd, hf]; simp; (try unfold PetSaveMode at *); omega
  · intro k hk
    rcases GetLoadPetInfo_shape stable petEntry petnumber current with h | ⟨i, hi, h⟩ | ⟨j, h⟩ | h
    · rw [h] at hk; simp at hk
    · rw [h] at hk
      simp only [Option.some.injEq, PetInfoPtr.stabled.injEq] at hk
      rw [← hk]
      exact firstIndex_lt _ _ _ hi
    · rw [h] at hk; simp at hk
    · rw [h] at hk; simp at hk
  · rcases GetLoadPetInfo_shape stable petEntry petnumber current with h | ⟨i, hi, h⟩ | ⟨j, h⟩ | h
    · rw [h]; simp [hc, hn]
    · have hlt := firstIndex_lt _ _ _ hi
      rw [h]; simp only [hn, hf]; simp; (try unfold PetSaveMode at *); omega
    · rw [h]; simp
    · rw [h]; simp [hd, hn]
  · rcases GetLoadPetInfo_shape stable petEntry petnumber current with h | ⟨i, hi, h⟩ | ⟨j, h⟩ | h
    · rw [h]; simp [hc, hd]
    · rw [h]; simp only [hd, hf]; simp; (try unfold PetSaveMode at *); omega
    · rw [h]; simp [hd, hn]
    · rw [h]; simp

end Pet

namespace Pet

/-- Witness of C27: in the sample stable the record with number 2 is in
stable slot 1, and a lookup by that number returns mode first stable slot + 1. -/
theorem C27_mode_names_place_witness :
    (GetLoadPetInfo stableSample 0 2 false).2 = PET_SAVE_FIRST_STABLE_SLOT + ((1 : Nat) : Int) ∧
      (GetLoadPetInfo stableSample 0 2 false).1 = some (PetInfoPtr.stabled 1) :=
  ⟨((C27_mode_names_place stableSample 0 2 false (by decide)).2.1 1 (by decide)).2 (by decide),
    by decide⟩

theorem count_filterMap_set (record : PetInfo) (cur : Option PetInfo) (x : PetInfo) :
    ∀ (l : List (Option PetInfo)) (i : Nat), l[i]? = some (some record) →
      List.count x ((l.set i cur).filterMap id) + List.count x [record]
        = List.count x (l.filterMap id) + List.count x cur.toList := by
  intro l
  induction l with
  | nil => intro i h; simp at h
  | cons a rest ih =>
    intro i h
    cases i with
    | zero =>
      simp only [List.getElem?_cons_zero, Option.some.injEq] at h
      subst h
      cases cur with
      | none => simp [List.filterMap_cons, List.count_cons]
      | some c => simp [List.filterMap_cons, List.count_cons]; omega
    | succ j =>
      simp only [List.getElem?_cons_succ] at h
      have := ih j h
      cases a with
      | none => simpa [List.filterMap_cons] using this
      | some b =>
        simp only [List.set_cons_succ, List.filterMap_cons, id_eq, List.count_cons] at this ⊢
        omega

/-- C28: when `GetLoadPetInfo` returned a stable-slot mode, the search of the
stable slots by `petnumber` in `LoadPetFromDB` finds the slot the record was
returned from, so the assertion holds (`makeCurrent` does not end in `none`);
after the swap the current slot holds the requested record, that stable slot
holds the former content of the current slot, every other place is unchanged
and the records of the stable are the same ones, each as often as before. The
last stable slot is numbered below `PET_SAVE_NOT_IN_SLOT`, as the enumeration
has it. -/
theorem C28_stable_swap (w : World) (stable : PetStable) (petEntry petnumber : Nat)
    (current : Bool) (petInfo : PetInfo)
    (hlast : (w.MAX_PET_STABLES : Int) < PET_SAVE_NOT_IN_SLOT)
    (hmode : PET_SAVE_FIRST_STABLE_SLOT ≤ (GetLoadPetInfo stable petEntry petnumber current).2 ∧
      (GetLoadPetInfo stable petEntry petnumber current).2 ≤ (w.MAX_PET_STABLES : Int)) :
    ∃ i record stable1,
      GetLoadPetInfo stable petEntry petnumber current
        = (some (PetInfoPtr.stabled i), PET_SAVE_FIRST_STABLE_SLOT + (i : Int)) ∧
      stable.deref (PetInfoPtr.stabled i) = some record ∧
      record.PetNumber = petnumber ∧
      firstIndex (stabledHasNumber petnumber) stable.StabledPets = some i ∧
      makeCurrent w stable petInfo (GetLoadPetInfo stable petEntry petnumber current).2 petnumber
        = some stable1 ∧
      stable1.CurrentPet = some record ∧
      stable1.StabledPets[i]? = some stable.CurrentPet ∧
      (∀ k, k ≠ i → stable1.StabledPets[k]? = stable.StabledPets[k]?) ∧
      stable1.StabledPets.length = stable.StabledPets.length ∧
      stable1.UnslottedPets = stable.UnslottedPets ∧
      List.Perm stable1.recordsInSearchOrder stable.recordsInSearchOrder := by
  have hc : PET_SAVE_AS_CURRENT = (0 : Int) := rfl
  have hf : PET_SAVE_FIRST_STABLE_SLOT = (1 : Int) := rfl
  have hn : PET_SAVE_NOT_IN_SLOT = (100 : Int) := rfl
  have hd : PET_SAVE_AS_DELETED = (-1 : Int) := rfl
  rcases GetLoadPetInfo_shape stable petEntry petnumber current with h | ⟨i, hi, h⟩ | ⟨j, h⟩ | h
  · rw [h] at hmode; simp only [hc, hf, hn] at hmode hlast; (try unfold PetSaveMode at *); omega
  · obtain ⟨a, ha, hpa⟩ := firstIndex_some_get _ _ _ hi
    have hlt := firstIndex_lt _ _ _ hi
    cases a with
    | none => simp [stabledHasNumber] at hpa
    | some record =>
      have hnum : record.PetNumber = petnumber := by simpa [stabledHasNumber] using hpa
      have hmk : makeCurrent w stable petInfo
          (GetLoadPetInfo stable petEntry petnumber current).2 petnumber
          = some { stable with
              CurrentPet := some record
              StabledPets := stable.StabledPets.set i stable.CurrentPet } := by
        have hne : ¬ (GetLoadPetInfo stable petEntry petnumber current).2
            = PET_SAVE_NOT_IN_SLOT := by
          intro hEq
          rw [hEq] at hmode
          exact absurd hlast (not_lt.2 hmode.2)
        unfold makeCurrent
        rw [if_neg hne, if_pos hmode, hi]
        simp only [ha, Option.join]
        rfl
      refine ⟨i, record, _, h, ?_, hnum, hi, hmk, rfl, ?_, ?_, ?_, rfl, ?_⟩
      · simp [PetStable.deref, ha]
      · simp [List.getElem?_set, hlt]
      · intro k hk
        simp only [List.getElem?_set]
        rw [if_neg (fun hEq => hk hEq.symm)]
      · simp
      · rw [List.perm_iff_count]
        intro x
        have hcount := count_filterMap_set record stable.CurrentPet x stable.StabledPets i ha
        simp only [PetStable.recordsInSearchOrder, List.count_append, Option.toList] at hcount ⊢
        omega
  · rw [h] at hmode; simp only [hn, hf] at hmode hlast; (try unfold PetSaveMode at *); omega
  · rw [h] at hmode; simp only [hd, hf, hn] at hmode hlast; (try unfold PetSaveMode at *); omega

/-- Witness of C28: in the sample stable the pet with number 2 is fetched from
stable slot 1 and the former current pet takes that slot. -/
theorem C28_stable_swap_witness :
    ∃ i record stable1,
      GetLoadPetInfo stableSample 0 2 false
        = (some (PetInfoPtr.stabled i), PET_SAVE_FIRST_STABLE_SLOT + (i : Int)) ∧
      stableSample.deref (PetInfoPtr.stabled i) = some record ∧
      record.PetNumber = 2 ∧
      firstIndex (stabledHasNumber 2) stableSample.StabledPets = some i ∧
      makeCurrent worldSample stableSample { PetNumber := 2, CreatureId := 8 }
          (GetLoadPetInfo stableSample 0 2 false).2 2
        = some stable1 ∧
      stable1.CurrentPet = some record ∧
      stable1.StabledPets[i]? = some stableSample.CurrentPet ∧
      (∀ k, k ≠ i → stable1.StabledPets[k]? = stableSample.StabledPets[k]?) ∧
      stable1.StabledPets.length = stableSample.StabledPets.length ∧
      stable1.UnslottedPets = stableSample.UnslottedPets ∧
      List.Perm stable1.recordsInSearchOrder stableSample.recordsInSearchOrder :=
  C28_stable_swap worldSample stableSample 0 2 false { PetNumber := 2, CreatureId := 8 }
    (by decide) (by decide)

end Pet

namespace Pet

/-! ### The used talent points over a learn and an unlearn -/

theorem ToggleAutocast_used (b : AbilityBook) (spellInfo : SpellInfo) (apply : Bool) :
    (ToggleAutocast b spellInfo apply).m_usedTalentCount = b.m_usedTalentCount := by
  unfold ToggleAutocast
  by_cases ha : (!spellInfo.IsAutocastable) = true
  · rw [if_pos ha]
  · rw [if_neg ha]
    cases findSpell b.m_spells spellInfo.Id with
    | none => rfl
    | some entry =>
      simp only
      split_ifs <;> rfl

theorem ToggleAutocast_known_any (b : AbilityBook) (spellInfo : SpellInfo) (apply : Bool)
    (spell : Nat) (h : HasSpell b.m_spells spell = true) :
    HasSpell (ToggleAutocast b spellInfo apply).m_spells spell = true := by
  by_cases hs : spell = spellInfo.Id
  · subst hs
    exact ToggleAutocast_keeps_known b spellInfo apply h
  · rw [HasSpell_congr _ _ _ (ToggleAutocast_other b spellInfo apply spell hs)]
    exact h

theorem addSpellFinish_used (w : SpellWorld) (level : Nat) (b : AbilityBook)
    (spellInfo : SpellInfo) (spellId : Nat) (newspell : PetSpell) :
    (addSpellFinish w level b spellInfo spellId newspell).1.m_usedTalentCount
      = if w.GetTalentSpellCost spellId ≠ 0 then
          (b.m_usedTalentCount + w.GetTalentSpellCost spellId) % UINT32
        else b.m_usedTalentCount := by
  unfold addSpellFinish
  simp only
  by_cases hc : w.GetTalentSpellCost spellId ≠ 0
  · rw [if_pos hc, if_pos hc]
    simp only [ToggleAutocast_used]
  · rw [if_neg hc, if_neg hc]
    simp only [ToggleAutocast_used]

theorem addSpellFinish_has (w : SpellWorld) (level : Nat) (b : AbilityBook)
    (spellInfo : SpellInfo) (spellId : Nat) (newspell : PetSpell)
    (hnone : findSpell b.m_spells spellId = none)
    (hstate : newspell.state ≠ PetSpellState.PETSPELL_REMOVED) :
    HasSpell (addSpellFinish w level b spellInfo spellId newspell).1.m_spells spellId = true := by
  have hassign : assignSpell b.m_spells spellId newspell = b.m_spells ++ [(spellId, newspell)] := by
    unfold assignSpell
    rw [hnone]
    rfl
  have hspells : (addSpellFinish w level b spellInfo spellId newspell).1.m_spells
      = (ToggleAutocast { b with m_spells := b.m_spells ++ [(spellId, newspell)] } spellInfo
          (newspell.active == ActiveStates.ACT_ENABLED)).m_spells := by
    unfold addSpellFinish
    simp only [hassign]
    split_ifs <;> rfl
  rw [hspells]
  apply ToggleAutocast_known_any
  rw [HasSpell_iff]
  exact ⟨newspell, findSpell_append_new _ _ _ hnone, hstate⟩

theorem removeSpellCore_used (w : SpellWorld) (level : Nat) (b : AbilityBook) (spell : Nat)
    (h : HasSpell b.m_spells spell = true) :
    ∃ b1, removeSpellCore w level b spell = some b1 ∧
      b1.m_usedTalentCount
        = if w.GetTalentSpellCost spell > 0 then
            (if b.m_usedTalentCount > w.GetTalentSpellCost spell then
              b.m_usedTalentCount - w.GetTalentSpellCost spell else 0)
          else b.m_usedTalentCount := by
  obtain ⟨entry, hfind, hstate⟩ := (HasSpell_iff _ _).1 h
  unfold removeSpellCore
  rw [hfind]
  simp only
  rw [if_neg hstate]
  by_cases hc : w.GetTalentSpellCost spell > 0
  · rw [if_pos hc, if_pos hc]
    exact ⟨_, rfl, rfl⟩
  · rw [if_neg hc, if_neg hc]
    exact ⟨_, rfl, rfl⟩

theorem removeSpellCore_unknown (w : SpellWorld) (level : Nat) (b : AbilityBook) (spell : Nat)
    (h : HasSpell b.m_spells spell = false) :
    removeSpellCore w level b spell = none := by
  unfold removeSpellCore
  unfold HasSpell at h
  cases hf : findSpell b.m_spells spell with
  | none => rfl
  | some entry =>
    rw [hf] at h
    simp only [bne_eq_false_iff_eq, bne_iff_ne, ne_eq, Decidable.not_not] at h
    have hs : entry.state = PetSpellState.PETSPELL_REMOVED := by
      cases hst : entry.state <;> rw [hst] at h <;> first | rfl | exact absurd h (by decide)
    simp only
    rw [if_pos hs]

/-- The talent branch of the insertion for a spell without an entry, with
every other rank of the node unknown: the spell is known afterwards and its
cost is added to the used points. -/
theorem addSpellNew_talent_used (w : SpellWorld) (level : Nat) (b : AbilityBook)
    (spellInfo : SpellInfo) (spellId talent : Nat)
    (active : ActiveStates) (state : PetSpellState) (type : PetSpellType)
    (htal : w.GetTalentSpellPos spellId = some talent)
    (hranks : ∀ talentInfo, w.sTalentStore talent = some talentInfo →
      ∀ r ∈ talentInfo.RankID, r ≠ 0 → r ≠ spellId → HasSpell b.m_spells r = false)
    (hnone : findSpell b.m_spells spellId = none)
    (hstate : state ≠ PetSpellState.PETSPELL_REMOVED) :
    HasSpell (addSpellNew w level b spellInfo spellId active state type).1.m_spells spellId
        = true ∧
      (addSpellNew w level b spellInfo spellId active state type).1.m_usedTalentCount
        = (if w.GetTalentSpellCost spellId ≠ 0 then
            (b.m_usedTalentCount + w.GetTalentSpellCost spellId) % UINT32
          else b.m_usedTalentCount) ∧
      (addSpellNew w level b spellInfo spellId active state type).2 = true := by
  unfold addSpellNew
  simp only [htal]
  cases hnode : w.sTalentStore talent with
  | none =>
    simp only
    exact ⟨addSpellFinish_has _ _ _ _ _ _ hnone hstate, addSpellFinish_used _ _ _ _ _ _,
      addSpellFinish_true _ _ _ _ _ _⟩
  | some talentInfo =>
    simp only
    rw [unlearnOtherTalentRanks_noop w level spellId talentInfo.RankID b
      (hranks talentInfo hnode)]
    exact ⟨addSpellFinish_has _ _ _ _ _ _ hnone hstate, addSpellFinish_used _ _ _ _ _ _,
      addSpellFinish_true _ _ _ _ _ _⟩

/-- What `addSpell` does for a talent that is unknown together with every
other rank of its node: it either refuses without a change of the used points
and of the knowledge of the spell, or learns the spell and adds its cost. -/
theorem addSpell_talent_used (w : SpellWorld) (level : Nat) (b : AbilityBook)
    (spellId talent : Nat) (active : ActiveStates) (state : PetSpellState) (type : PetSpellType)
    (htal : w.GetTalentSpellPos spellId = some talent)
    (hranks : ∀ talentInfo, w.sTalentStore talent = some talentInfo →
      ∀ r ∈ talentInfo.RankID, r ≠ 0 → r ≠ spellId → HasSpell b.m_spells r = false)
    (hunknown : HasSpell b.m_spells spellId = false)
    (hstate : state ≠ PetSpellState.PETSPELL_REMOVED) :
    ((addSpell w level b spellId active state type).2 = false ∧
        (addSpell w level b spellId active state type).1.m_usedTalentCount
          = b.m_usedTalentCount ∧
        HasSpell (addSpell w level b spellId active state type).1.m_spells spellId = false) ∨
      ((addSpell w level b spellId active state type).2 = true ∧
        HasSpell (addSpell w level b spellId active state type).1.m_spells spellId = true ∧
        (addSpell w level b spellId active state type).1.m_usedTalentCount
          = (if w.GetTalentSpellCost spellId ≠ 0 then
              (b.m_usedTalentCount + w.GetTalentSpellCost spellId) % UINT32
            else b.m_usedTalentCount)) := by
  unfold addSpell
  cases hinfo : w.GetSpellInfo spellId with
  | none =>
    left
    simp only
    split_ifs
    · exact ⟨rfl, rfl, hunknown⟩
    · exact ⟨rfl, rfl, hunknown⟩
  | some spellInfo =>
    right
    simp only
    cases hfind : findSpell b.m_spells spellId with
    | none =>
      simp only
      obtain ⟨h1, h2, h3⟩ := addSpellNew_talent_used w level b spellInfo spellId talent active
        state type htal hranks hfind hstate
      exact ⟨h3, h1, h2⟩
    | some entry =>
      have hrem : entry.state = PetSpellState.PETSPELL_REMOVED := by
        by_contra hne
        have : HasSpell b.m_spells spellId = true := (HasSpell_iff _ _).2 ⟨entry, hfind, hne⟩
        rw [hunknown] at this
        exact absurd this (by decide)
      simp only
      rw [if_pos hrem]
      have hranks2 : ∀ talentInfo, w.sTalentStore talent = some talentInfo →
          ∀ r ∈ talentInfo.RankID, r ≠ 0 → r ≠ spellId →
            HasSpell ({ b with m_spells := eraseSpell b.m_spells spellId } :
              AbilityBook).m_spells r = false := by
        intro talentInfo hnode r hr h0 hne
        rw [HasSpell_congr _ _ _ (findSpell_eraseSpell_ne b.m_spells spellId r hne)]
        exact hranks talentInfo hnode r hr h0 hne
      obtain ⟨h1, h2, h3⟩ := addSpellNew_talent_used w level
        { b with m_spells := eraseSpell b.m_spells spellId } spellInfo spellId talent active
        PetSpellState.PETSPELL_CHANGED type htal hranks2
        (findSpell_eraseSpell_self b.m_spells spellId) (by decide)
      exact ⟨h3, h1, h2⟩

theorem removeSpell_no_prev (w : SpellWorld) (level : Nat) (b : AbilityBook) (spell_id : Nat)
    (learn_prev clear_ab : Bool)
    (hprev : learn_prev = false ∨ w.GetPrevSpellInChain spell_id = 0) :
    removeSpell w level b spell_id learn_prev clear_ab
      = match removeSpellCore w level b spell_id with
        | none => (b, false)
        | some b1 => (b1, true) := by
  unfold removeSpell
  cases removeSpellCore w level b spell_id with
  | none => rfl
  | some b1 =>
    simp only
    rcases hprev with h | h
    · rw [h]; rfl
    · rw [h]
      split_ifs <;> first | rfl | (exfalso; omega)

/-- C29 (counterexample): in the sample talent node whose ranks form a chain,
with an empty book, `addSpell(301)` followed by `removeSpell(301, true)` leaves
one used talent point where there was none: the removal re-learns the previous
rank 300, which costs one point. -/
theorem C29_counterexample :
    talentChainWorldSample.GetTalentSpellPos 301 = some 1 ∧
    talentChainWorldSample.GetTalentSpellCost 301 = 2 ∧
    HasSpell ({} : AbilityBook).m_spells 300 = false ∧
    HasSpell ({} : AbilityBook).m_spells 301 = false ∧
    HasSpell ({} : AbilityBook).m_spells 302 = false ∧
    ({} : AbilityBook).m_usedTalentCount = 0 ∧
    (addSpell talentChainWorldSample 80 {} 301).1.m_usedTalentCount = 2 ∧
    (removeSpell talentChainWorldSample 80 (addSpell talentChainWorldSample 80 {} 301).1
      301 true).1.m_usedTalentCount = 1 := by
  refine ⟨by decide, by decide, by decide, by decide, by decide, by decide, by decide, by decide⟩

/-- C29 (amended): for a talent spell `S` of cost `c > 0` that is unknown
together with every other rank of its node, `addSpell(S)` followed by a
`removeSpell(S)` that does not re-learn a previous rank (`learn_prev` false, or
`S` has no previous spell in its chain) restores `m_usedTalentCount`, provided
the count plus `c` fits in 32 bits; when `addSpell` returns true it adds `c`
and `removeSpell` returns true. The arguments of `addSpell` are arbitrary but
for a state other than removed (the default is new). -/
theorem C29_talent_points_restored (w : SpellWorld) (level : Nat) (b : AbilityBook)
    (spellId talent c : Nat) (active : ActiveStates) (state : PetSpellState)
    (type : PetSpellType) (learn_prev clear_ab : Bool)
    (htal : w.GetTalentSpellPos spellId = some talent)
    (hcost : w.GetTalentSpellCost spellId = c) (hc : 0 < c)
    (hranks : ∀ talentInfo, w.sTalentStore talent = some talentInfo →
      ∀ r ∈ talentInfo.RankID, r ≠ 0 → r ≠ spellId → HasSpell b.m_spells r = false)
    (hunknown : HasSpell b.m_spells spellId = false)
    (hstate : state ≠ PetSpellState.PETSPELL_REMOVED)
    (hover : b.m_usedTalentCount + c < UINT32)
    (hprev : learn_prev = false ∨ w.GetPrevSpellInChain spellId = 0) :
    (removeSpell w level (addSpell w level b spellId active state type).1 spellId
        learn_prev clear_ab).1.m_usedTalentCount = b.m_usedTalentCount ∧
      ((addSpell w level b spellId active state type).2 = true →
        (addSpell w level b spellId active state type).1.m_usedTalentCount
          = b.m_usedTalentCount + c ∧
        (removeSpell w level (addSpell w level b spellId active state type).1 spellId
          learn_prev clear_ab).2 = true) := by
  rw [removeSpell_no_prev w level _ spellId learn_prev clear_ab hprev]
  rcases addSpell_talent_used w level b spellId talent active state type htal hranks hunknown
    hstate with ⟨hret, hused, hhas⟩ | ⟨hret, hhas, hused⟩
  · rw [removeSpellCore_unknown w level _ spellId hhas]
    refine ⟨hused, ?_⟩
    intro htrue
    rw [hret] at htrue
    exact absurd htrue (by decide)
  · obtain ⟨b1, hb1, hb1used⟩ := removeSpellCore_used w level _ spellId hhas
    rw [hb1]
    have hc0 : w.GetTalentSpellCost spellId ≠ 0 := by rw [hcost]; omega
    have hcpos : w.GetTalentSpellCost spellId > 0 := by rw [hcost]; exact hc
    rw [if_pos hc0, hcost, Nat.mod_eq_of_lt hover] at hused
    rw [if_pos hcpos, hused, hcost] at hb1used
    refine ⟨?_, fun _ => ⟨hused, rfl⟩⟩
    show b1.m_usedTalentCount = b.m_usedTalentCount
    rw [hb1used]
    split_ifs <;> omega

/-- Witness of C29: in the sample talent node, with an empty book, learning
rank 301 and removing it without re-learning leaves no used talent point. -/
theorem C29_talent_points_restored_witness :
    (removeSpell talentWorldSample 80 (addSpell talentWorldSample 80 {} 301).1 301
        false true).1.m_usedTalentCount = ({} : AbilityBook).m_usedTalentCount ∧
      ((addSpell talentWorldSample 80 {} 301).2 = true →
        (addSpell talentWorldSample 80 {} 301).1.m_usedTalentCount
          = ({} : AbilityBook).m_usedTalentCount + 2 ∧
        (removeSpell talentWorldSample 80 (addSpell talentWorldSample 80 {} 301).1 301
          false true).2 = true) :=
  C29_talent_points_restored talentWorldSample 80 {} 301 1 2 ActiveStates.ACT_DECIDE
    PetSpellState.PETSPELL_NEW PetSpellType.PETSPELL_NORMAL false true
    (by decide) (by decide) (by decide) (by intro talentInfo _ r _ _ _; rfl) (by decide)
    (by decide) (by decide) (Or.inl rfl)

end Pet

namespace Pet

/-! ### The flush after a sequence of calls on the book -/

/-- C26 (failing input): the book with rank 1 (spell 200) of the sample chain
in state unchanged is in sync with a store holding the one row of spell 200.
After `addSpell(201)` and `addSpell(200)` the book holds rank 2 alone, marked
new: the second call erased the entry of rank 1 that was marked removed and
then refused. `_SaveSpells` emits the insert of spell 201 only, so the store
ends with the rows of 200 and 201 while the book knows 201 only: the rows are
not the known entries of the book. -/
theorem C26_stale_row_after_flush :
    bookInSync loadedRankBookSample.m_spells [(200, ActiveStates.ACT_DISABLED)] ∧
    (runBookCalls rankWorldSample 80 loadedRankBookSample
        [BookCall.addSpell 201]).m_spells
      = [(200, { active := ActiveStates.ACT_DISABLED, state := PetSpellState.PETSPELL_REMOVED }),
         (201, { active := ActiveStates.ACT_DISABLED, state := PetSpellState.PETSPELL_NEW })] ∧
    (runBookCalls rankWorldSample 80 loadedRankBookSample
        [BookCall.addSpell 201, BookCall.addSpell 200]).m_spells
      = [(201, { active := ActiveStates.ACT_DISABLED, state := PetSpellState.PETSPELL_NEW })] ∧
    _SaveSpells 7 (runBookCalls rankWorldSample 80 loadedRankBookSample
        [BookCall.addSpell 201, BookCall.addSpell 200]).m_spells []
      = ([(201, { active := ActiveStates.ACT_DISABLED,
                  state := PetSpellState.PETSPELL_UNCHANGED })],
         [Stmt.CHAR_INS_PET_SPELL 7 201 ActiveStates.ACT_DISABLED]) ∧
    rowsAfterFlush rankWorldSample 80 7 loadedRankBookSample
        [(200, ActiveStates.ACT_DISABLED)] [BookCall.addSpell 201, BookCall.addSpell 200]
      = [(200, ActiveStates.ACT_DISABLED), (201, ActiveStates.ACT_DISABLED)] ∧
    storedSpellRows (_SaveSpells 7 (runBookCalls rankWorldSample 80 loadedRankBookSample
        [BookCall.addSpell 201, BookCall.addSpell 200]).m_spells []).1
      = [(201, ActiveStates.ACT_DISABLED)] ∧
    ¬ List.Perm
      (rowsAfterFlush rankWorldSample 80 7 loadedRankBookSample
        [(200, ActiveStates.ACT_DISABLED)] [BookCall.addSpell 201, BookCall.addSpell 200])
      (storedSpellRows (_SaveSpells 7 (runBookCalls rankWorldSample 80 loadedRankBookSample
        [BookCall.addSpell 201, BookCall.addSpell 200]).m_spells []).1) := by
  have hrows : rowsAfterFlush rankWorldSample 80 7 loadedRankBookSample
        [(200, ActiveStates.ACT_DISABLED)] [BookCall.addSpell 201, BookCall.addSpell 200]
      = [(200, ActiveStates.ACT_DISABLED), (201, ActiveStates.ACT_DISABLED)] := by decide
  have hbook : storedSpellRows (_SaveSpells 7 (runBookCalls rankWorldSample 80
        loadedRankBookSample [BookCall.addSpell 201, BookCall.addSpell 200]).m_spells []).1
      = [(201, ActiveStates.ACT_DISABLED)] := by decide
  refine ⟨⟨by decide, ?_⟩, by decide, by decide, by decide, hrows, hbook, ?_⟩
  · exact List.Perm.refl _
  · rw [hrows, hbook]
    intro hperm
    have := hperm.length_eq
    simp at this

end Pet
